import Mathlib

/-!
# Brownian-motion simulation: collision engine

A shallow embedding of the physics core of `main.go` (wall containment, ball-ball,
ball-box and box-box collision resolution, friction and the per-tick `Update`), followed
by theorems about it.

Numbers: the Go code computes in `float64`.  The definitions below are written once, for
an arbitrary linearly ordered field `α` together with a square-root function `sqrt`
(`math.Sqrt`); they are executable over `ℚ`, and the theorems read them over `ℝ` with
`Real.sqrt`, which is the "arithmetic over the reals" reading of the specification.
-/

namespace Brownian

/-! ## Constants -/

/-- Arena width (`screenWidth`). -/
def screenWidth : Nat := 1900

/-- Arena height (`screenHeight`). -/
def screenHeight : Nat := 1340

/-- Radius given to every ball by `Restart` (`ballRadius`). -/
def ballRadius : Nat := 4

/-- Index of the friction slider in the `sliders` array (`frictionSlider`, the eighth
constant of the `iota` enumeration). -/
def frictionSlider : Nat := 7

/-- Length of the `sliders` array (`numberOfSliders`). -/
def numberOfSliders : Nat := 8

/-! ## Data model -/

/-- Display colour (`color.RGBA`); never read by the physics. -/
structure RGBA where
  R : Nat
  G : Nat
  B : Nat
  A : Nat
  deriving DecidableEq, Repr

/-- The record `Ball`: a single microscopic particle. -/
structure Ball (α : Type) where
  x : α
  y : α
  vx : α
  vy : α
  r : α
  mass : α
  clr : RGBA
  lastHit : Int
  deriving DecidableEq, Repr

/-- The record `Box`: the particle that moves as a result of Brownian motion. -/
structure Box (α : Type) where
  x : α
  y : α
  vx : α
  vy : α
  w : α
  h : α
  mass : α
  clr : RGBA
  deriving DecidableEq, Repr

/-- The physics-relevant part of the record `Slider` (the screen rectangle and the label
of the widget are drawing data). -/
structure Slider (α : Type) where
  value : α
  ival : Int
  min : α
  max : α
  isInteger : Bool
  deriving DecidableEq, Repr

/-- The record `Game`. -/
structure Game (α : Type) where
  balls : List (Ball α)
  boxes : List (Box α)
  ballsVisible : Bool
  deriving DecidableEq, Repr

/-- The only way a tick can abort: `log.Fatal` in `collideBallBox`. -/
inductive Fatal where
  | ballXNaN
  deriving DecidableEq, Repr

section Engine

variable {α : Type} [LinearOrderedField α]

/-- The constant `epsilon = 0.1`. -/
def epsilon : α := 1 / 10

/-- The test `math.IsNaN`: a value is NaN exactly when it differs from itself. -/
def isNaN (x : α) : Bool := decide (x ≠ x)

/-- The function `math.Hypot` in terms of the square root. -/
def hypot (sqrt : α → α) (p q : α) : α := sqrt (p * p + q * q)

/-- The method `Slider.Value`. -/
def Slider.Value (s : Slider α) : α :=
  if s.isInteger then (s.ival : α) else s.value

/-! ## Wall containment -/

/-- The function `checkBallWallCollision`. -/
def checkBallWallCollision (b : Ball α) : Ball α :=
  let b1 : Ball α :=
    if b.x - b.r < 0 then { b with x := b.r, vx := -b.vx }
    else if b.x + b.r > (screenWidth : α) then
      { b with x := (screenWidth : α) - b.r, vx := -b.vx }
    else b
  if b1.y - b1.r < 0 then { b1 with y := b1.r, vy := -b1.vy }
  else if b1.y + b1.r > (screenHeight : α) then
    { b1 with y := (screenHeight : α) - b1.r, vy := -b1.vy }
  else b1

/-- The function `checkBoxWallCollision`. -/
def checkBoxWallCollision (box : Box α) : Box α :=
  let b1 : Box α :=
    if box.x < 0 then { box with x := 0, vx := -box.vx }
    else if box.x + box.w > (screenWidth : α) then
      { box with x := (screenWidth : α) - box.w, vx := -box.vx }
    else box
  if b1.y < 0 then { b1 with y := 0, vy := -b1.vy }
  else if b1.y + b1.h > (screenHeight : α) then
    { b1 with y := (screenHeight : α) - b1.h, vy := -b1.vy }
  else b1

/-! ## Pairwise resolvers -/

/-- The function `collideBalls`; the pair returned is the new `(b1, b2)`. -/
def collideBalls (sqrt : α → α) (b1 b2 : Ball α) : Ball α × Ball α :=
  let dx := b2.x - b1.x
  let dy := b2.y - b1.y
  let dist := hypot sqrt dx dy
  if dist ≥ b1.r + b2.r ∨ dist = 0 then (b1, b2)
  else
    let nx := dx / dist
    let ny := dy / dist
    let v1 := b1.vx * nx + b1.vy * ny
    let v2 := b2.vx * nx + b2.vy * ny
    let m1 := b1.mass
    let m2 := b2.mass
    let v1p := (v1 * (m1 - m2) + 2 * m2 * v2) / (m1 + m2)
    let v2p := (v2 * (m2 - m1) + 2 * m1 * v1) / (m1 + m2)
    let overlap := (b1.r + b2.r) - dist
    ({ b1 with
        vx := b1.vx + (v1p - v1) * nx
        vy := b1.vy + (v1p - v1) * ny
        x := b1.x - overlap / 2 * nx
        y := b1.y - overlap / 2 * ny },
     { b2 with
        vx := b2.vx + (v2p - v2) * nx
        vy := b2.vy + (v2p - v2) * ny
        x := b2.x + overlap / 2 * nx
        y := b2.y + overlap / 2 * ny })

/-- The function `collideBallBox`; the pair returned is the new `(b, box)`, and the
`log.Fatal` exit is the error result. -/
def collideBallBox (sqrt : α → α) (b : Ball α) (box : Box α) (boxIndex : Int) :
    Except Fatal (Ball α × Box α) :=
  if b.lastHit = boxIndex then .ok ({ b with lastHit := -1 }, box)
  else
    let closestX := max box.x (min b.x (box.x + box.w))
    let closestY := max box.y (min b.y (box.y + box.h))
    let dx := closestX - b.x
    let dy := closestY - b.y
    let dist2 := dx * dx + dy * dy
    if dist2 < epsilon then .ok (b, box)
    else
      let r2 := b.r * b.r
      if dist2 > r2 then .ok (b, box)
      else if isNaN b.x then .error Fatal.ballXNaN
      else
        let dist := sqrt dist2
        let m1 := b.mass
        let m2 := box.mass
        let nx := dx / dist
        let ny := dy / dist
        let vBall := b.vx * nx + b.vy * ny
        let vBox := box.vx * nx + box.vy * ny
        let vBallP := (vBall * (m1 - m2) + 2 * m2 * vBox) / (m1 + m2)
        let vBoxP := (vBox * (m2 - m1) + 2 * m1 * vBall) / (m1 + m2)
        let bvx := b.vx
        let bvy := b.vy
        .ok ({ b with
                vx := b.vx + (vBallP - vBall) * nx
                vy := b.vy + (vBallP - vBall) * ny
                x := b.x - bvx
                y := b.y - bvy
                lastHit := boxIndex },
             { box with
                vx := box.vx + (vBoxP - vBox) * nx
                vy := box.vy + (vBoxP - vBox) * ny })

/-- The function `collideBoxes`; the pair returned is the new `(b1, b2)`. -/
def collideBoxes (b1 b2 : Box α) : Box α × Box α :=
  if b1.x + b1.w < b2.x ∨ b2.x + b2.w < b1.x ∨
      b1.y + b1.h < b2.y ∨ b2.y + b2.h < b1.y then (b1, b2)
  else
    let overlapX1 := (b1.x + b1.w) - b2.x
    let overlapX2 := (b2.x + b2.w) - b1.x
    let overlapY1 := (b1.y + b1.h) - b2.y
    let overlapY2 := (b2.y + b2.h) - b1.y
    let dx := min overlapX1 overlapX2
    let dy := min overlapY1 overlapY2
    if dx < dy then
      if b1.x < b2.x then
        ({ b1 with x := b1.x - dx / 2, vx := -b1.vx },
         { b2 with x := b2.x + dx / 2, vx := -b2.vx })
      else
        ({ b1 with x := b1.x + dx / 2, vx := -b1.vx },
         { b2 with x := b2.x - dx / 2, vx := -b2.vx })
    else
      if b1.y < b2.y then
        ({ b1 with y := b1.y - dy / 2, vy := -b1.vy },
         { b2 with y := b2.y + dy / 2, vy := -b2.vy })
      else
        ({ b1 with y := b1.y + dy / 2, vy := -b1.vy },
         { b2 with y := b2.y - dy / 2, vy := -b2.vy })

/-- The function `frictBoxes`; `sliders` is the global slider array, of fixed length
`numberOfSliders`, and the game argument is not used by the body. -/
def frictBoxes (sliders : Fin numberOfSliders → Slider α) (_g : Game α) (b : Box α) :
    Box α :=
  let f := 1 - (sliders ⟨frictionSlider, by decide⟩).Value
  { b with vx := b.vx * f, vy := b.vy * f }

/-- The function `setSlider`, as far as the physics-relevant fields go: the record stored
at an index (the screen position, which depends on the index, is drawing data).  The
field `ival` is `int(value)` in the source; an ordered field has no truncation of its
own, so the caller passes the truncated value. -/
def setSlider (min max value : α) (ival : Int) (isInteger : Bool) : Slider α :=
  { value := value, ival := ival, min := min, max := max, isInteger := isInteger }

/-- The slider array built by `initSliders`: balls, temperature, width, height, gap,
bricks, mass, friction, in the order of the enumeration. -/
def initSliders : Fin numberOfSliders → Slider α := fun k =>
  match k.val with
  | 0 => setSlider 0 5000 350 350 true
  | 1 => setSlider 0 15 5 5 false
  | 2 => setSlider 20 600 250 250 false
  | 3 => setSlider 20 1200 500 500 false
  | 4 => setSlider 0 300 40 40 false
  | 5 => setSlider 0 10 1 1 true
  | 6 => setSlider (1 / 10) 10000 600 600 false
  | _ => setSlider 0 1 0 0 false

/-! ## The tick -/

/-- Step 1 of `Update`: every ball is moved by its velocity, then contained. -/
def moveBalls (balls : List (Ball α)) : List (Ball α) :=
  balls.map fun b => checkBallWallCollision { b with x := b.x + b.vx, y := b.y + b.vy }

/-- Step 1.1 of `Update`: every box is moved by its velocity, then contained. -/
def moveBoxes (boxes : List (Box α)) : List (Box α) :=
  boxes.map fun b => checkBoxWallCollision { b with x := b.x + b.vx, y := b.y + b.vy }

/-- One call `collideBalls(&g.balls[i], &g.balls[j])`, written back in place. -/
def collideBallsAt (sqrt : α → α) (i j : Nat) (balls : List (Ball α)) : List (Ball α) :=
  match balls[i]?, balls[j]? with
  | some b1, some b2 =>
    (balls.set i (collideBalls sqrt b1 b2).1).set j (collideBalls sqrt b1 b2).2
  | _, _ => balls

/-- Step 2 of `Update`: the loops `for i` / `for j := i + 1` over the balls. -/
def ballBallPass (sqrt : α → α) (balls : List (Ball α)) : List (Ball α) :=
  (List.range balls.length).foldl
    (fun bs i =>
      (List.range' (i + 1) (balls.length - (i + 1))).foldl
        (fun bs j => collideBallsAt sqrt i j bs) bs)
    balls

/-- One call `collideBallBox(&g.balls[i], &g.boxes[j], j)`, written back in place. -/
def collideBallBoxAt (sqrt : α → α) (i j : Nat) (g : Game α) : Except Fatal (Game α) :=
  match g.balls[i]?, g.boxes[j]? with
  | some b, some box =>
    match collideBallBox sqrt b box (j : Int) with
    | .ok p => .ok { g with balls := g.balls.set i p.1, boxes := g.boxes.set j p.2 }
    | .error e => .error e
  | _, _ => .ok g

/-- The inner loop of step 3 for ball `i`, run over the boxes `0 .. n-1`. -/
def ballBoxRow (sqrt : α → α) (i n : Nat) (g : Game α) : Except Fatal (Game α) :=
  (List.range n).foldlM (fun g j => collideBallBoxAt sqrt i j g) g

/-- The outer loop of step 3, run over the balls `0 .. m-1`. -/
def ballBoxRows (sqrt : α → α) (m : Nat) (g : Game α) : Except Fatal (Game α) :=
  (List.range m).foldlM (fun g i => ballBoxRow sqrt i g.boxes.length g) g

/-- Step 3 of `Update`: the loops `for i := range g.balls` / `for j := range g.boxes`. -/
def ballBoxPass (sqrt : α → α) (g : Game α) : Except Fatal (Game α) :=
  ballBoxRows sqrt g.balls.length g

/-- One call `collideBoxes(&g.boxes[i], &g.boxes[j])`, written back in place. -/
def collideBoxesAt (i j : Nat) (boxes : List (Box α)) : List (Box α) :=
  match boxes[i]?, boxes[j]? with
  | some b1, some b2 =>
    (boxes.set i (collideBoxes b1 b2).1).set j (collideBoxes b1 b2).2
  | _, _ => boxes

/-- Step 4 of `Update`: the loops `for i` / `for j := i + 1` over the boxes. -/
def boxBoxPass (boxes : List (Box α)) : List (Box α) :=
  (List.range boxes.length).foldl
    (fun bs i =>
      (List.range' (i + 1) (boxes.length - (i + 1))).foldl
        (fun bs j => collideBoxesAt i j bs) bs)
    boxes

/-- The steps of `Update` that come before the ball-box loops: moves, wall containment
and the ball-ball loops. -/
def beforeBallBox (sqrt : α → α) (g : Game α) : Game α :=
  let g1 : Game α := { g with balls := moveBalls g.balls }
  let g2 : Game α := { g1 with boxes := moveBoxes g1.boxes }
  { g2 with balls := ballBallPass sqrt g2.balls }

/-- The steps of `Update` that come after the ball-box loops: the box-box loops and
friction. -/
def afterBallBox (sliders : Fin numberOfSliders → Slider α) (g : Game α) : Game α :=
  let g1 : Game α := { g with boxes := boxBoxPass g.boxes }
  { g1 with boxes := g1.boxes.map fun b => frictBoxes sliders g1 b }

/-- The physics of the method `Game.Update` (one tick); the polling of mouse and keyboard
that follows it in the source is user-interface code and is left out. -/
def Update (sqrt : α → α) (sliders : Fin numberOfSliders → Slider α) (g : Game α) :
    Except Fatal (Game α) :=
  match ballBoxPass sqrt (beforeBallBox sqrt g) with
  | .ok g4 => .ok (afterBallBox sliders g4)
  | .error e => .error e

/-! ## Observables used in the statements -/

/-- Kinetic energy `(1/2) m (vx^2 + vy^2)` of a ball. -/
def Ball.kinetic (b : Ball α) : α := 1 / 2 * b.mass * (b.vx ^ 2 + b.vy ^ 2)

/-- Kinetic energy `(1/2) m (vx^2 + vy^2)` of a box. -/
def Box.kinetic (b : Box α) : α := 1 / 2 * b.mass * (b.vx ^ 2 + b.vy ^ 2)

/-- First coordinate of the closest point of the box to the centre of the ball, as computed
by `collideBallBox` (`closestX`). -/
def closestX (b : Ball α) (box : Box α) : α := max box.x (min b.x (box.x + box.w))

/-- Second coordinate of the closest point of the box to the centre of the ball, as
computed by `collideBallBox` (`closestY`). -/
def closestY (b : Ball α) (box : Box α) : α := max box.y (min b.y (box.y + box.h))

/-- Squared distance from the centre of the ball to the closest point of the box, as
computed by `collideBallBox` (`dist2`). -/
def dist2 (b : Ball α) (box : Box α) : α :=
  (closestX b box - b.x) * (closestX b box - b.x)
    + (closestY b box - b.y) * (closestY b box - b.y)

/-- First component of the normal `(nx, ny)` of `collideBallBox`. -/
def boxNormalX (sqrt : α → α) (b : Ball α) (box : Box α) : α :=
  (closestX b box - b.x) / sqrt (dist2 b box)

/-- Second component of the normal `(nx, ny)` of `collideBallBox`. -/
def boxNormalY (sqrt : α → α) (b : Ball α) (box : Box α) : α :=
  (closestY b box - b.y) / sqrt (dist2 b box)

/-- The one-dimensional elastic formula: the new normal velocity of a body of mass `m1`
and normal velocity `v1` that meets a body of mass `m2` and normal velocity `v2`
(`v1p`, `vBallP`; with the roles exchanged, `v2p`, `vBoxP`). -/
def elastic (m1 m2 v1 v2 : α) : α := (v1 * (m1 - m2) + 2 * m2 * v2) / (m1 + m2)

/-- The call `collideBallBox(b, box, j)` takes its resolution branch: no cooldown, and the
squared distance is neither below `epsilon` nor above the squared radius. -/
def resolves (b : Ball α) (box : Box α) (j : Int) : Prop :=
  b.lastHit ≠ j ∧ ¬ dist2 b box < epsilon ∧ ¬ dist2 b box > b.r * b.r

/-- Whether a call takes the resolution branch can be computed. -/
instance resolvesDecidable (b : Ball α) (box : Box α) (j : Int) :
    Decidable (resolves b box j) := by
  unfold resolves
  infer_instance

/-- Distance between the centres of two balls, as computed by `collideBalls` (`dist`). -/
def ballDist (sqrt : α → α) (b1 b2 : Ball α) : α :=
  hypot sqrt (b2.x - b1.x) (b2.y - b1.y)

/-- First component of the normal `(nx, ny)` of `collideBalls`. -/
def normalX (sqrt : α → α) (b1 b2 : Ball α) : α := (b2.x - b1.x) / ballDist sqrt b1 b2

/-- Second component of the normal `(nx, ny)` of `collideBalls`. -/
def normalY (sqrt : α → α) (b1 b2 : Ball α) : α := (b2.y - b1.y) / ballDist sqrt b1 b2

/-- The guard of `collideBoxes` lets the pair through: on neither axis is one box
strictly beyond the other. -/
def boxesOverlap (b1 b2 : Box α) : Prop :=
  ¬ (b1.x + b1.w < b2.x ∨ b2.x + b2.w < b1.x ∨ b1.y + b1.h < b2.y ∨ b2.y + b2.h < b1.y)

/-- Whether a pair passes the guard of `collideBoxes` can be computed. -/
instance boxesOverlapDecidable (b1 b2 : Box α) : Decidable (boxesOverlap b1 b2) := by
  unfold boxesOverlap
  infer_instance

/-- The minimum overlap on the x axis, as computed by `collideBoxes` (`dx`). -/
def overlapX (b1 b2 : Box α) : α := min ((b1.x + b1.w) - b2.x) ((b2.x + b2.w) - b1.x)

/-- The minimum overlap on the y axis, as computed by `collideBoxes` (`dy`). -/
def overlapY (b1 b2 : Box α) : α := min ((b1.y + b1.h) - b2.y) ((b2.y + b2.h) - b1.y)

/-- Length of the interval shared by the x extents `[x, x + w]` of two boxes (negative
when the extents are apart). -/
def sharedX (b1 b2 : Box α) : α := min (b1.x + b1.w) (b2.x + b2.w) - max b1.x b2.x

/-- Length of the interval shared by the y extents `[y, y + h]` of two boxes (negative
when the extents are apart). -/
def sharedY (b1 b2 : Box α) : α := min (b1.y + b1.h) (b2.y + b2.h) - max b1.y b2.y

/-- On the x axis the corners of the two boxes are ordered the way their centres are. -/
def cornersAsCentresX (b1 b2 : Box α) : Prop :=
  (b1.x < b2.x → b1.x + b1.w / 2 ≤ b2.x + b2.w / 2) ∧
  (¬ b1.x < b2.x → b2.x + b2.w / 2 ≤ b1.x + b1.w / 2)

/-- On the y axis the corners of the two boxes are ordered the way their centres are. -/
def cornersAsCentresY (b1 b2 : Box α) : Prop :=
  (b1.y < b2.y → b1.y + b1.h / 2 ≤ b2.y + b2.h / 2) ∧
  (¬ b1.y < b2.y → b2.y + b2.h / 2 ≤ b1.y + b1.h / 2)

/-- The value of `lastHit` of ball `i`, when there is such a ball. -/
def lastHitAt (g : Game α) (i : Nat) : Option Int := (g.balls[i]?).map Ball.lastHit

/-- The ball-box loops run up to, and not including, the call for ball `i` and box `j`:
the rows of the balls `0 .. i-1` in full, then the row of ball `i` over the boxes
`0 .. j-1`. -/
def ballBoxUpTo (sqrt : α → α) (i j : Nat) (g : Game α) : Except Fatal (Game α) :=
  match ballBoxRows sqrt i g with
  | .ok g1 => ballBoxRow sqrt i j g1
  | .error e => .error e

/-- The state in which, during the tick that starts in `g`, the call
`collideBallBox(&g.balls[i], &g.boxes[j], j)` is made. -/
def callState (sqrt : α → α) (i j : Nat) (g : Game α) : Except Fatal (Game α) :=
  ballBoxUpTo sqrt i j (beforeBallBox sqrt g)

/-- During the tick that starts in `g` the pair (ball `i`, box `j`) is resolved: the call
for the pair is reached and takes the resolution branch of `collideBallBox`. -/
def resolvedAt (sqrt : α → α) (i j : Nat) (g : Game α) : Prop :=
  ∃ s b box, callState sqrt i j g = .ok s ∧ s.balls[i]? = some b ∧ s.boxes[j]? = some box ∧
    resolves b box (j : Int)

/-! ## Concrete inputs -/

/-- A colour for the concrete inputs. -/
def blue : RGBA := ⟨0, 100, 255, 255⟩

/-- Left ball of the head-on scenario: centre `(x, y)`, velocity `(1, 0)`, radius 4,
mass 1. -/
def headOnLeft (x y : α) : Ball α := ⟨x, y, 1, 0, 4, 1, blue, -1⟩

/-- Right ball of the head-on scenario: centre `(x + 6, y)`, velocity `(-1, 0)`,
radius 4, mass 1. -/
def headOnRight (x y : α) : Ball α := ⟨x + 6, y, -1, 0, 4, 1, blue, -1⟩

/-- A colour for the concrete boxes (the one `Restart` gives to every box). -/
def red : RGBA := ⟨200, 30, 0, 255⟩

/-- A ball of mass 1 and radius 4 at `(7, 50)` moving right with velocity `(5, 0)`. -/
def fastBall : Ball α := ⟨7, 50, 5, 0, 4, 1, blue, -1⟩

/-- A stationary box of mass 1000 occupying `[10, 110] x [0, 100]`. -/
def heavyBox : Box α := ⟨10, 0, 0, 0, 100, 100, 1000, red⟩

/-- A ball of radius 4 that has left the arena through the left and the bottom wall. -/
def strayBall : Ball α := ⟨-3, 2000, -2, 7, 4, 1, blue, -1⟩

/-- A box of size `250 x 500` that has left the arena through the right and the top
wall. -/
def strayBox : Box α := ⟨1700, -10, 3, -1, 250, 500, 600, red⟩

/-- A box occupying `[0, 10] x [0, 100]`. -/
def wideBox : Box α := ⟨0, 0, 2, 1, 10, 100, 1, red⟩

/-- A narrower box occupying `[1, 4] x [50, 150]`: its x extent lies inside that of
`wideBox`, its corner is to the right of the corner of `wideBox` and its centre to the
left of the centre of `wideBox`. -/
def narrowBox : Box α := ⟨1, 50, -1, 3, 3, 100, 1, red⟩

/-- A box of the default size `250 x 500` occupying `[0, 250] x [0, 500]`. -/
def rowBoxA : Box α := ⟨0, 0, 1, 0, 250, 500, 600, red⟩

/-- A box of the default size `250 x 500` occupying `[240, 490] x [10, 510]`. -/
def rowBoxB : Box α := ⟨240, 10, -1, 0, 250, 500, 600, red⟩

/-- A world with one ball and two touching boxes of mass 3: the ball sits above the
common corner `(200, 100)` of the boxes and moves down. -/
def cornerWorld : Game α :=
  { balls := [⟨200, 97, 0, 2, 4, 1, blue, -1⟩]
    boxes := [⟨100, 100, 0, 0, 100, 100, 3, red⟩,
                      ⟨200, 100, 0, 0, 100, 100, 3, red⟩]
    ballsVisible := true }

/-- The first tick of `cornerWorld` after the moves: the ball is at `(200, 99)`, one unit
above the corner. -/
def cornerWorldMoved : Game α :=
  { balls := [⟨200, 99, 0, 2, 4, 1, blue, -1⟩]
    boxes := [⟨100, 100, 0, 0, 100, 100, 3, red⟩, ⟨200, 100, 0, 0, 100, 100, 3, red⟩]
    ballsVisible := true }

/-- The first tick of `cornerWorld` after the call for box 0. -/
def cornerWorldHit : Game α :=
  { balls := [⟨200, 97, 0, -1, 4, 1, blue, 0⟩]
    boxes := [⟨100, 100, 0, 1, 100, 100, 3, red⟩, ⟨200, 100, 0, 0, 100, 100, 3, red⟩]
    ballsVisible := true }

/-- The world `cornerWorld` one tick later (friction 0); it is also the state of the first
tick after the call for box 1. -/
def cornerWorldNext : Game α :=
  { balls := [⟨200, 98, 0, 1 / 2, 4, 1, blue, 1⟩]
    boxes := [⟨100, 100, 0, 1, 100, 100, 3, red⟩,
              ⟨200, 100, 0, -1 / 2, 100, 100, 3, red⟩]
    ballsVisible := true }

/-- The second tick of `cornerWorld` after the moves. -/
def cornerWorldNextMoved : Game α :=
  { balls := [⟨200, 197 / 2, 0, 1 / 2, 4, 1, blue, 1⟩]
    boxes := [⟨100, 101, 0, 1, 100, 100, 3, red⟩,
              ⟨200, 199 / 2, 0, -1 / 2, 100, 100, 3, red⟩]
    ballsVisible := true }

/-- A world with one ball and one box: after its move the ball is `fastBall`, which
overlaps `heavyBox`. -/
def oneBoxWorld : Game α :=
  { balls := [⟨2, 50, 5, 0, 4, 1, blue, -1⟩]
    boxes := [heavyBox]
    ballsVisible := true }

/-- A ball of radius 4 well inside the arena. -/
def insideBall : Ball α := ⟨100, 200, 3, -2, 4, 1, blue, -1⟩

/-- Two balls 10 apart, with radii 4 and 4: apart by more than the sum of the radii. -/
def farBall : Ball α := ⟨110, 200, -3, 2, 4, 1, blue, -1⟩

/-- A ball whose centre `(50, 50)` lies inside `heavyBox`. -/
def sunkBall : Ball α := ⟨50, 50, 1, 1, 4, 1, blue, -1⟩

/-- The value `sliders[frictionSlider].Value()` read by `frictBoxes`. -/
def frictionValue (sliders : Fin numberOfSliders → Slider α) : α :=
  (sliders ⟨frictionSlider, by decide⟩).Value

/-- The last loop of `Update`: `frictBoxes(g, &g.boxes[i])` for every box. -/
def frictionPhase (sliders : Fin numberOfSliders → Slider α) (g : Game α) : Game α :=
  { g with boxes := g.boxes.map fun b => frictBoxes sliders g b }

/-- A ball to the upper left of `heavyBox`: the closest point is the corner `(10, 0)`. -/
def cornerBall : Ball α := ⟨7, -4, 0, 0, 4, 1, blue, -1⟩

/-- The slider array of `initSliders` with the friction slider moved to `f`. -/
def slidersWithFriction (f : α) : Fin numberOfSliders → Slider α := fun k =>
  if k.val = frictionSlider then setSlider 0 1 f 0 false else initSliders k

/-! ## The world factory -/

/-- Index of the balls slider (`ballsSlider`). -/
def ballsSlider : Nat := 0

/-- Index of the temperature slider (`temperatureSlider`). -/
def temperatureSlider : Nat := 1

/-- Index of the width slider (`widthSlider`). -/
def widthSlider : Nat := 2

/-- Index of the height slider (`heightSlider`). -/
def heightSlider : Nat := 3

/-- Index of the gap slider (`gapSlider`). -/
def gapSlider : Nat := 4

/-- Index of the bricks slider (`bricksSlider`). -/
def bricksSlider : Nat := 5

/-- Index of the mass slider (`massSlider`). -/
def massSlider : Nat := 6

/-- The constant `ballMass = 1.0`. -/
def ballMass : α := 1

/-- The method `Slider.IntValue`; `trunc` is the conversion `int(...)` of a float. -/
def Slider.IntValue (trunc : α → Int) (s : Slider α) : Int :=
  if s.isInteger then s.ival else trunc s.value

/-- The values that `math/rand` returns during the construction of one ball, in the order
of the calls: `rand.Intn(screenWidth-2*ballRadius)`, `rand.Intn(screenHeight-2*ballRadius)`,
`rand.Float64()` twice, and the `rand.Intn(150)` of `randomColor`. -/
structure Draws (α : Type) where
  ix : Nat
  iy : Nat
  fx : α
  fy : α
  green : Nat
  deriving DecidableEq, Repr

/-- The function `randomColor`, given the value of its `rand.Intn(150)`; the green channel
is a `uint8`. -/
def randomColor (green : Nat) : RGBA := ⟨0, (green + 50) % 256, 255, 255⟩

/-- The only way `Restart` can abort: one of its two `make` calls fails.  The run-time
system panics with `makeslice: len out of range` when the length is negative or exceeds
what it can address, and gives up when it cannot provide the memory. -/
inductive Panic where
  | makeLenOutOfRange
  deriving DecidableEq, Repr

/-- What the run-time system does with a length that is not negative in the two `make`
calls of `Restart`: `makeBalls n` tells whether `make([]Ball, n)` succeeds, and
`makeBoxes n` whether the later `make([]Box, n)` succeeds (the length is within
`maxAlloc` divided by the element size, and the memory is there). -/
structure Runtime where
  makeBalls : Nat → Bool
  makeBoxes : Nat → Bool

/-- The ball that `Restart` builds from the draws `d`. -/
def newBall (maxTemperature : α) (d : Draws α) : Ball α :=
  { x := ((ballRadius + d.ix : Nat) : α)
    y := ((ballRadius + d.iy : Nat) : α)
    vx := d.fx * 2 * maxTemperature - maxTemperature
    vy := d.fy * 2 * maxTemperature - maxTemperature
    r := (ballRadius : α)
    mass := ballMass
    clr := randomColor d.green
    lastHit := -1 }

/-- The box that `Restart` builds at index `i` of `numBricks`. -/
def newBox (numBricks : Int) (boxWidth boxHeight gap boxMass : α) (i : Nat) : Box α :=
  { x := ((screenWidth : α) - (numBricks : α) * boxWidth - ((numBricks - 1 : Int) : α) * gap) / 2
      + (i : α) * (boxWidth + gap)
    y := ((screenHeight : α) - boxHeight) / 2
    vx := 0
    vy := 0
    w := boxWidth
    h := boxHeight
    mass := boxMass
    clr := ⟨200, 30, 0, 255⟩ }

/-- The method `Game.Restart`: the world is rebuilt from the sliders; `rt` tells which
lengths the two `make` calls accept, `rand i` holds the random draws for ball `i`, and the
game argument is overwritten in full. -/
def Restart (rt : Runtime) (trunc : α → Int) (rand : Nat → Draws α)
    (sliders : Fin numberOfSliders → Slider α) (_g : Game α) : Except Panic (Game α) :=
  let numBalls := (sliders ⟨ballsSlider, by decide⟩).IntValue trunc
  let maxTemperature := (sliders ⟨temperatureSlider, by decide⟩).Value
  let numBricks := (sliders ⟨bricksSlider, by decide⟩).IntValue trunc
  let boxWidth := (sliders ⟨widthSlider, by decide⟩).Value
  let boxHeight := (sliders ⟨heightSlider, by decide⟩).Value
  let gap := (sliders ⟨gapSlider, by decide⟩).Value
  let boxMass := (sliders ⟨massSlider, by decide⟩).Value
  if numBalls < 0 then .error Panic.makeLenOutOfRange
  else if rt.makeBalls numBalls.toNat = false then .error Panic.makeLenOutOfRange
  else
    let balls := (List.range numBalls.toNat).map fun i => newBall maxTemperature (rand i)
    if numBricks < 0 then .error Panic.makeLenOutOfRange
    else if rt.makeBoxes numBricks.toNat = false then .error Panic.makeLenOutOfRange
    else
      let boxes := (List.range numBricks.toNat).map fun i =>
        newBox numBricks boxWidth boxHeight gap boxMass i
      .ok { balls := balls, boxes := boxes, ballsVisible := true }

/-- The function `NewGame`: a fresh game, restarted. -/
def NewGame (rt : Runtime) (trunc : α → Int) (rand : Nat → Draws α)
    (sliders : Fin numberOfSliders → Slider α) : Except Panic (Game α) :=
  Restart rt trunc rand sliders { balls := [], boxes := [], ballsVisible := false }

/-- The configuration read by `Restart`: number of bricks. -/
def configBricks (trunc : α → Int) (sliders : Fin numberOfSliders → Slider α) : Int :=
  (sliders ⟨bricksSlider, by decide⟩).IntValue trunc

/-- The configuration read by `Restart`: number of balls. -/
def configBalls (trunc : α → Int) (sliders : Fin numberOfSliders → Slider α) : Int :=
  (sliders ⟨ballsSlider, by decide⟩).IntValue trunc

/-- The configuration read by `Restart`: width of a box. -/
def configWidth (sliders : Fin numberOfSliders → Slider α) : α :=
  (sliders ⟨widthSlider, by decide⟩).Value

/-- The configuration read by `Restart`: height of a box. -/
def configHeight (sliders : Fin numberOfSliders → Slider α) : α :=
  (sliders ⟨heightSlider, by decide⟩).Value

/-- The configuration read by `Restart`: gap between two boxes. -/
def configGap (sliders : Fin numberOfSliders → Slider α) : α :=
  (sliders ⟨gapSlider, by decide⟩).Value

/-- The configuration read by `Restart`: mass of a box. -/
def configMass (sliders : Fin numberOfSliders → Slider α) : α :=
  (sliders ⟨massSlider, by decide⟩).Value

/-- The truncation of a rational number towards zero (`int(...)` on an exact value). -/
def truncRat (q : ℚ) : Int := if 0 ≤ q then ⌊q⌋ else ⌈q⌉

/-- A run-time system that accepts the lengths the sliders can ask for: up to 5000 balls and
up to 10 boxes. -/
def sliderRuntime : Runtime :=
  { makeBalls := fun n => decide (n ≤ 5000), makeBoxes := fun n => decide (n ≤ 10) }

/-- A fixed table of draws for the concrete worlds. -/
def someDraws : Nat → Draws α := fun i => ⟨100 + 10 * i, 200 + i, 1 / 2, 1 / 4, 17⟩

/-- The slider array of `initSliders` with 0 balls, 3 bricks and the mass slider at
`m`. -/
def slidersWithMass (m : α) : Fin numberOfSliders → Slider α := fun k =>
  if k.val = ballsSlider then setSlider 0 5000 0 0 true
  else if k.val = bricksSlider then setSlider 0 10 3 3 true
  else if k.val = massSlider then setSlider (1 / 10) 10000 m 0 false
  else initSliders k

/-! ## Checked division -/

/-- A division that reports a zero divisor instead of dividing. -/
def safeDiv (a b : α) : Option α := if b = 0 then none else some (a / b)

/-- The function `collideBalls` with every division of its body checked: the result is
`none` as soon as a division with a zero divisor is executed. -/
def collideBallsChecked (sqrt : α → α) (b1 b2 : Ball α) : Option (Ball α × Ball α) :=
  let dx := b2.x - b1.x
  let dy := b2.y - b1.y
  let dist := hypot sqrt dx dy
  if dist ≥ b1.r + b2.r ∨ dist = 0 then some (b1, b2)
  else do
    let nx ← safeDiv dx dist
    let ny ← safeDiv dy dist
    let v1 := b1.vx * nx + b1.vy * ny
    let v2 := b2.vx * nx + b2.vy * ny
    let m1 := b1.mass
    let m2 := b2.mass
    let v1p ← safeDiv (v1 * (m1 - m2) + 2 * m2 * v2) (m1 + m2)
    let v2p ← safeDiv (v2 * (m2 - m1) + 2 * m1 * v1) (m1 + m2)
    let overlap := (b1.r + b2.r) - dist
    let h1 ← safeDiv overlap 2
    let h2 ← safeDiv overlap 2
    let h3 ← safeDiv overlap 2
    let h4 ← safeDiv overlap 2
    pure ({ b1 with
              vx := b1.vx + (v1p - v1) * nx
              vy := b1.vy + (v1p - v1) * ny
              x := b1.x - h1 * nx
              y := b1.y - h2 * ny },
          { b2 with
              vx := b2.vx + (v2p - v2) * nx
              vy := b2.vy + (v2p - v2) * ny
              x := b2.x + h3 * nx
              y := b2.y + h4 * ny })

/-- The function `collideBallBox` with every division of its body checked: the result is
`none` as soon as a division with a zero divisor is executed. -/
def collideBallBoxChecked (sqrt : α → α) (b : Ball α) (box : Box α) (boxIndex : Int) :
    Option (Except Fatal (Ball α × Box α)) :=
  if b.lastHit = boxIndex then some (.ok ({ b with lastHit := -1 }, box))
  else
    let closestX := max box.x (min b.x (box.x + box.w))
    let closestY := max box.y (min b.y (box.y + box.h))
    let dx := closestX - b.x
    let dy := closestY - b.y
    let dist2 := dx * dx + dy * dy
    if dist2 < epsilon then some (.ok (b, box))
    else
      let r2 := b.r * b.r
      if dist2 > r2 then some (.ok (b, box))
      else if isNaN b.x then some (.error Fatal.ballXNaN)
      else do
        let dist := sqrt dist2
        let m1 := b.mass
        let m2 := box.mass
        let nx ← safeDiv dx dist
        let ny ← safeDiv dy dist
        let vBall := b.vx * nx + b.vy * ny
        let vBox := box.vx * nx + box.vy * ny
        let vBallP ← safeDiv (vBall * (m1 - m2) + 2 * m2 * vBox) (m1 + m2)
        let vBoxP ← safeDiv (vBox * (m2 - m1) + 2 * m1 * vBall) (m1 + m2)
        let bvx := b.vx
        let bvy := b.vy
        pure (.ok ({ b with
                      vx := b.vx + (vBallP - vBall) * nx
                      vy := b.vy + (vBallP - vBall) * ny
                      x := b.x - bvx
                      y := b.y - bvy
                      lastHit := boxIndex },
                   { box with
                      vx := box.vx + (vBoxP - vBox) * nx
                      vy := box.vy + (vBoxP - vBox) * ny }))

/-- Total kinetic energy of a world: the sum of `(1/2) m (vx^2 + vy^2)` over all balls and
all boxes. -/
def totalKinetic (g : Game α) : α :=
  (g.balls.map Ball.kinetic).sum + (g.boxes.map Box.kinetic).sum

/-- The masses of all balls and of all boxes of a world are positive. -/
def massesPositive (g : Game α) : Prop :=
  (∀ b ∈ g.balls, 0 < b.mass) ∧ (∀ b ∈ g.boxes, 0 < b.mass)

end Engine

/-! ## Algebra of the one-dimensional elastic formula -/

/-- The two impulses of the elastic formula cancel: `m1 (v1' - v1) + m2 (v2' - v2) = 0`. -/
theorem elastic_impulse_balance (m1 m2 v1 v2 : ℝ) (hm : m1 + m2 ≠ 0) :
    m1 * ((v1 * (m1 - m2) + 2 * m2 * v2) / (m1 + m2) - v1)
      + m2 * ((v2 * (m2 - m1) + 2 * m1 * v1) / (m1 + m2) - v2) = 0 := by
  field_simp
  ring

/-! ## Momentum conservation -/

/-- Claim C1. Momentum conservation of `collideBalls` over the reals: for two balls of
positive mass the call keeps both masses and preserves `m1*vx1 + m2*vx2` and
`m1*vy1 + m2*vy2`, whether or not the pair is resolved. -/
theorem collideBalls_momentum (b1 b2 : Ball ℝ) (h1 : 0 < b1.mass) (h2 : 0 < b2.mass) :
    (collideBalls Real.sqrt b1 b2).1.mass = b1.mass ∧
    (collideBalls Real.sqrt b1 b2).2.mass = b2.mass ∧
    b1.mass * (collideBalls Real.sqrt b1 b2).1.vx
        + b2.mass * (collideBalls Real.sqrt b1 b2).2.vx
      = b1.mass * b1.vx + b2.mass * b2.vx ∧
    b1.mass * (collideBalls Real.sqrt b1 b2).1.vy
        + b2.mass * (collideBalls Real.sqrt b1 b2).2.vy
      = b1.mass * b1.vy + b2.mass * b2.vy := by
  have hm : b1.mass + b2.mass ≠ 0 := by positivity
  unfold collideBalls
  simp only []
  split_ifs with h
  · simp
  · refine ⟨rfl, rfl, ?_, ?_⟩
    · simp only []
      generalize (b2.x - b1.x) / hypot Real.sqrt (b2.x - b1.x) (b2.y - b1.y) = nx
      generalize (b2.y - b1.y) / hypot Real.sqrt (b2.x - b1.x) (b2.y - b1.y) = ny
      linear_combination nx * elastic_impulse_balance b1.mass b2.mass
        (b1.vx * nx + b1.vy * ny) (b2.vx * nx + b2.vy * ny) hm
    · simp only []
      generalize (b2.x - b1.x) / hypot Real.sqrt (b2.x - b1.x) (b2.y - b1.y) = nx
      generalize (b2.y - b1.y) / hypot Real.sqrt (b2.x - b1.x) (b2.y - b1.y) = ny
      linear_combination ny * elastic_impulse_balance b1.mass b2.mass
        (b1.vx * nx + b1.vy * ny) (b2.vx * nx + b2.vy * ny) hm

/-- Witness of C1: the head-on scenario. -/
theorem collideBalls_momentum_witness :
    (0 : ℝ) < (headOnLeft (0 : ℝ) 0).mass ∧ (0 : ℝ) < (headOnRight (0 : ℝ) 0).mass ∧
    (headOnLeft (0 : ℝ) 0).mass
        * (collideBalls Real.sqrt (headOnLeft (0 : ℝ) 0) (headOnRight 0 0)).1.vx
      + (headOnRight (0 : ℝ) 0).mass
        * (collideBalls Real.sqrt (headOnLeft (0 : ℝ) 0) (headOnRight 0 0)).2.vx
      = (headOnLeft (0 : ℝ) 0).mass * (headOnLeft (0 : ℝ) 0).vx
        + (headOnRight (0 : ℝ) 0).mass * (headOnRight (0 : ℝ) 0).vx :=
  ⟨by norm_num [headOnLeft], by norm_num [headOnRight],
    (collideBalls_momentum (headOnLeft 0 0) (headOnRight 0 0)
      (by norm_num [headOnLeft]) (by norm_num [headOnRight])).2.2.1⟩

/-! ## Energy conservation -/

/-- The energy balance of the elastic formula along the normal. -/
theorem elastic_energy_balance (m1 m2 v1 v2 : ℝ) (hm : m1 + m2 ≠ 0) :
    m1 * ((v1 * (m1 - m2) + 2 * m2 * v2) / (m1 + m2) - v1)
        * (2 * v1 + ((v1 * (m1 - m2) + 2 * m2 * v2) / (m1 + m2) - v1))
      + m2 * ((v2 * (m2 - m1) + 2 * m1 * v1) / (m1 + m2) - v2)
        * (2 * v2 + ((v2 * (m2 - m1) + 2 * m1 * v1) / (m1 + m2) - v2)) = 0 := by
  field_simp
  ring

/-- Adding impulses `a n` and `b n` along a unit vector `n` keeps the kinetic energy when
the normal energy balance holds. -/
theorem kinetic_of_impulses (m1 m2 ux uy wx wy nx ny a b : ℝ)
    (hn : nx ^ 2 + ny ^ 2 = 1)
    (key : m1 * a * (2 * (ux * nx + uy * ny) + a)
      + m2 * b * (2 * (wx * nx + wy * ny) + b) = 0) :
    1 / 2 * m1 * ((ux + a * nx) ^ 2 + (uy + a * ny) ^ 2)
        + 1 / 2 * m2 * ((wx + b * nx) ^ 2 + (wy + b * ny) ^ 2)
      = 1 / 2 * m1 * (ux ^ 2 + uy ^ 2) + 1 / 2 * m2 * (wx ^ 2 + wy ^ 2) := by
  linear_combination (1 / 2) * (m1 * a ^ 2 + m2 * b ^ 2) * hn + (1 / 2) * key

/-- Dividing a vector by the square root of its squared length gives a unit vector. -/
theorem unit_normal (dx dy : ℝ) (h : Real.sqrt (dx * dx + dy * dy) ≠ 0) :
    (dx / Real.sqrt (dx * dx + dy * dy)) ^ 2 + (dy / Real.sqrt (dx * dx + dy * dy)) ^ 2
      = 1 := by
  have h0 : 0 ≤ dx * dx + dy * dy := add_nonneg (mul_self_nonneg dx) (mul_self_nonneg dy)
  have hs : Real.sqrt (dx * dx + dy * dy) ^ 2 = dx * dx + dy * dy := Real.sq_sqrt h0
  have hs0 : Real.sqrt (dx * dx + dy * dy) ^ 2 ≠ 0 := pow_ne_zero 2 h
  rw [div_pow, div_pow, ← add_div, div_eq_one_iff_eq hs0, hs]
  ring

/-- No real number is NaN. -/
theorem isNaN_real (x : ℝ) : isNaN x = false := by
  simp [isNaN]

/-- Energy is kept by `collideBalls`. -/
theorem collideBalls_kinetic (b1 b2 : Ball ℝ) (h1 : 0 < b1.mass) (h2 : 0 < b2.mass) :
    (collideBalls Real.sqrt b1 b2).1.kinetic + (collideBalls Real.sqrt b1 b2).2.kinetic
      = b1.kinetic + b2.kinetic := by
  have hm : b1.mass + b2.mass ≠ 0 := by positivity
  unfold collideBalls
  simp only []
  split_ifs with h
  · rfl
  · have hd : Real.sqrt ((b2.x - b1.x) * (b2.x - b1.x) + (b2.y - b1.y) * (b2.y - b1.y)) ≠ 0 :=
      fun h0 => h (Or.inr h0)
    simp only [Ball.kinetic, hypot]
    exact kinetic_of_impulses _ _ _ _ _ _ _ _ _ _ (unit_normal _ _ hd)
      (elastic_energy_balance _ _ _ _ hm)

/-- Energy is kept by `collideBallBox`, which returns normally. -/
theorem collideBallBox_kinetic (b : Ball ℝ) (box : Box ℝ) (j : Int)
    (h1 : 0 < b.mass) (h2 : 0 < box.mass) :
    ∃ b1 box1, collideBallBox Real.sqrt b box j = .ok (b1, box1) ∧
      b1.kinetic + box1.kinetic = b.kinetic + box.kinetic := by
  have hm : b.mass + box.mass ≠ 0 := by positivity
  unfold collideBallBox
  simp only [isNaN_real, Bool.false_eq_true, if_false]
  split_ifs with h h3 h4
  · exact ⟨_, _, rfl, rfl⟩
  · exact ⟨_, _, rfl, rfl⟩
  · exact ⟨_, _, rfl, rfl⟩
  · refine ⟨_, _, rfl, ?_⟩
    have hpos : 0 < (max box.x (min b.x (box.x + box.w)) - b.x)
          * (max box.x (min b.x (box.x + box.w)) - b.x)
        + (max box.y (min b.y (box.y + box.h)) - b.y)
          * (max box.y (min b.y (box.y + box.h)) - b.y) := by
      have he : (0 : ℝ) < epsilon := by norm_num [epsilon]
      exact lt_of_lt_of_le he (not_lt.mp h3)
    have hd := (Real.sqrt_pos.mpr hpos).ne'
    simp only [Ball.kinetic, Box.kinetic]
    exact kinetic_of_impulses _ _ _ _ _ _ _ _ _ _ (unit_normal _ _ hd)
      (elastic_energy_balance _ _ _ _ hm)

/-- Claim C2. Kinetic-energy conservation of the two elastic resolvers over the reals, all
masses positive: `collideBalls` keeps the summed kinetic energy of the two balls, and
`collideBallBox` returns normally and keeps the summed kinetic energy of ball and box, for
every box index. -/
theorem elastic_resolvers_energy (b1 b2 b : Ball ℝ) (box : Box ℝ) (j : Int)
    (h1 : 0 < b1.mass) (h2 : 0 < b2.mass) (h3 : 0 < b.mass) (h4 : 0 < box.mass) :
    ((collideBalls Real.sqrt b1 b2).1.kinetic + (collideBalls Real.sqrt b1 b2).2.kinetic
      = b1.kinetic + b2.kinetic) ∧
    ∃ b3 box3, collideBallBox Real.sqrt b box j = .ok (b3, box3) ∧
      b3.kinetic + box3.kinetic = b.kinetic + box.kinetic :=
  ⟨collideBalls_kinetic b1 b2 h1 h2, collideBallBox_kinetic b box j h3 h4⟩

/-- Witness of C2: the head-on pair, and the fast ball against the heavy box. -/
theorem elastic_resolvers_energy_witness :
    (0 : ℝ) < (headOnLeft (0 : ℝ) 0).mass ∧ (0 : ℝ) < (headOnRight (0 : ℝ) 0).mass ∧
    (0 : ℝ) < (fastBall : Ball ℝ).mass ∧ (0 : ℝ) < (heavyBox : Box ℝ).mass ∧
    (((collideBalls Real.sqrt (headOnLeft (0 : ℝ) 0) (headOnRight 0 0)).1.kinetic
        + (collideBalls Real.sqrt (headOnLeft (0 : ℝ) 0) (headOnRight 0 0)).2.kinetic
      = (headOnLeft (0 : ℝ) 0).kinetic + (headOnRight (0 : ℝ) 0).kinetic) ∧
    ∃ b3 box3, collideBallBox Real.sqrt (fastBall : Ball ℝ) heavyBox 0 = .ok (b3, box3) ∧
      b3.kinetic + box3.kinetic = (fastBall : Ball ℝ).kinetic + (heavyBox : Box ℝ).kinetic) :=
  ⟨by norm_num [headOnLeft], by norm_num [headOnRight], by norm_num [fastBall],
    by norm_num [heavyBox],
    elastic_resolvers_energy (headOnLeft 0 0) (headOnRight 0 0) fastBall heavyBox 0
      (by norm_num [headOnLeft]) (by norm_num [headOnRight]) (by norm_num [fastBall])
      (by norm_num [heavyBox])⟩

/-! ## Non-penetration -/

/-- Pushing two points apart along their line by `(R - d) / 2` each puts them at
distance `R`. -/
theorem pushed_apart (x1 y1 x2 y2 d R : ℝ)
    (hd : d * d = (x2 - x1) * (x2 - x1) + (y2 - y1) * (y2 - y1)) (hd0 : d ≠ 0)
    (hR : 0 ≤ R) :
    Real.sqrt
      (((x2 + (R - d) / 2 * ((x2 - x1) / d)) - (x1 - (R - d) / 2 * ((x2 - x1) / d)))
          * ((x2 + (R - d) / 2 * ((x2 - x1) / d)) - (x1 - (R - d) / 2 * ((x2 - x1) / d)))
        + ((y2 + (R - d) / 2 * ((y2 - y1) / d)) - (y1 - (R - d) / 2 * ((y2 - y1) / d)))
          * ((y2 + (R - d) / 2 * ((y2 - y1) / d)) - (y1 - (R - d) / 2 * ((y2 - y1) / d))))
      = R := by
  have e : ((x2 + (R - d) / 2 * ((x2 - x1) / d)) - (x1 - (R - d) / 2 * ((x2 - x1) / d)))
          * ((x2 + (R - d) / 2 * ((x2 - x1) / d)) - (x1 - (R - d) / 2 * ((x2 - x1) / d)))
        + ((y2 + (R - d) / 2 * ((y2 - y1) / d)) - (y1 - (R - d) / 2 * ((y2 - y1) / d)))
          * ((y2 + (R - d) / 2 * ((y2 - y1) / d)) - (y1 - (R - d) / 2 * ((y2 - y1) / d)))
        = R * R := by
    have e1 : ((x2 + (R - d) / 2 * ((x2 - x1) / d)) - (x1 - (R - d) / 2 * ((x2 - x1) / d)))
          * ((x2 + (R - d) / 2 * ((x2 - x1) / d)) - (x1 - (R - d) / 2 * ((x2 - x1) / d)))
        + ((y2 + (R - d) / 2 * ((y2 - y1) / d)) - (y1 - (R - d) / 2 * ((y2 - y1) / d)))
          * ((y2 + (R - d) / 2 * ((y2 - y1) / d)) - (y1 - (R - d) / 2 * ((y2 - y1) / d)))
        = (R / d) ^ 2 * ((x2 - x1) * (x2 - x1) + (y2 - y1) * (y2 - y1)) := by
      field_simp
      ring
    rw [e1, ← hd]
    field_simp
    ring
  rw [e, Real.sqrt_mul_self hR]

/-- The square root of a sum of two squares squares back to it. -/
theorem hypot_mul_self (p q : ℝ) :
    hypot Real.sqrt p q * hypot Real.sqrt p q = p * p + q * q :=
  Real.mul_self_sqrt (add_nonneg (mul_self_nonneg p) (mul_self_nonneg q))

/-- Claim C3. Non-penetration after `collideBalls`: when the centre distance `dist`
satisfies `0 < dist < r1 + r2`, after the call the Euclidean distance between the two
centres is exactly `r1 + r2`, ball 1 having been moved by `-(overlap / 2) n` and ball 2
by `+(overlap / 2) n`, where `n` is the unit vector along the line of centres. -/
theorem collideBalls_touching (b1 b2 : Ball ℝ)
    (h0 : 0 < ballDist Real.sqrt b1 b2) (h : ballDist Real.sqrt b1 b2 < b1.r + b2.r) :
    ballDist Real.sqrt (collideBalls Real.sqrt b1 b2).1 (collideBalls Real.sqrt b1 b2).2
      = b1.r + b2.r ∧
    (collideBalls Real.sqrt b1 b2).1.x
      = b1.x - (b1.r + b2.r - ballDist Real.sqrt b1 b2) / 2 * normalX Real.sqrt b1 b2 ∧
    (collideBalls Real.sqrt b1 b2).1.y
      = b1.y - (b1.r + b2.r - ballDist Real.sqrt b1 b2) / 2 * normalY Real.sqrt b1 b2 ∧
    (collideBalls Real.sqrt b1 b2).2.x
      = b2.x + (b1.r + b2.r - ballDist Real.sqrt b1 b2) / 2 * normalX Real.sqrt b1 b2 ∧
    (collideBalls Real.sqrt b1 b2).2.y
      = b2.y + (b1.r + b2.r - ballDist Real.sqrt b1 b2) / 2 * normalY Real.sqrt b1 b2 ∧
    normalX Real.sqrt b1 b2 ^ 2 + normalY Real.sqrt b1 b2 ^ 2 = 1 := by
  have hc : ¬ (hypot Real.sqrt (b2.x - b1.x) (b2.y - b1.y) ≥ b1.r + b2.r
      ∨ hypot Real.sqrt (b2.x - b1.x) (b2.y - b1.y) = 0) := by
    rintro (h1 | h1)
    · exact absurd h (not_lt.mpr h1)
    · exact h0.ne' h1
  have hR : 0 ≤ b1.r + b2.r := le_of_lt (lt_trans h0 h)
  unfold collideBalls
  simp only [if_neg hc]
  refine ⟨?_, rfl, rfl, rfl, rfl, ?_⟩
  · exact pushed_apart b1.x b1.y b2.x b2.y _ _ (hypot_mul_self _ _) h0.ne' hR
  · exact unit_normal _ _ h0.ne'

/-- The two balls of the head-on scenario are 6 apart. -/
theorem ballDist_headOn (x y : ℝ) :
    ballDist Real.sqrt (headOnLeft x y) (headOnRight x y) = 6 := by
  have e : (x + 6 - x) * (x + 6 - x) + (y - y) * (y - y) = 6 * 6 := by ring
  simp only [ballDist, hypot, headOnLeft, headOnRight]
  rw [e, Real.sqrt_mul_self (by norm_num)]

/-- Witness of C3: the head-on scenario (distance 6, radii 4 and 4). -/
theorem collideBalls_touching_witness :
    (0 : ℝ) < ballDist Real.sqrt (headOnLeft (0 : ℝ) 0) (headOnRight 0 0) ∧
    ballDist Real.sqrt (headOnLeft (0 : ℝ) 0) (headOnRight 0 0)
      < (headOnLeft (0 : ℝ) 0).r + (headOnRight (0 : ℝ) 0).r ∧
    ballDist Real.sqrt (collideBalls Real.sqrt (headOnLeft (0 : ℝ) 0) (headOnRight 0 0)).1
        (collideBalls Real.sqrt (headOnLeft (0 : ℝ) 0) (headOnRight 0 0)).2
      = (headOnLeft (0 : ℝ) 0).r + (headOnRight (0 : ℝ) 0).r :=
  ⟨by rw [ballDist_headOn]; norm_num,
    by rw [ballDist_headOn]; norm_num [headOnLeft, headOnRight],
    (collideBalls_touching (headOnLeft 0 0) (headOnRight 0 0)
      (by rw [ballDist_headOn]; norm_num)
      (by rw [ballDist_headOn]; norm_num [headOnLeft, headOnRight])).1⟩

/-! ## Equal masses -/

/-- The head-on scenario evaluated: the velocities are exchanged and the centres end at
`(x - 1, y)` and `(x + 7, y)`. -/
theorem collideBalls_headOn (x y : ℝ) :
    collideBalls Real.sqrt (headOnLeft x y) (headOnRight x y)
      = (⟨x - 1, y, -1, 0, 4, 1, blue, -1⟩, ⟨x + 7, y, 1, 0, 4, 1, blue, -1⟩) := by
  have hd := ballDist_headOn x y
  simp only [ballDist] at hd
  unfold collideBalls
  simp only [hd]
  simp only [headOnLeft, headOnRight]
  norm_num
  ring

/-- Claim C4. Equal-mass exchange in `collideBalls`: for two overlapping balls
(`0 < dist < r1 + r2`) of equal positive mass, the components of the two velocities along
the line of centres are exchanged and the components perpendicular to it are unchanged;
and the head-on scenario (masses 1, radii 4, centres `(x, y)` and `(x + 6, y)`, velocities
`(1, 0)` and `(-1, 0)`) ends with velocities `(-1, 0)` and `(1, 0)`, centres `(x - 1, y)`
and `(x + 7, y)`, exactly 8 apart. -/
theorem collideBalls_equal_mass (b1 b2 : Ball ℝ) (hm : b1.mass = b2.mass)
    (hpos : 0 < b1.mass) (h0 : 0 < ballDist Real.sqrt b1 b2)
    (h : ballDist Real.sqrt b1 b2 < b1.r + b2.r) :
    ((collideBalls Real.sqrt b1 b2).1.vx * normalX Real.sqrt b1 b2
        + (collideBalls Real.sqrt b1 b2).1.vy * normalY Real.sqrt b1 b2
      = b2.vx * normalX Real.sqrt b1 b2 + b2.vy * normalY Real.sqrt b1 b2) ∧
    ((collideBalls Real.sqrt b1 b2).2.vx * normalX Real.sqrt b1 b2
        + (collideBalls Real.sqrt b1 b2).2.vy * normalY Real.sqrt b1 b2
      = b1.vx * normalX Real.sqrt b1 b2 + b1.vy * normalY Real.sqrt b1 b2) ∧
    ((collideBalls Real.sqrt b1 b2).1.vy * normalX Real.sqrt b1 b2
        - (collideBalls Real.sqrt b1 b2).1.vx * normalY Real.sqrt b1 b2
      = b1.vy * normalX Real.sqrt b1 b2 - b1.vx * normalY Real.sqrt b1 b2) ∧
    ((collideBalls Real.sqrt b1 b2).2.vy * normalX Real.sqrt b1 b2
        - (collideBalls Real.sqrt b1 b2).2.vx * normalY Real.sqrt b1 b2
      = b2.vy * normalX Real.sqrt b1 b2 - b2.vx * normalY Real.sqrt b1 b2) ∧
    (∀ x y : ℝ,
      collideBalls Real.sqrt (headOnLeft x y) (headOnRight x y)
        = (⟨x - 1, y, -1, 0, 4, 1, blue, -1⟩, ⟨x + 7, y, 1, 0, 4, 1, blue, -1⟩) ∧
      ballDist Real.sqrt (⟨x - 1, y, -1, 0, 4, 1, blue, -1⟩ : Ball ℝ)
        ⟨x + 7, y, 1, 0, 4, 1, blue, -1⟩ = 8) := by
  have hc : ¬ (hypot Real.sqrt (b2.x - b1.x) (b2.y - b1.y) ≥ b1.r + b2.r
      ∨ hypot Real.sqrt (b2.x - b1.x) (b2.y - b1.y) = 0) := by
    rintro (h1 | h1)
    · exact absurd h (not_lt.mpr h1)
    · exact h0.ne' h1
  have hn := unit_normal (b2.x - b1.x) (b2.y - b1.y) h0.ne'
  have hm2 : b2.mass + b2.mass ≠ 0 := by
    have : 0 < b2.mass := hm ▸ hpos
    positivity
  unfold collideBalls
  simp only [if_neg hc]
  simp only [normalX, normalY, ballDist, hypot] at hn ⊢
  generalize (b2.x - b1.x)
    / Real.sqrt ((b2.x - b1.x) * (b2.x - b1.x) + (b2.y - b1.y) * (b2.y - b1.y)) = nx at hn ⊢
  generalize (b2.y - b1.y)
    / Real.sqrt ((b2.x - b1.x) * (b2.x - b1.x) + (b2.y - b1.y) * (b2.y - b1.y)) = ny at hn ⊢
  rw [hm]
  have e1 : ((b1.vx * nx + b1.vy * ny) * (b2.mass - b2.mass)
      + 2 * b2.mass * (b2.vx * nx + b2.vy * ny)) / (b2.mass + b2.mass)
      = b2.vx * nx + b2.vy * ny := by
    field_simp
    ring
  have e2 : ((b2.vx * nx + b2.vy * ny) * (b2.mass - b2.mass)
      + 2 * b2.mass * (b1.vx * nx + b1.vy * ny)) / (b2.mass + b2.mass)
      = b1.vx * nx + b1.vy * ny := by
    field_simp
    ring
  rw [e1, e2]
  refine ⟨?_, ?_, ?_, ?_, ?_⟩
  · linear_combination (b2.vx * nx + b2.vy * ny - (b1.vx * nx + b1.vy * ny)) * hn
  · linear_combination (b1.vx * nx + b1.vy * ny - (b2.vx * nx + b2.vy * ny)) * hn
  · ring
  · ring
  · intro x y
    refine ⟨collideBalls_headOn x y, ?_⟩
    have e : (x + 7 - (x - 1)) * (x + 7 - (x - 1)) + (y - y) * (y - y) = 8 * 8 := by ring
    rw [e, Real.sqrt_mul_self (by norm_num)]

/-- Witness of C4: the head-on scenario. -/
theorem collideBalls_equal_mass_witness :
    (headOnLeft (0 : ℝ) 0).mass = (headOnRight (0 : ℝ) 0).mass ∧
    (0 : ℝ) < (headOnLeft (0 : ℝ) 0).mass ∧
    (0 : ℝ) < ballDist Real.sqrt (headOnLeft (0 : ℝ) 0) (headOnRight 0 0) ∧
    ballDist Real.sqrt (headOnLeft (0 : ℝ) 0) (headOnRight 0 0)
      < (headOnLeft (0 : ℝ) 0).r + (headOnRight (0 : ℝ) 0).r ∧
    ((collideBalls Real.sqrt (headOnLeft (0 : ℝ) 0) (headOnRight 0 0)).1.vx
        * normalX Real.sqrt (headOnLeft (0 : ℝ) 0) (headOnRight 0 0)
      + (collideBalls Real.sqrt (headOnLeft (0 : ℝ) 0) (headOnRight 0 0)).1.vy
        * normalY Real.sqrt (headOnLeft (0 : ℝ) 0) (headOnRight 0 0)
      = (headOnRight (0 : ℝ) 0).vx * normalX Real.sqrt (headOnLeft (0 : ℝ) 0) (headOnRight 0 0)
        + (headOnRight (0 : ℝ) 0).vy
          * normalY Real.sqrt (headOnLeft (0 : ℝ) 0) (headOnRight 0 0)) :=
  ⟨rfl, by norm_num [headOnLeft], by rw [ballDist_headOn]; norm_num,
    by rw [ballDist_headOn]; norm_num [headOnLeft, headOnRight],
    (collideBalls_equal_mass (headOnLeft 0 0) (headOnRight 0 0) rfl
      (by norm_num [headOnLeft]) (by rw [ballDist_headOn]; norm_num)
      (by rw [ballDist_headOn]; norm_num [headOnLeft, headOnRight])).1⟩

/-! ## Ball against box -/

/-- Claim C6. One-call cooldown of `collideBallBox`: when `b.lastHit = j` the call returns
normally, sets `b.lastHit` to `-1` and changes nothing else, neither in the ball nor in
the box, whatever the geometry (for every ordered field and every square-root function). -/
theorem collideBallBox_cooldown {α : Type} [LinearOrderedField α] (sqrt : α → α)
    (b : Ball α) (box : Box α) (j : Int) (h : b.lastHit = j) :
    collideBallBox sqrt b box j
      = .ok (⟨b.x, b.y, b.vx, b.vy, b.r, b.mass, b.clr, -1⟩, box) := by
  unfold collideBallBox
  rw [if_pos h]

/-- Witness of C6: the fast ball, overlapping the heavy box, with `lastHit = 0`. -/
theorem collideBallBox_cooldown_witness :
    ({ (fastBall : Ball ℝ) with lastHit := 0 } : Ball ℝ).lastHit = 0 ∧
    collideBallBox Real.sqrt ({ (fastBall : Ball ℝ) with lastHit := 0 } : Ball ℝ) heavyBox 0
      = .ok (⟨7, 50, 5, 0, 4, 1, blue, -1⟩, heavyBox) :=
  ⟨rfl, collideBallBox_cooldown Real.sqrt { (fastBall : Ball ℝ) with lastHit := 0 }
    heavyBox 0 rfl⟩

/-- The value returned by the resolution branch of `collideBallBox`. -/
theorem collideBallBox_resolved (b : Ball ℝ) (box : Box ℝ) (j : Int)
    (h : resolves b box j) :
    collideBallBox Real.sqrt b box j
      = .ok (⟨b.x - b.vx, b.y - b.vy,
              b.vx + (elastic b.mass box.mass
                  (b.vx * boxNormalX Real.sqrt b box + b.vy * boxNormalY Real.sqrt b box)
                  (box.vx * boxNormalX Real.sqrt b box + box.vy * boxNormalY Real.sqrt b box)
                - (b.vx * boxNormalX Real.sqrt b box + b.vy * boxNormalY Real.sqrt b box))
                * boxNormalX Real.sqrt b box,
              b.vy + (elastic b.mass box.mass
                  (b.vx * boxNormalX Real.sqrt b box + b.vy * boxNormalY Real.sqrt b box)
                  (box.vx * boxNormalX Real.sqrt b box + box.vy * boxNormalY Real.sqrt b box)
                - (b.vx * boxNormalX Real.sqrt b box + b.vy * boxNormalY Real.sqrt b box))
                * boxNormalY Real.sqrt b box,
              b.r, b.mass, b.clr, j⟩,
             ⟨box.x, box.y,
              box.vx + (elastic box.mass b.mass
                  (box.vx * boxNormalX Real.sqrt b box + box.vy * boxNormalY Real.sqrt b box)
                  (b.vx * boxNormalX Real.sqrt b box + b.vy * boxNormalY Real.sqrt b box)
                - (box.vx * boxNormalX Real.sqrt b box + box.vy * boxNormalY Real.sqrt b box))
                * boxNormalX Real.sqrt b box,
              box.vy + (elastic box.mass b.mass
                  (box.vx * boxNormalX Real.sqrt b box + box.vy * boxNormalY Real.sqrt b box)
                  (b.vx * boxNormalX Real.sqrt b box + b.vy * boxNormalY Real.sqrt b box)
                - (box.vx * boxNormalX Real.sqrt b box + box.vy * boxNormalY Real.sqrt b box))
                * boxNormalY Real.sqrt b box,
              box.w, box.h, box.mass, box.clr⟩) := by
  obtain ⟨h1, h2, h3⟩ := h
  simp only [dist2, closestX, closestY] at h2 h3
  unfold collideBallBox
  simp only [if_neg h1, if_neg h2, if_neg h3, isNaN_real, Bool.false_eq_true, if_false]
  simp only [elastic, boxNormalX, boxNormalY, dist2, closestX, closestY, add_comm b.mass]

/-- The normal of `collideBallBox` is a unit vector whenever the squared distance is at
least `epsilon`. -/
theorem boxNormal_unit (b : Ball ℝ) (box : Box ℝ) (h : ¬ dist2 b box < epsilon) :
    boxNormalX Real.sqrt b box ^ 2 + boxNormalY Real.sqrt b box ^ 2 = 1 := by
  have he : (0 : ℝ) < epsilon := by norm_num [epsilon]
  have hpos : 0 < dist2 b box := lt_of_lt_of_le he (not_lt.mp h)
  have hd := (Real.sqrt_pos.mpr hpos).ne'
  simp only [dist2] at hd
  simp only [boxNormalX, boxNormalY, dist2]
  exact unit_normal _ _ hd

/-- When the closest point lies horizontally to the right of the centre, the normal of
`collideBallBox` is `(1, 0)`. -/
theorem boxNormal_right (b : Ball ℝ) (box : Box ℝ) (hy : closestY b box = b.y)
    (hx : b.x < closestX b box) :
    boxNormalX Real.sqrt b box = 1 ∧ boxNormalY Real.sqrt b box = 0 := by
  have hpos : 0 < closestX b box - b.x := sub_pos.mpr hx
  have hs : Real.sqrt (dist2 b box) = closestX b box - b.x := by
    have e : dist2 b box = (closestX b box - b.x) * (closestX b box - b.x) := by
      simp only [dist2, hy]
      ring
    rw [e, Real.sqrt_mul_self hpos.le]
  constructor
  · rw [boxNormalX, hs, div_self hpos.ne']
  · rw [boxNormalY, hy, sub_self, zero_div]

/-- Claim C7. Resolution branch of `collideBallBox`: for positive masses, `b.lastHit ≠ j`
and `0.1 ≤ dist2 ≤ r^2`, the call returns normally; the ball ends at `(x - vx, y - vy)` for
its velocity before the call, with `lastHit = j`; position and size of the box (and radius
and both masses) are unchanged; the divisor `m1 + m2` is positive, the normal `n` is a
unit vector and each velocity changes by `(v' - v) n`, where `v` is its component along
`n` and `v'` the value of the elastic formula.  Scenario: a ball of velocity `(5, 0)`
against a stationary box of 1000 times its mass, closest point horizontally to the right:
the new velocity is `(-4995/1001, 0)`, within `0.01` of `-5`, and `x` is reduced by 5. -/
theorem collideBallBox_resolution (b : Ball ℝ) (box : Box ℝ) (j : Int)
    (hb : 0 < b.mass) (hbox : 0 < box.mass) (hl : b.lastHit ≠ j)
    (hlo : 1 / 10 ≤ dist2 b box) (hhi : dist2 b box ≤ b.r ^ 2) :
    ∃ b1 box1, collideBallBox Real.sqrt b box j = .ok (b1, box1) ∧
      0 < b.mass + box.mass ∧
      b1.x = b.x - b.vx ∧ b1.y = b.y - b.vy ∧ b1.lastHit = j ∧
      b1.r = b.r ∧ b1.mass = b.mass ∧
      box1.x = box.x ∧ box1.y = box.y ∧ box1.w = box.w ∧ box1.h = box.h ∧
      box1.mass = box.mass ∧
      boxNormalX Real.sqrt b box ^ 2 + boxNormalY Real.sqrt b box ^ 2 = 1 ∧
      b1.vx = b.vx + (elastic b.mass box.mass
          (b.vx * boxNormalX Real.sqrt b box + b.vy * boxNormalY Real.sqrt b box)
          (box.vx * boxNormalX Real.sqrt b box + box.vy * boxNormalY Real.sqrt b box)
        - (b.vx * boxNormalX Real.sqrt b box + b.vy * boxNormalY Real.sqrt b box))
        * boxNormalX Real.sqrt b box ∧
      b1.vy = b.vy + (elastic b.mass box.mass
          (b.vx * boxNormalX Real.sqrt b box + b.vy * boxNormalY Real.sqrt b box)
          (box.vx * boxNormalX Real.sqrt b box + box.vy * boxNormalY Real.sqrt b box)
        - (b.vx * boxNormalX Real.sqrt b box + b.vy * boxNormalY Real.sqrt b box))
        * boxNormalY Real.sqrt b box ∧
      box1.vx = box.vx + (elastic box.mass b.mass
          (box.vx * boxNormalX Real.sqrt b box + box.vy * boxNormalY Real.sqrt b box)
          (b.vx * boxNormalX Real.sqrt b box + b.vy * boxNormalY Real.sqrt b box)
        - (box.vx * boxNormalX Real.sqrt b box + box.vy * boxNormalY Real.sqrt b box))
        * boxNormalX Real.sqrt b box ∧
      box1.vy = box.vy + (elastic box.mass b.mass
          (box.vx * boxNormalX Real.sqrt b box + box.vy * boxNormalY Real.sqrt b box)
          (b.vx * boxNormalX Real.sqrt b box + b.vy * boxNormalY Real.sqrt b box)
        - (box.vx * boxNormalX Real.sqrt b box + box.vy * boxNormalY Real.sqrt b box))
        * boxNormalY Real.sqrt b box ∧
      (b.vx = 5 → b.vy = 0 → box.vx = 0 → box.vy = 0 → box.mass = 1000 * b.mass →
        closestY b box = b.y → b.x < closestX b box →
        b1.vx = -4995 / 1001 ∧ b1.vy = 0 ∧ |b1.vx - (-5)| < 1 / 100 ∧ b1.x = b.x - 5) := by
  have h2 : ¬ dist2 b box < epsilon := by
    rw [epsilon]
    exact not_lt.mpr hlo
  have h3 : ¬ dist2 b box > b.r * b.r := by
    rw [← pow_two]
    exact not_lt.mpr hhi
  refine ⟨_, _, collideBallBox_resolved b box j ⟨hl, h2, h3⟩, add_pos hb hbox,
    rfl, rfl, rfl, rfl, rfl, rfl,
    rfl, rfl, rfl, rfl, boxNormal_unit b box h2, rfl, rfl, rfl, rfl, ?_⟩
  intro hvx hvy hwx hwy hmass hy hx
  obtain ⟨nx1, ny0⟩ := boxNormal_right b box hy hx
  have hm : b.mass ≠ 0 := hb.ne'
  simp only [nx1, ny0, hvx, hvy, hwx, hwy, hmass, elastic]
  have e : (5 : ℝ) + (((5 * 1 + 0 * 0) * (b.mass - 1000 * b.mass)
      + 2 * (1000 * b.mass) * (0 * 1 + 0 * 0)) / (b.mass + 1000 * b.mass)
      - (5 * 1 + 0 * 0)) * 1 = -4995 / 1001 := by
    field_simp
    ring
  rw [e]
  refine ⟨rfl, by ring, ?_, trivial⟩
  rw [abs_lt]
  constructor <;> norm_num

/-- The fast ball is 3 to the left of the heavy box: the closest point is `(10, 50)`. -/
theorem fastBall_closest :
    closestX (fastBall : Ball ℝ) heavyBox = 10 ∧ closestY (fastBall : Ball ℝ) heavyBox = 50
      ∧ dist2 (fastBall : Ball ℝ) heavyBox = 9 := by
  have hx : closestX (fastBall : Ball ℝ) heavyBox = 10 := by
    norm_num [closestX, fastBall, heavyBox]
  have hy : closestY (fastBall : Ball ℝ) heavyBox = 50 := by
    norm_num [closestY, fastBall, heavyBox]
  refine ⟨hx, hy, ?_⟩
  rw [dist2, hx, hy]
  norm_num [fastBall]

/-- Witness of C7: the fast ball against the heavy box, with box index 0. -/
theorem collideBallBox_resolution_witness :
    (0 : ℝ) < (fastBall : Ball ℝ).mass ∧ (0 : ℝ) < (heavyBox : Box ℝ).mass ∧
    (fastBall : Ball ℝ).lastHit ≠ 0 ∧
    1 / 10 ≤ dist2 (fastBall : Ball ℝ) heavyBox ∧
    dist2 (fastBall : Ball ℝ) heavyBox ≤ (fastBall : Ball ℝ).r ^ 2 ∧
    ∃ b1 box1, collideBallBox Real.sqrt (fastBall : Ball ℝ) heavyBox 0 = .ok (b1, box1) ∧
      b1.vx = -4995 / 1001 ∧ b1.vy = 0 ∧ b1.x = 2 ∧ b1.y = 50 ∧ b1.lastHit = 0 := by
  have h1 : (0 : ℝ) < (fastBall : Ball ℝ).mass := by norm_num [fastBall]
  have h2 : (0 : ℝ) < (heavyBox : Box ℝ).mass := by norm_num [heavyBox]
  have h3 : (fastBall : Ball ℝ).lastHit ≠ 0 := by decide
  have h4 : 1 / 10 ≤ dist2 (fastBall : Ball ℝ) heavyBox := by
    rw [fastBall_closest.2.2]
    norm_num
  have h5 : dist2 (fastBall : Ball ℝ) heavyBox ≤ (fastBall : Ball ℝ).r ^ 2 := by
    rw [fastBall_closest.2.2]
    norm_num [fastBall]
  obtain ⟨b1, box1, e, -, hx, hy, hl, -, -, -, -, -, -, -, -, -, -, -, -, hs⟩ :=
    collideBallBox_resolution fastBall heavyBox 0 h1 h2 h3 h4 h5
  have hs1 := hs rfl rfl rfl rfl (by norm_num [fastBall, heavyBox])
    (by rw [fastBall_closest.2.1]; rfl) (by rw [fastBall_closest.1]; norm_num [fastBall])
  refine ⟨h1, h2, h3, h4, h5, b1, box1, e, hs1.1, hs1.2.1, ?_, ?_, hl⟩
  · rw [hx]
    norm_num [fastBall]
  · rw [hy]
    norm_num [fastBall]

/-! ## Wall containment -/

/-- Containment of a ball, axis by axis (`2r ≤ 1340` already gives `2r ≤ 1900`). -/
theorem checkBall_contained {α : Type} [LinearOrderedField α] (b : Ball α)
    (hh : 2 * b.r ≤ 1340) :
    (b.r ≤ (checkBallWallCollision b).x ∧ (checkBallWallCollision b).x ≤ 1900 - b.r ∧
      b.r ≤ (checkBallWallCollision b).y ∧ (checkBallWallCollision b).y ≤ 1340 - b.r) ∧
    (b.x - b.r < 0 →
      (checkBallWallCollision b).x - b.r = 0 ∧ (checkBallWallCollision b).vx = -b.vx) ∧
    (b.x + b.r > 1900 →
      (checkBallWallCollision b).x + b.r = 1900 ∧ (checkBallWallCollision b).vx = -b.vx) ∧
    (¬ b.x - b.r < 0 → ¬ b.x + b.r > 1900 →
      (checkBallWallCollision b).x = b.x ∧ (checkBallWallCollision b).vx = b.vx) ∧
    (b.y - b.r < 0 →
      (checkBallWallCollision b).y - b.r = 0 ∧ (checkBallWallCollision b).vy = -b.vy) ∧
    (b.y + b.r > 1340 →
      (checkBallWallCollision b).y + b.r = 1340 ∧ (checkBallWallCollision b).vy = -b.vy) ∧
    (¬ b.y - b.r < 0 → ¬ b.y + b.r > 1340 →
      (checkBallWallCollision b).y = b.y ∧ (checkBallWallCollision b).vy = b.vy) ∧
    (checkBallWallCollision b).r = b.r ∧ (checkBallWallCollision b).mass = b.mass ∧
    (checkBallWallCollision b).clr = b.clr ∧
    (checkBallWallCollision b).lastHit = b.lastHit := by
  unfold checkBallWallCollision
  simp only [screenWidth, screenHeight, Nat.cast_ofNat]
  split_ifs with hx1 hy1 hy2 hx2 hy1 hy2 hy1 hy2 <;>
    refine ⟨⟨?_, ?_, ?_, ?_⟩, fun h1 => ⟨?_, ?_⟩, fun h1 => ⟨?_, ?_⟩,
      fun h1 h2 => ⟨?_, ?_⟩, fun h1 => ⟨?_, ?_⟩, fun h1 => ⟨?_, ?_⟩,
      fun h1 h2 => ⟨?_, ?_⟩, rfl, rfl, rfl, rfl⟩ <;>
    (try simp only [] at *) <;>
    linarith

/-- Containment of a box, axis by axis. -/
theorem checkBox_contained {α : Type} [LinearOrderedField α] (b : Box α)
    (hw : b.w ≤ 1900) (hh : b.h ≤ 1340) :
    (0 ≤ (checkBoxWallCollision b).x ∧ (checkBoxWallCollision b).x + b.w ≤ 1900 ∧
      0 ≤ (checkBoxWallCollision b).y ∧ (checkBoxWallCollision b).y + b.h ≤ 1340) ∧
    (b.x < 0 →
      (checkBoxWallCollision b).x = 0 ∧ (checkBoxWallCollision b).vx = -b.vx) ∧
    (b.x + b.w > 1900 →
      (checkBoxWallCollision b).x + b.w = 1900 ∧ (checkBoxWallCollision b).vx = -b.vx) ∧
    (¬ b.x < 0 → ¬ b.x + b.w > 1900 →
      (checkBoxWallCollision b).x = b.x ∧ (checkBoxWallCollision b).vx = b.vx) ∧
    (b.y < 0 →
      (checkBoxWallCollision b).y = 0 ∧ (checkBoxWallCollision b).vy = -b.vy) ∧
    (b.y + b.h > 1340 →
      (checkBoxWallCollision b).y + b.h = 1340 ∧ (checkBoxWallCollision b).vy = -b.vy) ∧
    (¬ b.y < 0 → ¬ b.y + b.h > 1340 →
      (checkBoxWallCollision b).y = b.y ∧ (checkBoxWallCollision b).vy = b.vy) ∧
    (checkBoxWallCollision b).w = b.w ∧ (checkBoxWallCollision b).h = b.h ∧
    (checkBoxWallCollision b).mass = b.mass ∧ (checkBoxWallCollision b).clr = b.clr := by
  unfold checkBoxWallCollision
  simp only [screenWidth, screenHeight, Nat.cast_ofNat]
  split_ifs with hx1 hy1 hy2 hx2 hy1 hy2 hy1 hy2 <;>
    refine ⟨⟨?_, ?_, ?_, ?_⟩, fun h1 => ⟨?_, ?_⟩, fun h1 => ⟨?_, ?_⟩,
      fun h1 h2 => ⟨?_, ?_⟩, fun h1 => ⟨?_, ?_⟩, fun h1 => ⟨?_, ?_⟩,
      fun h1 h2 => ⟨?_, ?_⟩, rfl, rfl, rfl, rfl⟩ <;>
    (try simp only [] at *) <;>
    linarith

/-- Claim C10. Wall containment postcondition, for every ordered field: a ball with
`2r ≤ 1900` and `2r ≤ 1340` lies inside the arena after `checkBallWallCollision`
(`r ≤ x ≤ 1900 - r`, `r ≤ y ≤ 1340 - r`); on each axis separately, an edge that had
crossed a wall is put exactly on that wall and the velocity component is negated, and
when no edge had crossed, position and velocity component are unchanged; radius, mass,
colour and `lastHit` are unchanged.  The same for `checkBoxWallCollision` and a box with
`w ≤ 1900`, `h ≤ 1340`, with edges `x`, `x + w`, `y`, `y + h`.  (The lower bounds
`0 ≤ 2r`, `0 ≤ w`, `0 ≤ h` of the claim are kept as hypotheses.) -/
theorem wall_containment {α : Type} [LinearOrderedField α] (b : Ball α) (box : Box α)
    (hr : 0 ≤ 2 * b.r ∧ 2 * b.r ≤ 1900 ∧ 2 * b.r ≤ 1340)
    (hw : 0 ≤ box.w ∧ box.w ≤ 1900) (hh : 0 ≤ box.h ∧ box.h ≤ 1340) :
    ((b.r ≤ (checkBallWallCollision b).x ∧ (checkBallWallCollision b).x ≤ 1900 - b.r ∧
      b.r ≤ (checkBallWallCollision b).y ∧ (checkBallWallCollision b).y ≤ 1340 - b.r) ∧
    (b.x - b.r < 0 →
      (checkBallWallCollision b).x - b.r = 0 ∧ (checkBallWallCollision b).vx = -b.vx) ∧
    (b.x + b.r > 1900 →
      (checkBallWallCollision b).x + b.r = 1900 ∧ (checkBallWallCollision b).vx = -b.vx) ∧
    (¬ b.x - b.r < 0 → ¬ b.x + b.r > 1900 →
      (checkBallWallCollision b).x = b.x ∧ (checkBallWallCollision b).vx = b.vx) ∧
    (b.y - b.r < 0 →
      (checkBallWallCollision b).y - b.r = 0 ∧ (checkBallWallCollision b).vy = -b.vy) ∧
    (b.y + b.r > 1340 →
      (checkBallWallCollision b).y + b.r = 1340 ∧ (checkBallWallCollision b).vy = -b.vy) ∧
    (¬ b.y - b.r < 0 → ¬ b.y + b.r > 1340 →
      (checkBallWallCollision b).y = b.y ∧ (checkBallWallCollision b).vy = b.vy) ∧
    (checkBallWallCollision b).r = b.r ∧ (checkBallWallCollision b).mass = b.mass ∧
    (checkBallWallCollision b).clr = b.clr ∧
    (checkBallWallCollision b).lastHit = b.lastHit) ∧
    ((0 ≤ (checkBoxWallCollision box).x ∧ (checkBoxWallCollision box).x + box.w ≤ 1900 ∧
      0 ≤ (checkBoxWallCollision box).y ∧ (checkBoxWallCollision box).y + box.h ≤ 1340) ∧
    (box.x < 0 →
      (checkBoxWallCollision box).x = 0 ∧ (checkBoxWallCollision box).vx = -box.vx) ∧
    (box.x + box.w > 1900 →
      (checkBoxWallCollision box).x + box.w = 1900 ∧
        (checkBoxWallCollision box).vx = -box.vx) ∧
    (¬ box.x < 0 → ¬ box.x + box.w > 1900 →
      (checkBoxWallCollision box).x = box.x ∧ (checkBoxWallCollision box).vx = box.vx) ∧
    (box.y < 0 →
      (checkBoxWallCollision box).y = 0 ∧ (checkBoxWallCollision box).vy = -box.vy) ∧
    (box.y + box.h > 1340 →
      (checkBoxWallCollision box).y + box.h = 1340 ∧
        (checkBoxWallCollision box).vy = -box.vy) ∧
    (¬ box.y < 0 → ¬ box.y + box.h > 1340 →
      (checkBoxWallCollision box).y = box.y ∧ (checkBoxWallCollision box).vy = box.vy) ∧
    (checkBoxWallCollision box).w = box.w ∧ (checkBoxWallCollision box).h = box.h ∧
    (checkBoxWallCollision box).mass = box.mass ∧
    (checkBoxWallCollision box).clr = box.clr) :=
  ⟨checkBall_contained b hr.2.2, checkBox_contained box hw.2 hh.2⟩

/-- Witness of C10: a ball and a box that have each crossed two walls are clamped on both
axes in one call. -/
theorem wall_containment_witness :
    ((0 : ℝ) ≤ 2 * (strayBall : Ball ℝ).r ∧ 2 * (strayBall : Ball ℝ).r ≤ 1900
      ∧ 2 * (strayBall : Ball ℝ).r ≤ 1340) ∧
    ((0 : ℝ) ≤ (strayBox : Box ℝ).w ∧ (strayBox : Box ℝ).w ≤ 1900) ∧
    ((0 : ℝ) ≤ (strayBox : Box ℝ).h ∧ (strayBox : Box ℝ).h ≤ 1340) ∧
    (strayBall : Ball ℝ).r ≤ (checkBallWallCollision (strayBall : Ball ℝ)).x ∧
    (checkBoxWallCollision (strayBox : Box ℝ)).x + (strayBox : Box ℝ).w ≤ 1900 ∧
    checkBallWallCollision (strayBall : Ball ℝ) = ⟨4, 1336, 2, -7, 4, 1, blue, -1⟩ ∧
    checkBoxWallCollision (strayBox : Box ℝ) = ⟨1650, 0, -3, 1, 250, 500, 600, red⟩ := by
  have h1 : (0 : ℝ) ≤ 2 * (strayBall : Ball ℝ).r ∧ 2 * (strayBall : Ball ℝ).r ≤ 1900
      ∧ 2 * (strayBall : Ball ℝ).r ≤ 1340 := by
    norm_num [strayBall]
  have h2 : (0 : ℝ) ≤ (strayBox : Box ℝ).w ∧ (strayBox : Box ℝ).w ≤ 1900 := by
    norm_num [strayBox]
  have h3 : (0 : ℝ) ≤ (strayBox : Box ℝ).h ∧ (strayBox : Box ℝ).h ≤ 1340 := by
    norm_num [strayBox]
  have h := wall_containment (strayBall : Ball ℝ) strayBox h1 h2 h3
  refine ⟨h1, h2, h3, h.1.1.1, h.2.1.2.1, ?_, ?_⟩
  · norm_num [checkBallWallCollision, strayBall, screenWidth, screenHeight]
  · norm_num [checkBoxWallCollision, strayBox, screenWidth, screenHeight]

/-! ## Box against box -/

/-- The four branches of `collideBoxes` behind its guard, and the skip. -/
theorem collideBoxes_cases {α : Type} [LinearOrderedField α] (b1 b2 : Box α) :
    (¬ boxesOverlap b1 b2 → collideBoxes b1 b2 = (b1, b2)) ∧
    (boxesOverlap b1 b2 → overlapX b1 b2 < overlapY b1 b2 → b1.x < b2.x →
      collideBoxes b1 b2
        = (⟨b1.x - overlapX b1 b2 / 2, b1.y, -b1.vx, b1.vy, b1.w, b1.h, b1.mass, b1.clr⟩,
           ⟨b2.x + overlapX b1 b2 / 2, b2.y, -b2.vx, b2.vy, b2.w, b2.h, b2.mass, b2.clr⟩)) ∧
    (boxesOverlap b1 b2 → overlapX b1 b2 < overlapY b1 b2 → ¬ b1.x < b2.x →
      collideBoxes b1 b2
        = (⟨b1.x + overlapX b1 b2 / 2, b1.y, -b1.vx, b1.vy, b1.w, b1.h, b1.mass, b1.clr⟩,
           ⟨b2.x - overlapX b1 b2 / 2, b2.y, -b2.vx, b2.vy, b2.w, b2.h, b2.mass, b2.clr⟩)) ∧
    (boxesOverlap b1 b2 → ¬ overlapX b1 b2 < overlapY b1 b2 → b1.y < b2.y →
      collideBoxes b1 b2
        = (⟨b1.x, b1.y - overlapY b1 b2 / 2, b1.vx, -b1.vy, b1.w, b1.h, b1.mass, b1.clr⟩,
           ⟨b2.x, b2.y + overlapY b1 b2 / 2, b2.vx, -b2.vy, b2.w, b2.h, b2.mass, b2.clr⟩)) ∧
    (boxesOverlap b1 b2 → ¬ overlapX b1 b2 < overlapY b1 b2 → ¬ b1.y < b2.y →
      collideBoxes b1 b2
        = (⟨b1.x, b1.y + overlapY b1 b2 / 2, b1.vx, -b1.vy, b1.w, b1.h, b1.mass, b1.clr⟩,
           ⟨b2.x, b2.y - overlapY b1 b2 / 2, b2.vx, -b2.vy, b2.w, b2.h, b2.mass, b2.clr⟩)) := by
  refine ⟨fun h => ?_, fun h hxy hx => ?_, fun h hxy hx => ?_, fun h hxy hy => ?_,
    fun h hxy hy => ?_⟩
  · rw [boxesOverlap, not_not] at h
    rw [collideBoxes, if_pos h]
  · simp only [overlapX, overlapY] at hxy
    rw [collideBoxes, if_neg h]
    simp only [if_pos hxy, if_pos hx, overlapX]
  · simp only [overlapX, overlapY] at hxy
    rw [collideBoxes, if_neg h]
    simp only [if_pos hxy, if_neg hx, overlapX]
  · simp only [overlapX, overlapY] at hxy
    rw [collideBoxes, if_neg h]
    simp only [if_neg hxy, if_pos hy, overlapY]
  · simp only [overlapX, overlapY] at hxy
    rw [collideBoxes, if_neg h]
    simp only [if_neg hxy, if_neg hy, overlapY]

/-- Counterexample to C8 as stated: `wideBox` and `narrowBox` have positive sizes and
overlapping bounding boxes, the x axis is the one resolved, and after the call their x
extents `[-2, 8]` and `[3, 6]` still share an interval of length 3. -/
theorem collideBoxes_still_overlapping :
    (0 : ℝ) < (wideBox : Box ℝ).w ∧ (0 : ℝ) < (wideBox : Box ℝ).h ∧
    (0 : ℝ) < (narrowBox : Box ℝ).w ∧ (0 : ℝ) < (narrowBox : Box ℝ).h ∧
    boxesOverlap (wideBox : Box ℝ) narrowBox ∧
    overlapX (wideBox : Box ℝ) narrowBox < overlapY (wideBox : Box ℝ) narrowBox ∧
    collideBoxes (wideBox : Box ℝ) narrowBox
      = (⟨-2, 0, -2, 1, 10, 100, 1, red⟩, ⟨3, 50, 1, 3, 3, 100, 1, red⟩) ∧
    sharedX (collideBoxes (wideBox : Box ℝ) narrowBox).1
      (collideBoxes (wideBox : Box ℝ) narrowBox).2 = 3 := by
  have e : collideBoxes (wideBox : Box ℝ) narrowBox
      = (⟨-2, 0, -2, 1, 10, 100, 1, red⟩, ⟨3, 50, 1, 3, 3, 100, 1, red⟩) := by
    norm_num [collideBoxes, wideBox, narrowBox]
  refine ⟨?_, ?_, ?_, ?_, ?_, ?_, e, ?_⟩
  · norm_num [wideBox]
  · norm_num [wideBox]
  · norm_num [narrowBox]
  · norm_num [narrowBox]
  · norm_num [boxesOverlap, wideBox, narrowBox]
  · norm_num [overlapX, overlapY, wideBox, narrowBox]
  · rw [e]
    norm_num [sharedX]

/-- Intervals `[a1, a1 + w1]` and `[a2, a2 + w2]` that meet, the first starting first
and having its centre first: after each is moved by half the minimum overlap, the first
towards the negative side, they share an interval of length zero. -/
theorem touch_negative_side {α : Type} [LinearOrderedField α] (a1 w1 a2 w2 : α)
    (hw2 : 0 ≤ w2) (g1 : a2 ≤ a1 + w1) (hx : a1 < a2)
    (hc : a1 + w1 / 2 ≤ a2 + w2 / 2) :
    min (a1 - min (a1 + w1 - a2) (a2 + w2 - a1) / 2 + w1)
        (a2 + min (a1 + w1 - a2) (a2 + w2 - a1) / 2 + w2)
      - max (a1 - min (a1 + w1 - a2) (a2 + w2 - a1) / 2)
        (a2 + min (a1 + w1 - a2) (a2 + w2 - a1) / 2) = 0 := by
  have e : min (a1 + w1 - a2) (a2 + w2 - a1) = a1 + w1 - a2 := min_eq_left (by linarith)
  rw [e, min_eq_left (by linarith), max_eq_right (by linarith)]
  ring

/-- Intervals `[a1, a1 + w1]` and `[a2, a2 + w2]` that meet, the second starting no later
than the first and having its centre no later: after each is moved by half the minimum
overlap, the first towards the positive side, they share an interval of length zero. -/
theorem touch_positive_side {α : Type} [LinearOrderedField α] (a1 w1 a2 w2 : α)
    (hw1 : 0 ≤ w1) (g2 : a1 ≤ a2 + w2) (hx : ¬ a1 < a2)
    (hc : a2 + w2 / 2 ≤ a1 + w1 / 2) :
    min (a1 + min (a1 + w1 - a2) (a2 + w2 - a1) / 2 + w1)
        (a2 - min (a1 + w1 - a2) (a2 + w2 - a1) / 2 + w2)
      - max (a1 + min (a1 + w1 - a2) (a2 + w2 - a1) / 2)
        (a2 - min (a1 + w1 - a2) (a2 + w2 - a1) / 2) = 0 := by
  have hx' : a2 ≤ a1 := not_lt.mp hx
  have e : min (a1 + w1 - a2) (a2 + w2 - a1) = a2 + w2 - a1 := min_eq_right (by linarith)
  rw [e, min_eq_right (by linarith), max_eq_left (by linarith)]
  ring

/-- Claim C8, amended. Block-block separation: for two blocks of non-negative width and
height that pass the guard of `collideBoxes`, if on the resolved axis (x when the x
overlap is strictly the smaller one, else y) the top-left corners are ordered the way the
centres are, then after the call the extents of the two blocks on that axis share an
interval of length exactly zero: the blocks touch.  Blocks of equal extent on an axis
always have their corners ordered the way their centres are on that axis. -/
theorem collideBoxes_separated {α : Type} [LinearOrderedField α] (b1 b2 : Box α)
    (hw1 : 0 ≤ b1.w) (hh1 : 0 ≤ b1.h) (hw2 : 0 ≤ b2.w) (hh2 : 0 ≤ b2.h)
    (h : boxesOverlap b1 b2) :
    (overlapX b1 b2 < overlapY b1 b2 → cornersAsCentresX b1 b2 →
      sharedX (collideBoxes b1 b2).1 (collideBoxes b1 b2).2 = 0) ∧
    (¬ overlapX b1 b2 < overlapY b1 b2 → cornersAsCentresY b1 b2 →
      sharedY (collideBoxes b1 b2).1 (collideBoxes b1 b2).2 = 0) ∧
    (b1.w = b2.w → cornersAsCentresX b1 b2) ∧
    (b1.h = b2.h → cornersAsCentresY b1 b2) := by
  obtain ⟨-, c1, c2, c3, c4⟩ := collideBoxes_cases b1 b2
  have h' := h
  simp only [boxesOverlap, not_or, not_lt] at h'
  obtain ⟨g1, g2, g3, g4⟩ := h'
  refine ⟨?_, ?_, fun e => ⟨fun hx => ?_, fun hx => ?_⟩,
    fun e => ⟨fun hy => ?_, fun hy => ?_⟩⟩
  rotate_left 2
  · rw [e]
    linarith
  · rw [e]
    linarith [not_lt.mp hx]
  · rw [e]
    linarith
  · rw [e]
    linarith [not_lt.mp hy]
  · intro hxy hc
    by_cases hx : b1.x < b2.x
    · rw [c1 h hxy hx]
      exact touch_negative_side b1.x b1.w b2.x b2.w hw2 g1 hx (hc.1 hx)
    · rw [c2 h hxy hx]
      exact touch_positive_side b1.x b1.w b2.x b2.w hw1 g2 hx (hc.2 hx)
  · intro hxy hc
    by_cases hy : b1.y < b2.y
    · rw [c3 h hxy hy]
      exact touch_negative_side b1.y b1.h b2.y b2.h hh2 g3 hy (hc.1 hy)
    · rw [c4 h hxy hy]
      exact touch_positive_side b1.y b1.h b2.y b2.h hh1 g4 hy (hc.2 hy)

/-- Witness of C8 (amended): two overlapping boxes of the default size; the x axis is
resolved and afterwards the boxes touch at `x = 245`. -/
theorem collideBoxes_separated_witness :
    (0 : ℝ) ≤ (rowBoxA : Box ℝ).w ∧ (0 : ℝ) ≤ (rowBoxA : Box ℝ).h ∧
    (0 : ℝ) ≤ (rowBoxB : Box ℝ).w ∧ (0 : ℝ) ≤ (rowBoxB : Box ℝ).h ∧
    boxesOverlap (rowBoxA : Box ℝ) rowBoxB ∧
    overlapX (rowBoxA : Box ℝ) rowBoxB < overlapY (rowBoxA : Box ℝ) rowBoxB ∧
    cornersAsCentresX (rowBoxA : Box ℝ) rowBoxB ∧
    sharedX (collideBoxes (rowBoxA : Box ℝ) rowBoxB).1
      (collideBoxes (rowBoxA : Box ℝ) rowBoxB).2 = 0 := by
  have h1 : (0 : ℝ) ≤ (rowBoxA : Box ℝ).w := by norm_num [rowBoxA]
  have h2 : (0 : ℝ) ≤ (rowBoxA : Box ℝ).h := by norm_num [rowBoxA]
  have h3 : (0 : ℝ) ≤ (rowBoxB : Box ℝ).w := by norm_num [rowBoxB]
  have h4 : (0 : ℝ) ≤ (rowBoxB : Box ℝ).h := by norm_num [rowBoxB]
  have h5 : boxesOverlap (rowBoxA : Box ℝ) rowBoxB := by
    norm_num [boxesOverlap, rowBoxA, rowBoxB]
  have h6 : overlapX (rowBoxA : Box ℝ) rowBoxB < overlapY (rowBoxA : Box ℝ) rowBoxB := by
    norm_num [overlapX, overlapY, rowBoxA, rowBoxB]
  have h7 : cornersAsCentresX (rowBoxA : Box ℝ) rowBoxB := by
    norm_num [cornersAsCentresX, rowBoxA, rowBoxB]
  exact ⟨h1, h2, h3, h4, h5, h6, h7,
    (collideBoxes_separated rowBoxA rowBoxB h1 h2 h3 h4 h5).1 h6 h7⟩

/-- Counterexample to C9 as stated: for `wideBox` and `narrowBox` the x axis is resolved
and the centre of `narrowBox` is the one further left, yet `narrowBox` is moved in the
positive direction (from `x = 1` to `x = 3`) and `wideBox` in the negative one (from
`x = 0` to `x = -2`). -/
theorem collideBoxes_moves_by_corner :
    boxesOverlap (wideBox : Box ℝ) narrowBox ∧
    overlapX (wideBox : Box ℝ) narrowBox < overlapY (wideBox : Box ℝ) narrowBox ∧
    (narrowBox : Box ℝ).x + (narrowBox : Box ℝ).w / 2
      < (wideBox : Box ℝ).x + (wideBox : Box ℝ).w / 2 ∧
    overlapX (wideBox : Box ℝ) narrowBox = 4 ∧
    (collideBoxes (wideBox : Box ℝ) narrowBox).2.x
      = (narrowBox : Box ℝ).x + overlapX (wideBox : Box ℝ) narrowBox / 2 ∧
    (collideBoxes (wideBox : Box ℝ) narrowBox).2.x
      ≠ (narrowBox : Box ℝ).x - overlapX (wideBox : Box ℝ) narrowBox / 2 ∧
    (collideBoxes (wideBox : Box ℝ) narrowBox).1.x
      = (wideBox : Box ℝ).x - overlapX (wideBox : Box ℝ) narrowBox / 2 := by
  have e : collideBoxes (wideBox : Box ℝ) narrowBox
      = (⟨-2, 0, -2, 1, 10, 100, 1, red⟩, ⟨3, 50, 1, 3, 3, 100, 1, red⟩) := by
    norm_num [collideBoxes, wideBox, narrowBox]
  have ho : overlapX (wideBox : Box ℝ) narrowBox = 4 := by
    norm_num [overlapX, wideBox, narrowBox]
  refine ⟨?_, ?_, ?_, ho, ?_, ?_, ?_⟩
  · norm_num [boxesOverlap, wideBox, narrowBox]
  · norm_num [overlapX, overlapY, wideBox, narrowBox]
  · norm_num [wideBox, narrowBox]
  · rw [e, ho]
    norm_num [narrowBox]
  · rw [e, ho]
    norm_num [narrowBox]
  · rw [e, ho]
    norm_num [wideBox]

/-- Claim C9, amended. Single-axis resolution of `collideBoxes`: a pair stopped by the
guard is returned unchanged; otherwise width, height, mass and colour of both blocks are
unchanged and exactly one axis is resolved, x when the x overlap is strictly smaller than
the y overlap, else y: on the other axis positions and velocity components are unchanged,
on the resolved axis both velocity components are negated and each block is moved by half
the minimum overlap, the first block towards the negative side and the second towards the
positive side when the top-left corner of the first has the strictly smaller coordinate,
and the other way round otherwise. -/
theorem collideBoxes_single_axis {α : Type} [LinearOrderedField α] (b1 b2 : Box α) :
    (¬ boxesOverlap b1 b2 → collideBoxes b1 b2 = (b1, b2)) ∧
    (boxesOverlap b1 b2 →
      ((collideBoxes b1 b2).1.w = b1.w ∧ (collideBoxes b1 b2).1.h = b1.h ∧
        (collideBoxes b1 b2).1.mass = b1.mass ∧ (collideBoxes b1 b2).1.clr = b1.clr ∧
        (collideBoxes b1 b2).2.w = b2.w ∧ (collideBoxes b1 b2).2.h = b2.h ∧
        (collideBoxes b1 b2).2.mass = b2.mass ∧ (collideBoxes b1 b2).2.clr = b2.clr) ∧
      (overlapX b1 b2 < overlapY b1 b2 →
        ((collideBoxes b1 b2).1.y = b1.y ∧ (collideBoxes b1 b2).1.vy = b1.vy ∧
          (collideBoxes b1 b2).2.y = b2.y ∧ (collideBoxes b1 b2).2.vy = b2.vy) ∧
        ((collideBoxes b1 b2).1.vx = -b1.vx ∧ (collideBoxes b1 b2).2.vx = -b2.vx) ∧
        (b1.x < b2.x →
          (collideBoxes b1 b2).1.x = b1.x - overlapX b1 b2 / 2 ∧
          (collideBoxes b1 b2).2.x = b2.x + overlapX b1 b2 / 2) ∧
        (¬ b1.x < b2.x →
          (collideBoxes b1 b2).1.x = b1.x + overlapX b1 b2 / 2 ∧
          (collideBoxes b1 b2).2.x = b2.x - overlapX b1 b2 / 2)) ∧
      (¬ overlapX b1 b2 < overlapY b1 b2 →
        ((collideBoxes b1 b2).1.x = b1.x ∧ (collideBoxes b1 b2).1.vx = b1.vx ∧
          (collideBoxes b1 b2).2.x = b2.x ∧ (collideBoxes b1 b2).2.vx = b2.vx) ∧
        ((collideBoxes b1 b2).1.vy = -b1.vy ∧ (collideBoxes b1 b2).2.vy = -b2.vy) ∧
        (b1.y < b2.y →
          (collideBoxes b1 b2).1.y = b1.y - overlapY b1 b2 / 2 ∧
          (collideBoxes b1 b2).2.y = b2.y + overlapY b1 b2 / 2) ∧
        (¬ b1.y < b2.y →
          (collideBoxes b1 b2).1.y = b1.y + overlapY b1 b2 / 2 ∧
          (collideBoxes b1 b2).2.y = b2.y - overlapY b1 b2 / 2))) := by
  obtain ⟨c0, c1, c2, c3, c4⟩ := collideBoxes_cases b1 b2
  refine ⟨c0, fun h => ⟨?_, fun hxy => ?_, fun hxy => ?_⟩⟩
  · by_cases hxy : overlapX b1 b2 < overlapY b1 b2
    · by_cases hx : b1.x < b2.x
      · rw [c1 h hxy hx]
        exact ⟨rfl, rfl, rfl, rfl, rfl, rfl, rfl, rfl⟩
      · rw [c2 h hxy hx]
        exact ⟨rfl, rfl, rfl, rfl, rfl, rfl, rfl, rfl⟩
    · by_cases hy : b1.y < b2.y
      · rw [c3 h hxy hy]
        exact ⟨rfl, rfl, rfl, rfl, rfl, rfl, rfl, rfl⟩
      · rw [c4 h hxy hy]
        exact ⟨rfl, rfl, rfl, rfl, rfl, rfl, rfl, rfl⟩
  · by_cases hx : b1.x < b2.x
    · rw [c1 h hxy hx]
      exact ⟨⟨rfl, rfl, rfl, rfl⟩, ⟨rfl, rfl⟩, fun _ => ⟨rfl, rfl⟩,
        fun n => absurd hx n⟩
    · rw [c2 h hxy hx]
      exact ⟨⟨rfl, rfl, rfl, rfl⟩, ⟨rfl, rfl⟩, fun p => absurd p hx,
        fun _ => ⟨rfl, rfl⟩⟩
  · by_cases hy : b1.y < b2.y
    · rw [c3 h hxy hy]
      exact ⟨⟨rfl, rfl, rfl, rfl⟩, ⟨rfl, rfl⟩, fun _ => ⟨rfl, rfl⟩,
        fun n => absurd hy n⟩
    · rw [c4 h hxy hy]
      exact ⟨⟨rfl, rfl, rfl, rfl⟩, ⟨rfl, rfl⟩, fun p => absurd p hy,
        fun _ => ⟨rfl, rfl⟩⟩

/-- Witness of C9 (amended): the two boxes of the default size; the x axis is resolved,
the first box goes from `x = 0` to `x = -5` and the second from `x = 240` to `x = 245`. -/
theorem collideBoxes_single_axis_witness :
    boxesOverlap (rowBoxA : Box ℝ) rowBoxB ∧
    overlapX (rowBoxA : Box ℝ) rowBoxB < overlapY (rowBoxA : Box ℝ) rowBoxB ∧
    (rowBoxA : Box ℝ).x < (rowBoxB : Box ℝ).x ∧
    (collideBoxes (rowBoxA : Box ℝ) rowBoxB).1.x
      = (rowBoxA : Box ℝ).x - overlapX (rowBoxA : Box ℝ) rowBoxB / 2 ∧
    (collideBoxes (rowBoxA : Box ℝ) rowBoxB).2.x
      = (rowBoxB : Box ℝ).x + overlapX (rowBoxA : Box ℝ) rowBoxB / 2 := by
  have h5 : boxesOverlap (rowBoxA : Box ℝ) rowBoxB := by
    norm_num [boxesOverlap, rowBoxA, rowBoxB]
  have h6 : overlapX (rowBoxA : Box ℝ) rowBoxB < overlapY (rowBoxA : Box ℝ) rowBoxB := by
    norm_num [overlapX, overlapY, rowBoxA, rowBoxB]
  have h7 : (rowBoxA : Box ℝ).x < (rowBoxB : Box ℝ).x := by
    norm_num [rowBoxA, rowBoxB]
  exact ⟨h5, h6, h7, ((collideBoxes_single_axis rowBoxA rowBoxB).2 h5).2.1 h6 |>.2.2.1 h7⟩

/-! ## The ball-box loops and `lastHit` -/

/-- Writing back the element that is already there changes nothing. -/
theorem set_same {β : Type} (l : List β) (i : Nat) (a : β) (h : l[i]? = some a) :
    l.set i a = l := by
  apply List.ext_getElem?
  intro n
  by_cases hn : i = n
  · subst hn
    rw [List.getElem?_set_self (List.getElem?_eq_some_iff.mp h).1, h]
  · rw [List.getElem?_set_ne hn]

/-- A property kept by every step is kept by a left fold. -/
theorem foldl_keeps {σ β : Type} (P : σ → Prop) (f : σ → β → σ)
    (hf : ∀ s x, P s → P (f s x)) (l : List β) (s : σ) (h : P s) : P (l.foldl f s) := by
  induction l generalizing s with
  | nil => exact h
  | cons x l ih => exact ih (f s x) (hf s x h)

/-- Wall containment does not touch `lastHit`. -/
theorem checkBallWallCollision_lastHit {α : Type} [LinearOrderedField α] (b : Ball α) :
    (checkBallWallCollision b).lastHit = b.lastHit := by
  unfold checkBallWallCollision
  simp only []
  split_ifs <;> rfl

/-- Moving the balls does not touch any `lastHit`. -/
theorem moveBalls_lastHit {α : Type} [LinearOrderedField α] (balls : List (Ball α)) :
    (moveBalls balls).map Ball.lastHit = balls.map Ball.lastHit := by
  unfold moveBalls
  rw [List.map_map]
  apply List.map_congr_left
  intro b _
  exact checkBallWallCollision_lastHit _

/-- The ball-ball resolver does not touch `lastHit`. -/
theorem collideBalls_lastHit {α : Type} [LinearOrderedField α] (sqrt : α → α)
    (b1 b2 : Ball α) :
    (collideBalls sqrt b1 b2).1.lastHit = b1.lastHit ∧
    (collideBalls sqrt b1 b2).2.lastHit = b2.lastHit := by
  unfold collideBalls
  simp only []
  split_ifs <;> exact ⟨rfl, rfl⟩

/-- One ball-ball call does not touch any `lastHit`. -/
theorem collideBallsAt_lastHit {α : Type} [LinearOrderedField α] (sqrt : α → α)
    (i j : Nat) (balls : List (Ball α)) :
    (collideBallsAt sqrt i j balls).map Ball.lastHit = balls.map Ball.lastHit := by
  unfold collideBallsAt
  cases h1 : balls[i]? with
  | none => rfl
  | some b1 =>
    cases h2 : balls[j]? with
    | none => rfl
    | some b2 =>
      simp only [List.map_set, (collideBalls_lastHit sqrt b1 b2).1,
        (collideBalls_lastHit sqrt b1 b2).2]
      have e1 : (balls.map Ball.lastHit)[i]? = some b1.lastHit := by
        rw [List.getElem?_map, h1]
        rfl
      rw [set_same _ _ _ e1]
      have e2 : (balls.map Ball.lastHit)[j]? = some b2.lastHit := by
        rw [List.getElem?_map, h2]
        rfl
      rw [set_same _ _ _ e2]

/-- The ball-ball loops do not touch any `lastHit`. -/
theorem ballBallPass_lastHit {α : Type} [LinearOrderedField α] (sqrt : α → α)
    (balls : List (Ball α)) :
    (ballBallPass sqrt balls).map Ball.lastHit = balls.map Ball.lastHit := by
  unfold ballBallPass
  refine foldl_keeps (fun bs : List (Ball α) => bs.map Ball.lastHit = balls.map Ball.lastHit)
    _ (fun bs i hbs => ?_) _ _ rfl
  refine foldl_keeps (fun bs : List (Ball α) => bs.map Ball.lastHit = balls.map Ball.lastHit)
    _ (fun bs1 j h1 => ?_) _ _ hbs
  exact (collideBallsAt_lastHit sqrt i j bs1).trans h1

/-- One box-box call keeps the number of boxes. -/
theorem collideBoxesAt_length {α : Type} [LinearOrderedField α] (i j : Nat)
    (boxes : List (Box α)) :
    (collideBoxesAt i j boxes).length = boxes.length := by
  unfold collideBoxesAt
  cases boxes[i]? with
  | none => rfl
  | some b1 =>
    cases boxes[j]? with
    | none => rfl
    | some b2 => simp

/-- The box-box loops keep the number of boxes. -/
theorem boxBoxPass_length {α : Type} [LinearOrderedField α] (boxes : List (Box α)) :
    (boxBoxPass boxes).length = boxes.length := by
  unfold boxBoxPass
  refine foldl_keeps (fun bs : List (Box α) => bs.length = boxes.length)
    _ (fun bs i hbs => ?_) _ _ rfl
  refine foldl_keeps (fun bs : List (Box α) => bs.length = boxes.length)
    _ (fun bs1 j h1 => ?_) _ _ hbs
  exact (collideBoxesAt_length i j bs1).trans h1

/-- The value of `lastHit` of ball `i` read off the list of all `lastHit` values. -/
theorem lastHitAt_eq {α : Type} (g : Game α) (i : Nat) :
    lastHitAt g i = (g.balls.map Ball.lastHit)[i]? := by
  rw [lastHitAt, List.getElem?_map]

/-- The steps before the ball-box loops keep every `lastHit` and the number of balls and
of boxes. -/
theorem beforeBallBox_frame {α : Type} [LinearOrderedField α] (sqrt : α → α)
    (g : Game α) (i : Nat) :
    lastHitAt (beforeBallBox sqrt g) i = lastHitAt g i ∧
    (beforeBallBox sqrt g).balls.length = g.balls.length ∧
    (beforeBallBox sqrt g).boxes.length = g.boxes.length := by
  have e : (beforeBallBox sqrt g).balls.map Ball.lastHit = g.balls.map Ball.lastHit := by
    simp only [beforeBallBox]
    rw [ballBallPass_lastHit, moveBalls_lastHit]
  refine ⟨by rw [lastHitAt_eq, lastHitAt_eq, e], ?_, ?_⟩
  · have := congrArg List.length e
    simpa using this
  · simp [beforeBallBox, moveBoxes]

/-- The steps after the ball-box loops keep the balls and the number of boxes. -/
theorem afterBallBox_frame {α : Type} [LinearOrderedField α]
    (sliders : Fin numberOfSliders → Slider α) (g : Game α) :
    (afterBallBox sliders g).balls = g.balls ∧
    (afterBallBox sliders g).boxes.length = g.boxes.length := by
  refine ⟨rfl, ?_⟩
  simp [afterBallBox, boxBoxPass_length]

/-- The three outcomes of `collideBallBox` over the reals. -/
theorem collideBallBox_outcome (b : Ball ℝ) (box : Box ℝ) (j : Int) :
    (b.lastHit = j →
      collideBallBox Real.sqrt b box j
        = .ok (⟨b.x, b.y, b.vx, b.vy, b.r, b.mass, b.clr, -1⟩, box)) ∧
    (b.lastHit ≠ j → ¬ resolves b box j →
      collideBallBox Real.sqrt b box j = .ok (b, box)) ∧
    (resolves b box j →
      ∃ b1 box1, collideBallBox Real.sqrt b box j = .ok (b1, box1) ∧ b1.lastHit = j) := by
  refine ⟨fun h => ?_, fun h hn => ?_, fun h => ?_⟩
  · rw [collideBallBox, if_pos h]
  · rw [collideBallBox, if_neg h]
    simp only [resolves, dist2, closestX, closestY, not_and, not_not] at hn
    have hn' := hn h
    simp only [isNaN_real, Bool.false_eq_true, if_false]
    split_ifs with h2 h3
    · rfl
    · rfl
    · exact absurd (hn' h2) h3
  · exact ⟨_, _, collideBallBox_resolved b box j h, rfl⟩

/-- Over the reals `collideBallBox` always returns normally. -/
theorem collideBallBox_ok (b : Ball ℝ) (box : Box ℝ) (j : Int) :
    ∃ p, collideBallBox Real.sqrt b box j = .ok p := by
  obtain ⟨h1, h2, h3⟩ := collideBallBox_outcome b box j
  by_cases hl : b.lastHit = j
  · exact ⟨_, h1 hl⟩
  · by_cases hr : resolves b box j
    · obtain ⟨b1, box1, e, -⟩ := h3 hr
      exact ⟨_, e⟩
    · exact ⟨_, h2 hl hr⟩

/-- The value of a state-changing call on a ball other than `i` leaves ball `i` alone. -/
theorem collideBallBoxAt_other (i k j : Nat) (s : Game ℝ) (h : k ≠ i) :
    ∃ s1, collideBallBoxAt Real.sqrt k j s = .ok s1 ∧
      s1.balls.length = s.balls.length ∧ s1.boxes.length = s.boxes.length ∧
      s1.balls[i]? = s.balls[i]? := by
  unfold collideBallBoxAt
  cases hb : s.balls[k]? with
  | none => exact ⟨s, rfl, rfl, rfl, rfl⟩
  | some b =>
    cases hx : s.boxes[j]? with
    | none => exact ⟨s, rfl, rfl, rfl, rfl⟩
    | some box =>
      obtain ⟨p, hp⟩ := collideBallBox_ok b box (j : Int)
      simp only [hp]
      exact ⟨_, rfl, by simp, by simp, by simp [List.getElem?_set_ne h]⟩

/-- The call for ball `i` and box `j`: it returns normally, keeps the lengths, and either
changes nothing, or is the cooldown, or is a resolution. -/
theorem collideBallBoxAt_same (i j : Nat) (s : Game ℝ) :
    ∃ s1, collideBallBoxAt Real.sqrt i j s = .ok s1 ∧
      s1.balls.length = s.balls.length ∧ s1.boxes.length = s.boxes.length ∧
      (s1 = s ∨
        (∃ b, s.balls[i]? = some b ∧ b.lastHit = (j : Int) ∧ lastHitAt s1 i = some (-1)) ∨
        (∃ b box, s.balls[i]? = some b ∧ s.boxes[j]? = some box ∧ resolves b box (j : Int) ∧
          lastHitAt s1 i = some (j : Int))) := by
  unfold collideBallBoxAt
  cases hb : s.balls[i]? with
  | none => exact ⟨s, rfl, rfl, rfl, Or.inl rfl⟩
  | some b =>
    cases hx : s.boxes[j]? with
    | none => exact ⟨s, rfl, rfl, rfl, Or.inl rfl⟩
    | some box =>
      have hi : i < s.balls.length := (List.getElem?_eq_some_iff.mp hb).1
      have hj : j < s.boxes.length := (List.getElem?_eq_some_iff.mp hx).1
      obtain ⟨h1, h2, h3⟩ := collideBallBox_outcome b box (j : Int)
      by_cases hl : b.lastHit = (j : Int)
      · simp only [h1 hl]
        refine ⟨_, rfl, by simp, by simp, Or.inr (Or.inl ⟨b, rfl, hl, ?_⟩)⟩
        simp [lastHitAt, hi]
      · by_cases hr : resolves b box (j : Int)
        · obtain ⟨b1, box1, e, hl1⟩ := h3 hr
          simp only [e]
          refine ⟨_, rfl, by simp, by simp, Or.inr (Or.inr ⟨b, box, rfl, rfl, hr, ?_⟩)⟩
          simp [lastHitAt, hi, hl1]
        · simp only [h2 hl hr]
          refine ⟨_, rfl, by simp, by simp, Or.inl ?_⟩
          rw [set_same _ _ _ hb, set_same _ _ _ hx]

/-- The cooldown call for ball `i` and box `j` clears `lastHit` of ball `i`. -/
theorem collideBallBoxAt_cooldown (i j : Nat) (s : Game ℝ) (b : Ball ℝ) (box : Box ℝ)
    (hb : s.balls[i]? = some b) (hx : s.boxes[j]? = some box) (hl : b.lastHit = (j : Int)) :
    ∃ s1, collideBallBoxAt Real.sqrt i j s = .ok s1 ∧
      s1.balls.length = s.balls.length ∧ s1.boxes.length = s.boxes.length ∧
      lastHitAt s1 i = some (-1) := by
  have hi : i < s.balls.length := (List.getElem?_eq_some_iff.mp hb).1
  unfold collideBallBoxAt
  simp only [hb, hx, (collideBallBox_outcome b box (j : Int)).1 hl]
  exact ⟨_, rfl, by simp, by simp, by simp [lastHitAt, hi]⟩

/-- A resolving call for ball `i` and box `j` sets `lastHit` of ball `i` to `j`. -/
theorem collideBallBoxAt_resolves (i j : Nat) (s : Game ℝ) (b : Ball ℝ) (box : Box ℝ)
    (hb : s.balls[i]? = some b) (hx : s.boxes[j]? = some box)
    (hr : resolves b box (j : Int)) :
    ∃ s1, collideBallBoxAt Real.sqrt i j s = .ok s1 ∧
      s1.balls.length = s.balls.length ∧ s1.boxes.length = s.boxes.length ∧
      lastHitAt s1 i = some (j : Int) := by
  have hi : i < s.balls.length := (List.getElem?_eq_some_iff.mp hb).1
  obtain ⟨b1, box1, e, hl1⟩ := (collideBallBox_outcome b box (j : Int)).2.2 hr
  unfold collideBallBoxAt
  simp only [hb, hx, e]
  exact ⟨_, rfl, by simp, by simp, by simp [lastHitAt, hi, hl1]⟩

/-- The empty part of a row changes nothing. -/
theorem ballBoxRow_zero {α : Type} [LinearOrderedField α] (sqrt : α → α) (i : Nat)
    (s : Game α) : ballBoxRow sqrt i 0 s = .ok s := rfl

/-- A row over `n + 1` boxes is the row over `n` boxes followed by the call for box `n`. -/
theorem ballBoxRow_succ {α : Type} [LinearOrderedField α] (sqrt : α → α) (i n : Nat)
    (s s1 : Game α) (h : ballBoxRow sqrt i n s = .ok s1) :
    ballBoxRow sqrt i (n + 1) s = collideBallBoxAt sqrt i n s1 := by
  unfold ballBoxRow at h ⊢
  rw [List.range_succ, List.foldlM_append, h]
  simp only [List.foldlM_cons, List.foldlM_nil, bind_pure]
  rfl

/-- No rows change nothing. -/
theorem ballBoxRows_zero {α : Type} [LinearOrderedField α] (sqrt : α → α) (s : Game α) :
    ballBoxRows sqrt 0 s = .ok s := rfl

/-- The rows of `m + 1` balls are the rows of `m` balls followed by the row of ball `m`. -/
theorem ballBoxRows_succ {α : Type} [LinearOrderedField α] (sqrt : α → α) (m : Nat)
    (s s1 : Game α) (h : ballBoxRows sqrt m s = .ok s1) :
    ballBoxRows sqrt (m + 1) s = ballBoxRow sqrt m s1.boxes.length s1 := by
  unfold ballBoxRows at h ⊢
  rw [List.range_succ, List.foldlM_append, h]
  simp only [List.foldlM_cons, List.foldlM_nil, bind_pure]
  rfl

/-- A row of another ball leaves ball `i` alone. -/
theorem ballBoxRow_other (i k n : Nat) (s : Game ℝ) (h : k ≠ i) :
    ∃ s1, ballBoxRow Real.sqrt k n s = .ok s1 ∧
      s1.balls.length = s.balls.length ∧ s1.boxes.length = s.boxes.length ∧
      s1.balls[i]? = s.balls[i]? := by
  induction n with
  | zero => exact ⟨s, rfl, rfl, rfl, rfl⟩
  | succ n ih =>
    obtain ⟨s1, e1, l1, l2, l3⟩ := ih
    obtain ⟨s2, e2, m1, m2, m3⟩ := collideBallBoxAt_other i k n s1 h
    exact ⟨s2, by rw [ballBoxRow_succ _ _ _ _ _ e1, e2], m1.trans l1, m2.trans l2, m3.trans l3⟩

/-- A row returns normally and keeps the lengths. -/
theorem ballBoxRow_ok (i n : Nat) (s : Game ℝ) :
    ∃ s1, ballBoxRow Real.sqrt i n s = .ok s1 ∧
      s1.balls.length = s.balls.length ∧ s1.boxes.length = s.boxes.length := by
  induction n with
  | zero => exact ⟨s, rfl, rfl, rfl⟩
  | succ n ih =>
    obtain ⟨s1, e1, l1, l2⟩ := ih
    obtain ⟨s2, e2, m1, m2, -⟩ := collideBallBoxAt_same i n s1
    exact ⟨s2, by rw [ballBoxRow_succ _ _ _ _ _ e1, e2], m1.trans l1, m2.trans l2⟩

/-- The rows return normally and keep the lengths. -/
theorem ballBoxRows_ok (m : Nat) (s : Game ℝ) :
    ∃ s1, ballBoxRows Real.sqrt m s = .ok s1 ∧
      s1.balls.length = s.balls.length ∧ s1.boxes.length = s.boxes.length := by
  induction m with
  | zero => exact ⟨s, rfl, rfl, rfl⟩
  | succ m ih =>
    obtain ⟨s1, e1, l1, l2⟩ := ih
    obtain ⟨s2, e2, m1, m2⟩ := ballBoxRow_ok m s1.boxes.length s1
    exact ⟨s2, by rw [ballBoxRows_succ _ _ _ _ e1, e2], m1.trans l1, m2.trans l2⟩

/-- The rows of the balls before `i` leave ball `i` alone. -/
theorem ballBoxRows_below (i m : Nat) (s : Game ℝ) (h : m ≤ i) :
    ∃ s1, ballBoxRows Real.sqrt m s = .ok s1 ∧
      s1.balls.length = s.balls.length ∧ s1.boxes.length = s.boxes.length ∧
      s1.balls[i]? = s.balls[i]? := by
  induction m with
  | zero => exact ⟨s, rfl, rfl, rfl, rfl⟩
  | succ m ih =>
    obtain ⟨s1, e1, l1, l2, l3⟩ := ih (Nat.le_of_succ_le h)
    obtain ⟨s2, e2, m1, m2, m3⟩ :=
      ballBoxRow_other i m s1.boxes.length s1 (Nat.ne_of_lt (Nat.lt_of_succ_le h))
    exact ⟨s2, by rw [ballBoxRows_succ _ _ _ _ e1, e2], m1.trans l1, m2.trans l2, m3.trans l3⟩

/-- The rows of the balls after `i` leave ball `i` alone. -/
theorem ballBoxRows_above (i m : Nat) (s s0 : Game ℝ)
    (h0 : ballBoxRows Real.sqrt (i + 1) s = .ok s0) (hm : i + 1 ≤ m) :
    ∃ s1, ballBoxRows Real.sqrt m s = .ok s1 ∧
      s1.balls.length = s0.balls.length ∧ s1.boxes.length = s0.boxes.length ∧
      s1.balls[i]? = s0.balls[i]? := by
  induction m, hm using Nat.le_induction with
  | base => exact ⟨s0, h0, rfl, rfl, rfl⟩
  | succ m hm ih =>
    obtain ⟨s1, e1, l1, l2, l3⟩ := ih
    obtain ⟨s2, e2, m1, m2, m3⟩ :=
      ballBoxRow_other i m s1.boxes.length s1 (Nat.ne_of_gt (Nat.lt_of_succ_le hm))
    exact ⟨s2, by rw [ballBoxRows_succ _ _ _ _ e1, e2], m1.trans l1, m2.trans l2, m3.trans l3⟩

/-- A stretch of the row of ball `i` in which no call is the cooldown or a resolution
changes nothing. -/
theorem ballBoxRow_keep (i n0 n : Nat) (s s0 : Game ℝ) (L : Int)
    (h0 : ballBoxRow Real.sqrt i n0 s = .ok s0) (hn : n0 ≤ n)
    (hL : lastHitAt s0 i = some L)
    (hstep : ∀ k, n0 ≤ k → k < n → (k : Int) ≠ L ∧
      (ballBoxRow Real.sqrt i k s = .ok s0 → ∀ b box, s0.balls[i]? = some b →
        s0.boxes[k]? = some box → ¬ resolves b box (k : Int))) :
    ballBoxRow Real.sqrt i n s = .ok s0 := by
  induction n, hn using Nat.le_induction with
  | base => exact h0
  | succ n hn ih =>
    have e1 := ih (fun k hk1 hk2 => hstep k hk1 (Nat.lt_succ_of_lt hk2))
    rw [ballBoxRow_succ _ _ _ _ _ e1]
    obtain ⟨hne, hnr⟩ := hstep n hn (Nat.lt_succ_self n)
    obtain ⟨s2, e2, -, -, hcase⟩ := collideBallBoxAt_same i n s0
    rw [e2]
    rcases hcase with h | ⟨b, hb, hl, -⟩ | ⟨b, box, hb, hx, hr, -⟩
    · rw [h]
    · exfalso
      apply hne
      simp only [lastHitAt, hb, Option.map_some', Option.some.injEq] at hL
      rw [← hl, hL]
    · exact absurd hr (hnr e1 b box hb hx)

/-- A stretch of the row of ball `i` that does not contain the call for box `j` keeps
`lastHit` of ball `i` different from `j`. -/
theorem ballBoxRow_ne (i j n0 n : Nat) (s s0 : Game ℝ)
    (h0 : ballBoxRow Real.sqrt i n0 s = .ok s0) (hn : n0 ≤ n)
    (hL : ∃ L, lastHitAt s0 i = some L ∧ L ≠ (j : Int))
    (hstep : ∀ k, n0 ≤ k → k < n → k ≠ j) :
    ∃ s1, ballBoxRow Real.sqrt i n s = .ok s1 ∧
      s1.balls.length = s0.balls.length ∧ s1.boxes.length = s0.boxes.length ∧
      ∃ L, lastHitAt s1 i = some L ∧ L ≠ (j : Int) := by
  induction n, hn using Nat.le_induction with
  | base => exact ⟨s0, h0, rfl, rfl, hL⟩
  | succ n hn ih =>
    obtain ⟨s1, e1, l1, l2, L, hL1, hL2⟩ :=
      ih (fun k hk1 hk2 => hstep k hk1 (Nat.lt_succ_of_lt hk2))
    have hne : n ≠ j := hstep n hn (Nat.lt_succ_self n)
    obtain ⟨s2, e2, m1, m2, hcase⟩ := collideBallBoxAt_same i n s1
    refine ⟨s2, by rw [ballBoxRow_succ _ _ _ _ _ e1, e2], m1.trans l1, m2.trans l2, ?_⟩
    rcases hcase with h | ⟨b, -, -, hl⟩ | ⟨b, box, -, -, -, hl⟩
    · rw [h]
      exact ⟨L, hL1, hL2⟩
    · exact ⟨-1, hl, by omega⟩
    · exact ⟨(n : Int), hl, by omega⟩

/-- Existence of ball `i` from its `lastHit`. -/
theorem ball_of_lastHitAt {α : Type} (g : Game α) (i : Nat) (L : Int)
    (h : lastHitAt g i = some L) : ∃ b, g.balls[i]? = some b ∧ b.lastHit = L := by
  unfold lastHitAt at h
  cases hb : g.balls[i]? with
  | none => rw [hb] at h; cases h
  | some b =>
    rw [hb] at h
    exact ⟨b, rfl, by simpa using h⟩

/-- From the state after the call for ball `i` and box `j`, with `lastHit` of ball `i`
different from `j`, the ball-box loops run to their end and keep it different from `j`. -/
theorem ballBoxPass_finish_ne (g0 si sc : Game ℝ) (i j : Nat)
    (hrows : ballBoxRows Real.sqrt i g0 = .ok si)
    (hcall : ballBoxRow Real.sqrt i (j + 1) si = .ok sc)
    (hi : i < g0.balls.length) (hj : j < g0.boxes.length)
    (hL : ∃ L, lastHitAt sc i = some L ∧ L ≠ (j : Int)) :
    ∃ s1, ballBoxPass Real.sqrt g0 = .ok s1 ∧
      s1.balls.length = g0.balls.length ∧ s1.boxes.length = g0.boxes.length ∧
      ∃ L, lastHitAt s1 i = some L ∧ L ≠ (j : Int) := by
  obtain ⟨si', e0, a1, a2⟩ := ballBoxRows_ok i g0
  rw [hrows] at e0
  cases e0
  obtain ⟨sc', e1, b1, b2⟩ := ballBoxRow_ok i (j + 1) si
  rw [hcall] at e1
  cases e1
  obtain ⟨sr, e2, c1, c2, hLr⟩ := ballBoxRow_ne i j (j + 1) si.boxes.length si sc hcall
    (by omega) hL (fun k hk _ => by omega)
  have e3 : ballBoxRows Real.sqrt (i + 1) g0 = .ok sr := by
    rw [ballBoxRows_succ _ _ _ _ hrows, e2]
  obtain ⟨s1, e4, d1, d2, d3⟩ := ballBoxRows_above i g0.balls.length g0 sr e3 (by omega)
  refine ⟨s1, e4, by omega, by omega, ?_⟩
  obtain ⟨L, hL1, hL2⟩ := hLr
  exact ⟨L, by rw [lastHitAt, d3]; exact hL1, hL2⟩

/-- From the state after the call for ball `i` and box `j`, with `lastHit` of ball `i`
equal to `j`, the ball-box loops run to their end and keep it equal to `j` when no later
box resolves the ball. -/
theorem ballBoxPass_finish_eq (g0 si sc : Game ℝ) (i j : Nat)
    (hrows : ballBoxRows Real.sqrt i g0 = .ok si)
    (hcall : ballBoxRow Real.sqrt i (j + 1) si = .ok sc)
    (hi : i < g0.balls.length) (hj : j < g0.boxes.length)
    (hL : lastHitAt sc i = some (j : Int))
    (hno : ∀ k, j < k → ∀ b box, ballBoxRow Real.sqrt i k si = .ok sc →
      sc.balls[i]? = some b → sc.boxes[k]? = some box → ¬ resolves b box (k : Int)) :
    ∃ s1, ballBoxPass Real.sqrt g0 = .ok s1 ∧
      s1.balls.length = g0.balls.length ∧ s1.boxes.length = g0.boxes.length ∧
      lastHitAt s1 i = some (j : Int) := by
  obtain ⟨si', e0, a1, a2⟩ := ballBoxRows_ok i g0
  rw [hrows] at e0
  cases e0
  obtain ⟨sc', e1, b1, b2⟩ := ballBoxRow_ok i (j + 1) si
  rw [hcall] at e1
  cases e1
  have e2 : ballBoxRow Real.sqrt i si.boxes.length si = .ok sc :=
    ballBoxRow_keep i (j + 1) si.boxes.length si sc (j : Int) hcall (by omega) hL
      (fun k hk _ => ⟨by omega, fun hrow b box hb hx => hno k (by omega) b box hrow hb hx⟩)
  have e3 : ballBoxRows Real.sqrt (i + 1) g0 = .ok sc := by
    rw [ballBoxRows_succ _ _ _ _ hrows, e2]
  obtain ⟨s1, e4, d1, d2, d3⟩ := ballBoxRows_above i g0.balls.length g0 sc e3 (by omega)
  exact ⟨s1, e4, by omega, by omega, by rw [lastHitAt, d3]; exact hL⟩

/-- The state of the call for ball `i` and box `j` in terms of the rows before it. -/
theorem ballBoxUpTo_eq {α : Type} [LinearOrderedField α] (sqrt : α → α) (i j : Nat)
    (g0 si : Game α) (hrows : ballBoxRows sqrt i g0 = .ok si) :
    ballBoxUpTo sqrt i j g0 = ballBoxRow sqrt i j si := by
  rw [ballBoxUpTo, hrows]

/-- The tick in terms of the result of its ball-box loops. -/
theorem Update_eq {α : Type} [LinearOrderedField α] (sqrt : α → α)
    (sliders : Fin numberOfSliders → Slider α) (g s : Game α)
    (h : ballBoxPass sqrt (beforeBallBox sqrt g) = .ok s) :
    Update sqrt sliders g = .ok (afterBallBox sliders s) := by
  rw [Update, h]

/-- When `lastHit` of ball `i` is `j` at the start of the ball-box loops and no earlier
box resolves the ball, the call for the pair is reached with `lastHit` still `j`. -/
theorem ballBox_start_eq (g0 : Game ℝ) (i j : Nat) (hL : lastHitAt g0 i = some (j : Int))
    (hno : ∀ k, k < j → ∀ s b box, ballBoxUpTo Real.sqrt i k g0 = .ok s →
      s.balls[i]? = some b → s.boxes[k]? = some box → ¬ resolves b box (k : Int)) :
    ∃ si, ballBoxRows Real.sqrt i g0 = .ok si ∧ ballBoxRow Real.sqrt i j si = .ok si ∧
      si.balls.length = g0.balls.length ∧ si.boxes.length = g0.boxes.length ∧
      lastHitAt si i = some (j : Int) := by
  obtain ⟨si, hrows, a1, a2, a3⟩ := ballBoxRows_below i i g0 (le_refl i)
  have hL1 : lastHitAt si i = some (j : Int) := by
    rw [lastHitAt, a3]
    exact hL
  refine ⟨si, hrows, ?_, a1, a2, hL1⟩
  exact ballBoxRow_keep i 0 j si si (j : Int) (ballBoxRow_zero _ _ _) (Nat.zero_le j) hL1
    (fun k _ hk => ⟨by omega, fun hrow b box hb hx =>
      hno k hk si b box (by rw [ballBoxUpTo_eq _ _ _ _ _ hrows]; exact hrow) hb hx⟩)

/-- When `lastHit` of ball `i` differs from `j` at the start of the ball-box loops, the call
for the pair is reached with `lastHit` still different from `j`. -/
theorem ballBox_start_ne (g0 : Game ℝ) (i j : Nat)
    (hL : ∃ L, lastHitAt g0 i = some L ∧ L ≠ (j : Int)) :
    ∃ si s, ballBoxRows Real.sqrt i g0 = .ok si ∧ ballBoxRow Real.sqrt i j si = .ok s ∧
      s.balls.length = g0.balls.length ∧ s.boxes.length = g0.boxes.length ∧
      ∃ L, lastHitAt s i = some L ∧ L ≠ (j : Int) := by
  obtain ⟨si, hrows, a1, a2, a3⟩ := ballBoxRows_below i i g0 (le_refl i)
  obtain ⟨L, hL1, hL2⟩ := hL
  have hL3 : lastHitAt si i = some L := by
    rw [lastHitAt, a3]
    exact hL1
  obtain ⟨s, e, b1, b2, hLs⟩ := ballBoxRow_ne i j 0 j si si (ballBoxRow_zero _ _ _)
    (Nat.zero_le j) ⟨L, hL3, hL2⟩ (fun k _ hk => by omega)
  exact ⟨si, s, hrows, e, by omega, by omega, hLs⟩

/-- Claim C5, amended. The `lastHit` suppression across ticks, over the reals, for every
world and slider setting: if during tick T the pair (ball `i`, box `j`) is resolved and no
later box of that tick resolves ball `i`, the tick ends normally with `lastHit = j`; if
moreover no earlier box resolves ball `i` in tick T+1, then in tick T+1 the call for the
pair is reached with `lastHit = j`, is not a resolution whatever the geometry, and clears
`lastHit` to `-1`; and tick T+1 ends normally and in tick T+2 the call for the pair is
reached with `lastHit ≠ j`, so that the pair is resolved again (and `lastHit` set to `j`)
if the squared distance is neither below `epsilon` nor above the squared radius. -/
theorem lastHit_suppression (sliders : Fin numberOfSliders → Slider ℝ) (g : Game ℝ)
    (i j : Nat) (hres : resolvedAt Real.sqrt i j g)
    (hlater : ∀ k, j < k → ¬ resolvedAt Real.sqrt i k g) :
    ∃ g1, Update Real.sqrt sliders g = .ok g1 ∧ lastHitAt g1 i = some (j : Int) ∧
      ((∀ k, k < j → ¬ resolvedAt Real.sqrt i k g1) →
        (∃ s b box, callState Real.sqrt i j g1 = .ok s ∧ s.balls[i]? = some b ∧
          s.boxes[j]? = some box ∧ b.lastHit = (j : Int) ∧ ¬ resolves b box (j : Int) ∧
          ∃ s1, collideBallBoxAt Real.sqrt i j s = .ok s1 ∧ lastHitAt s1 i = some (-1)) ∧
        ∃ g2, Update Real.sqrt sliders g1 = .ok g2 ∧
          ∃ s b box, callState Real.sqrt i j g2 = .ok s ∧ s.balls[i]? = some b ∧
            s.boxes[j]? = some box ∧ b.lastHit ≠ (j : Int) ∧
            (¬ dist2 b box < epsilon → ¬ dist2 b box > b.r * b.r →
              resolves b box (j : Int) ∧
              ∃ s1, collideBallBoxAt Real.sqrt i j s = .ok s1 ∧
                lastHitAt s1 i = some (j : Int))) := by
  -- tick T
  obtain ⟨s, b, box, hcs, hb, hx, hr⟩ := hres
  obtain ⟨si, hrows, a1, a2⟩ := ballBoxRows_ok i (beforeBallBox Real.sqrt g)
  have hrow : ballBoxRow Real.sqrt i j si = .ok s := by
    rw [callState, ballBoxUpTo_eq _ _ _ _ _ hrows] at hcs
    exact hcs
  obtain ⟨s', e, b1, b2⟩ := ballBoxRow_ok i j si
  rw [hrow] at e
  cases e
  have hi : i < (beforeBallBox Real.sqrt g).balls.length := by
    have := (List.getElem?_eq_some_iff.mp hb).1
    omega
  have hj : j < (beforeBallBox Real.sqrt g).boxes.length := by
    have := (List.getElem?_eq_some_iff.mp hx).1
    omega
  obtain ⟨sc, ecall, c1, c2, hLc⟩ := collideBallBoxAt_resolves i j s b box hb hx hr
  have hcall : ballBoxRow Real.sqrt i (j + 1) si = .ok sc := by
    rw [ballBoxRow_succ _ _ _ _ _ hrow, ecall]
  obtain ⟨s1, epass, d1, d2, hL1⟩ := ballBoxPass_finish_eq _ si sc i j hrows hcall hi hj hLc
    (fun k hk b' box' hrow' hb' hx' hres' => hlater k hk
      ⟨sc, b', box', by rw [callState, ballBoxUpTo_eq _ _ _ _ _ hrows]; exact hrow',
        hb', hx', hres'⟩)
  obtain ⟨f1, f2, f3⟩ := beforeBallBox_frame Real.sqrt g i
  obtain ⟨k1, k2⟩ := afterBallBox_frame sliders s1
  have hLg1 : lastHitAt (afterBallBox sliders s1) i = some (j : Int) := by
    rw [lastHitAt, k1]
    exact hL1
  refine ⟨afterBallBox sliders s1, Update_eq _ _ _ _ epass, hLg1, fun hearlier => ?_⟩
  -- tick T+1
  obtain ⟨m1, m2, m3⟩ := beforeBallBox_frame Real.sqrt (afterBallBox sliders s1) i
  have hi1 : i < (beforeBallBox Real.sqrt (afterBallBox sliders s1)).balls.length := by
    rw [m2, k1]
    omega
  have hj1 : j < (beforeBallBox Real.sqrt (afterBallBox sliders s1)).boxes.length := by
    omega
  obtain ⟨ti, trows, trow, n1, n2, hLt⟩ :=
    ballBox_start_eq (beforeBallBox Real.sqrt (afterBallBox sliders s1)) i j
      (by rw [m1]; exact hLg1)
      (fun k hk s0 b0 box0 hs0 hb0 hx0 hres0 =>
        hearlier k hk ⟨s0, b0, box0, hs0, hb0, hx0, hres0⟩)
  have hcs1 : callState Real.sqrt i j (afterBallBox sliders s1) = .ok ti := by
    rw [callState, ballBoxUpTo_eq _ _ _ _ _ trows]
    exact trow
  obtain ⟨bt, hbt, hlt⟩ := ball_of_lastHitAt ti i (j : Int) hLt
  have hjt : j < ti.boxes.length := by omega
  have hxt : ti.boxes[j]? = some (ti.boxes[j]) := List.getElem?_eq_getElem hjt
  obtain ⟨tc, tcall, p1, p2, hLtc⟩ := collideBallBoxAt_cooldown i j ti bt _ hbt hxt hlt
  refine ⟨⟨ti, bt, _, hcs1, hbt, hxt, hlt, fun hr1 => hr1.1 hlt, tc, tcall, hLtc⟩, ?_⟩
  have tcall1 : ballBoxRow Real.sqrt i (j + 1) ti = .ok tc := by
    rw [ballBoxRow_succ _ _ _ _ _ trow, tcall]
  obtain ⟨t1, tpass, q1, q2, L, hLt1, hLne⟩ := ballBoxPass_finish_ne _ ti tc i j trows tcall1
    hi1 hj1 ⟨-1, hLtc, by omega⟩
  obtain ⟨r1, r2⟩ := afterBallBox_frame sliders t1
  have hLg2 : lastHitAt (afterBallBox sliders t1) i = some L := by
    rw [lastHitAt, r1]
    exact hLt1
  refine ⟨afterBallBox sliders t1, Update_eq _ _ _ _ tpass, ?_⟩
  -- tick T+2
  obtain ⟨u1, u2, u3⟩ := beforeBallBox_frame Real.sqrt (afterBallBox sliders t1) i
  obtain ⟨ui, us, urows, urow, v1, v2, L2, hLu, hLune⟩ :=
    ballBox_start_ne (beforeBallBox Real.sqrt (afterBallBox sliders t1)) i j
      ⟨L, by rw [u1]; exact hLg2, hLne⟩
  have hcs2 : callState Real.sqrt i j (afterBallBox sliders t1) = .ok us := by
    rw [callState, ballBoxUpTo_eq _ _ _ _ _ urows]
    exact urow
  obtain ⟨bu, hbu, hlu⟩ := ball_of_lastHitAt us i L2 hLu
  have hju : j < us.boxes.length := by omega
  have hxu : us.boxes[j]? = some (us.boxes[j]) := List.getElem?_eq_getElem hju
  refine ⟨us, bu, _, hcs2, hbu, hxu, by rw [hlu]; exact hLune, fun g1 g2 => ?_⟩
  have hru : resolves bu (us.boxes[j]) (j : Int) := ⟨by rw [hlu]; exact hLune, g1, g2⟩
  obtain ⟨uc, ucall, -, -, hLuc⟩ := collideBallBoxAt_resolves i j us bu _ hbu hxu hru
  exact ⟨hru, uc, ucall, hLuc⟩

/-! ## Two boxes and one ball -/

/-- The square root of 9. -/
theorem sqrt_nine : Real.sqrt 9 = 3 := by
  rw [show (9 : ℝ) = 3 * 3 by norm_num]
  exact Real.sqrt_mul_self (by norm_num)

/-- The world `cornerWorld` after the moves of the first tick. -/
theorem cornerWorld_before :
    beforeBallBox Real.sqrt (cornerWorld : Game ℝ) = cornerWorldMoved := by
  simp only [beforeBallBox, cornerWorld, cornerWorldMoved, moveBalls, moveBoxes,
    ballBallPass, List.map, checkBallWallCollision, checkBoxWallCollision, screenWidth,
    screenHeight]
  norm_num [List.range_succ, List.range_zero, List.range']

/-- The first tick of `cornerWorld`: the call for box 0 resolves the ball. -/
theorem cornerWorld_step0 :
    collideBallBoxAt Real.sqrt 0 0 (cornerWorldMoved : Game ℝ) = .ok cornerWorldHit := by
  simp only [collideBallBoxAt, collideBallBox, cornerWorldMoved, cornerWorldHit,
    List.getElem?_cons_zero, isNaN_real, epsilon]
  norm_num

/-- The first tick of `cornerWorld`: the call for box 1 resolves the ball again. -/
theorem cornerWorld_step1 :
    collideBallBoxAt Real.sqrt 0 1 (cornerWorldHit : Game ℝ) = .ok cornerWorldNext := by
  simp only [collideBallBoxAt, collideBallBox, cornerWorldHit, cornerWorldNext,
    List.getElem?_cons_zero, List.getElem?_cons_succ, isNaN_real, epsilon]
  norm_num [sqrt_nine]

/-- The ball-box loops of the first tick of `cornerWorld`. -/
theorem cornerWorld_pass :
    ballBoxPass Real.sqrt (cornerWorldMoved : Game ℝ) = .ok cornerWorldNext := by
  have e0 : ballBoxRows Real.sqrt 1 (cornerWorldMoved : Game ℝ)
      = ballBoxRow Real.sqrt 0 2 cornerWorldMoved :=
    ballBoxRows_succ _ _ _ _ (ballBoxRows_zero _ _)
  have e1 : ballBoxRow Real.sqrt 0 1 (cornerWorldMoved : Game ℝ) = .ok cornerWorldHit := by
    rw [ballBoxRow_succ _ _ _ _ _ (ballBoxRow_zero _ _ _), cornerWorld_step0]
  have e2 : ballBoxRow Real.sqrt 0 2 (cornerWorldMoved : Game ℝ) = .ok cornerWorldNext := by
    rw [ballBoxRow_succ _ _ _ _ _ e1, cornerWorld_step1]
  exact e0.trans e2

/-- The box-box loops and friction of the first tick of `cornerWorld` change nothing. -/
theorem cornerWorld_after :
    afterBallBox initSliders (cornerWorldNext : Game ℝ) = cornerWorldNext := by
  simp only [afterBallBox, boxBoxPass, collideBoxesAt, collideBoxes, frictBoxes, initSliders,
    setSlider, Slider.Value, frictionSlider, cornerWorldNext, List.length_cons,
    List.length_nil, List.range_succ, List.range_zero, List.nil_append, List.cons_append,
    List.foldl_cons, List.foldl_nil, List.range', List.map]
  norm_num

/-- One tick takes `cornerWorld` to `cornerWorldNext`. -/
theorem cornerWorld_update :
    Update Real.sqrt initSliders (cornerWorld : Game ℝ) = .ok cornerWorldNext := by
  rw [Update, cornerWorld_before, cornerWorld_pass]
  simp only [cornerWorld_after]

/-- The world `cornerWorldNext` after the moves of the second tick. -/
theorem cornerWorldNext_before :
    beforeBallBox Real.sqrt (cornerWorldNext : Game ℝ) = cornerWorldNextMoved := by
  simp only [beforeBallBox, cornerWorldNext, cornerWorldNextMoved, moveBalls, moveBoxes,
    ballBallPass, List.map, checkBallWallCollision, checkBoxWallCollision, screenWidth,
    screenHeight]
  norm_num [List.range_succ, List.range_zero, List.range']

/-- The pair (ball 0, box 0) is resolved in the first tick of `cornerWorld`. -/
theorem cornerWorld_res : resolvedAt Real.sqrt 0 0 (cornerWorld : Game ℝ) := by
  have e : callState Real.sqrt 0 0 (cornerWorld : Game ℝ) = .ok cornerWorldMoved := by
    rw [callState, cornerWorld_before, ballBoxUpTo_eq _ _ _ _ _ (ballBoxRows_zero _ _),
      ballBoxRow_zero]
  refine ⟨_, ⟨200, 99, 0, 2, 4, 1, blue, -1⟩, ⟨100, 100, 0, 0, 100, 100, 3, red⟩, e, rfl,
    rfl, ?_⟩
  norm_num [resolves, dist2, closestX, closestY, epsilon]

/-- The pair (ball 0, box 1) is resolved in the first tick of `cornerWorld`, after the pair
(ball 0, box 0). -/
theorem cornerWorld_res_later : resolvedAt Real.sqrt 0 1 (cornerWorld : Game ℝ) := by
  have e : callState Real.sqrt 0 1 (cornerWorld : Game ℝ) = .ok cornerWorldHit := by
    rw [callState, cornerWorld_before, ballBoxUpTo_eq _ _ _ _ _ (ballBoxRows_zero _ _),
      ballBoxRow_succ _ _ _ _ _ (ballBoxRow_zero _ _ _), cornerWorld_step0]
  refine ⟨_, ⟨200, 97, 0, -1, 4, 1, blue, 0⟩, ⟨200, 100, 0, 0, 100, 100, 3, red⟩, e, rfl,
    rfl, ?_⟩
  norm_num [resolves, dist2, closestX, closestY, epsilon]

/-- The pair (ball 0, box 0) is resolved in the second tick of `cornerWorld`. -/
theorem cornerWorld_res_next : resolvedAt Real.sqrt 0 0 (cornerWorldNext : Game ℝ) := by
  have e : callState Real.sqrt 0 0 (cornerWorldNext : Game ℝ)
      = .ok cornerWorldNextMoved := by
    rw [callState, cornerWorldNext_before, ballBoxUpTo_eq _ _ _ _ _ (ballBoxRows_zero _ _),
      ballBoxRow_zero]
  refine ⟨_, ⟨200, 197 / 2, 0, 1 / 2, 4, 1, blue, 1⟩,
    ⟨100, 101, 0, 1, 100, 100, 3, red⟩, e, rfl, rfl, ?_⟩
  norm_num [resolves, dist2, closestX, closestY, epsilon]

/-- Counterexample to C5 as stated: in `cornerWorld` (one ball above the common corner of
two touching boxes) the pair (ball 0, box 0) is resolved during the first tick, the ball
is then resolved against box 1 in the same tick, the tick ends in `cornerWorldNext` with
`lastHit = 1`, and during the next tick the pair (ball 0, box 0) is resolved again. -/
theorem lastHit_not_suppressed :
    resolvedAt Real.sqrt 0 0 (cornerWorld : Game ℝ) ∧
    resolvedAt Real.sqrt 0 1 (cornerWorld : Game ℝ) ∧
    Update Real.sqrt initSliders (cornerWorld : Game ℝ) = .ok cornerWorldNext ∧
    lastHitAt (cornerWorldNext : Game ℝ) 0 = some 1 ∧
    resolvedAt Real.sqrt 0 0 (cornerWorldNext : Game ℝ) :=
  ⟨cornerWorld_res, cornerWorld_res_later, cornerWorld_update, rfl, cornerWorld_res_next⟩

/-- The state of a call of the ball-box loops has as many boxes as the state at the start
of the tick. -/
theorem callState_boxes (i j : Nat) (g s : Game ℝ)
    (h : callState Real.sqrt i j g = .ok s) : s.boxes.length = g.boxes.length := by
  obtain ⟨si, hrows, -, a2⟩ := ballBoxRows_ok i (beforeBallBox Real.sqrt g)
  obtain ⟨s1, hrow, -, b2⟩ := ballBoxRow_ok i j si
  rw [callState, ballBoxUpTo_eq _ _ _ _ _ hrows, hrow] at h
  cases h
  rw [b2, a2]
  exact (beforeBallBox_frame Real.sqrt g i).2.2

/-- The pair (ball 0, box 0) is resolved in the first tick of `oneBoxWorld`. -/
theorem oneBoxWorld_res : resolvedAt Real.sqrt 0 0 (oneBoxWorld : Game ℝ) := by
  have e : callState Real.sqrt 0 0 (oneBoxWorld : Game ℝ)
      = .ok { balls := [fastBall], boxes := [heavyBox], ballsVisible := true } := by
    simp only [callState, ballBoxUpTo, ballBoxRows, ballBoxRow, List.range_zero,
      List.foldlM_nil, pure, Except.pure]
    simp only [beforeBallBox, oneBoxWorld, heavyBox, fastBall, moveBalls, moveBoxes,
      ballBallPass, List.map, checkBallWallCollision, checkBoxWallCollision, screenWidth,
      screenHeight]
    norm_num [List.range_succ, List.range_zero, List.range']
  refine ⟨_, fastBall, heavyBox, e, rfl, rfl, ?_⟩
  refine ⟨by decide, ?_, ?_⟩
  · rw [fastBall_closest.2.2]
    norm_num [epsilon]
  · rw [fastBall_closest.2.2]
    norm_num [fastBall]

/-- In `oneBoxWorld` there is no box after box 0 to resolve the ball. -/
theorem oneBoxWorld_later (k : Nat) (hk : 0 < k) :
    ¬ resolvedAt Real.sqrt 0 k (oneBoxWorld : Game ℝ) := by
  rintro ⟨s, b, box, hs, -, hx, -⟩
  have hlen := callState_boxes 0 k _ s hs
  have hk1 := (List.getElem?_eq_some_iff.mp hx).1
  simp only [oneBoxWorld, List.length_cons, List.length_nil] at hlen
  omega

/-- Witness of C5 (amended): the world with one ball and one box.  The pair is resolved
in the first tick, not resolved in the second, where `lastHit` is cleared. -/
theorem lastHit_suppression_witness :
    resolvedAt Real.sqrt 0 0 (oneBoxWorld : Game ℝ) ∧
    (∀ k, 0 < k → ¬ resolvedAt Real.sqrt 0 k (oneBoxWorld : Game ℝ)) ∧
    ∃ g1, Update Real.sqrt initSliders (oneBoxWorld : Game ℝ) = .ok g1 ∧
      lastHitAt g1 0 = some 0 ∧
      ∃ s b box, callState Real.sqrt 0 0 g1 = .ok s ∧ s.balls[0]? = some b ∧
        s.boxes[0]? = some box ∧ b.lastHit = 0 ∧ ¬ resolves b box 0 ∧
        ∃ s1, collideBallBoxAt Real.sqrt 0 0 s = .ok s1 ∧ lastHitAt s1 0 = some (-1) := by
  obtain ⟨g1, e, hL, h⟩ :=
    lastHit_suppression initSliders (oneBoxWorld : Game ℝ) 0 0 oneBoxWorld_res
      oneBoxWorld_later
  exact ⟨oneBoxWorld_res, oneBoxWorld_later, g1, e, hL,
    (h (fun k hk => absurd hk (Nat.not_lt_zero k))).1⟩

/-! ## Wall containment of a contained body -/

/-- A contained ball is returned unchanged. -/
theorem checkBall_of_contained {α : Type} [LinearOrderedField α] (b : Ball α)
    (hb : b.r ≤ b.x ∧ b.x ≤ 1900 - b.r ∧ b.r ≤ b.y ∧ b.y ≤ 1340 - b.r) :
    checkBallWallCollision b = b := by
  obtain ⟨h1, h2, h3, h4⟩ := hb
  have c1 : ¬ b.x - b.r < 0 := by linarith
  have c2 : ¬ b.x + b.r > ((screenWidth : Nat) : α) := by
    simp only [screenWidth, Nat.cast_ofNat]
    linarith
  have c3 : ¬ b.y - b.r < 0 := by linarith
  have c4 : ¬ b.y + b.r > ((screenHeight : Nat) : α) := by
    simp only [screenHeight, Nat.cast_ofNat]
    linarith
  unfold checkBallWallCollision
  simp only [if_neg c1, if_neg c2, if_neg c3, if_neg c4]

/-- A contained box is returned unchanged. -/
theorem checkBox_of_contained {α : Type} [LinearOrderedField α] (box : Box α)
    (hx : 0 ≤ box.x ∧ box.x + box.w ≤ 1900 ∧ 0 ≤ box.y ∧ box.y + box.h ≤ 1340) :
    checkBoxWallCollision box = box := by
  obtain ⟨h1, h2, h3, h4⟩ := hx
  have c1 : ¬ box.x < 0 := by linarith
  have c2 : ¬ box.x + box.w > ((screenWidth : Nat) : α) := by
    simp only [screenWidth, Nat.cast_ofNat]
    linarith
  have c3 : ¬ box.y < 0 := by linarith
  have c4 : ¬ box.y + box.h > ((screenHeight : Nat) : α) := by
    simp only [screenHeight, Nat.cast_ofNat]
    linarith
  unfold checkBoxWallCollision
  simp only [if_neg c1, if_neg c2, if_neg c3, if_neg c4]

/-- Claim C11. Wall containment idempotence, for every ordered field: a ball already
contained in the arena (`r ≤ x ≤ 1900 - r`, `r ≤ y ≤ 1340 - r`) is returned unchanged by
`checkBallWallCollision`, a box already contained (`0 ≤ x`, `x + w ≤ 1900`, `0 ≤ y`,
`y + h ≤ 1340`) is returned unchanged by `checkBoxWallCollision`, and so a second call in
succession changes nothing either. -/
theorem wall_containment_idempotent {α : Type} [LinearOrderedField α] (b : Ball α)
    (box : Box α)
    (hb : b.r ≤ b.x ∧ b.x ≤ 1900 - b.r ∧ b.r ≤ b.y ∧ b.y ≤ 1340 - b.r)
    (hx : 0 ≤ box.x ∧ box.x + box.w ≤ 1900 ∧ 0 ≤ box.y ∧ box.y + box.h ≤ 1340) :
    checkBallWallCollision b = b ∧ checkBoxWallCollision box = box ∧
    checkBallWallCollision (checkBallWallCollision b) = checkBallWallCollision b ∧
    checkBoxWallCollision (checkBoxWallCollision box) = checkBoxWallCollision box := by
  have e1 := checkBall_of_contained b hb
  have e2 := checkBox_of_contained box hx
  refine ⟨e1, e2, ?_, ?_⟩
  · rw [e1, e1]
  · rw [e2, e2]

/-- Witness of C11: a ball well inside the arena and the heavy box. -/
theorem wall_containment_idempotent_witness :
    ((insideBall : Ball ℝ).r ≤ (insideBall : Ball ℝ).x ∧
      (insideBall : Ball ℝ).x ≤ 1900 - (insideBall : Ball ℝ).r ∧
      (insideBall : Ball ℝ).r ≤ (insideBall : Ball ℝ).y ∧
      (insideBall : Ball ℝ).y ≤ 1340 - (insideBall : Ball ℝ).r) ∧
    ((0 : ℝ) ≤ (heavyBox : Box ℝ).x ∧
      (heavyBox : Box ℝ).x + (heavyBox : Box ℝ).w ≤ 1900 ∧
      (0 : ℝ) ≤ (heavyBox : Box ℝ).y ∧
      (heavyBox : Box ℝ).y + (heavyBox : Box ℝ).h ≤ 1340) ∧
    checkBallWallCollision (insideBall : Ball ℝ) = insideBall ∧
    checkBoxWallCollision (heavyBox : Box ℝ) = heavyBox := by
  have h1 : (insideBall : Ball ℝ).r ≤ (insideBall : Ball ℝ).x ∧
      (insideBall : Ball ℝ).x ≤ 1900 - (insideBall : Ball ℝ).r ∧
      (insideBall : Ball ℝ).r ≤ (insideBall : Ball ℝ).y ∧
      (insideBall : Ball ℝ).y ≤ 1340 - (insideBall : Ball ℝ).r := by
    norm_num [insideBall]
  have h2 : (0 : ℝ) ≤ (heavyBox : Box ℝ).x ∧
      (heavyBox : Box ℝ).x + (heavyBox : Box ℝ).w ≤ 1900 ∧
      (0 : ℝ) ≤ (heavyBox : Box ℝ).y ∧
      (heavyBox : Box ℝ).y + (heavyBox : Box ℝ).h ≤ 1340 := by
    norm_num [heavyBox]
  have h := wall_containment_idempotent (insideBall : Ball ℝ) heavyBox h1 h2
  exact ⟨h1, h2, h.1, h.2.1⟩

/-! ## Skipped calls -/

/-- Claim C13. No interaction outside contact in `collideBalls`, for every ordered field
and square-root function: when the centre distance `dist` satisfies `dist ≥ r1 + r2` or
`dist = 0`, the call returns both balls with every field unchanged. -/
theorem collideBalls_no_contact {α : Type} [LinearOrderedField α] (sqrt : α → α)
    (b1 b2 : Ball α)
    (h : ballDist sqrt b1 b2 ≥ b1.r + b2.r ∨ ballDist sqrt b1 b2 = 0) :
    collideBalls sqrt b1 b2 = (b1, b2) := by
  simp only [ballDist] at h
  unfold collideBalls
  simp only [if_pos h]

/-- The balls `insideBall` and `farBall` are 10 apart. -/
theorem ballDist_far : ballDist Real.sqrt (insideBall : Ball ℝ) farBall = 10 := by
  have e : ((110 : ℝ) - 100) * (110 - 100) + (200 - 200) * (200 - 200) = 10 * 10 := by
    norm_num
  simp only [ballDist, hypot, insideBall, farBall]
  rw [e, Real.sqrt_mul_self (by norm_num)]

/-- Witness of C13: two balls of radius 4 that are 10 apart. -/
theorem collideBalls_no_contact_witness :
    (ballDist Real.sqrt (insideBall : Ball ℝ) farBall
        ≥ (insideBall : Ball ℝ).r + (farBall : Ball ℝ).r ∨
      ballDist Real.sqrt (insideBall : Ball ℝ) farBall = 0) ∧
    collideBalls Real.sqrt (insideBall : Ball ℝ) farBall = (insideBall, farBall) := by
  have h : ballDist Real.sqrt (insideBall : Ball ℝ) farBall
        ≥ (insideBall : Ball ℝ).r + (farBall : Ball ℝ).r ∨
      ballDist Real.sqrt (insideBall : Ball ℝ) farBall = 0 := by
    left
    rw [ballDist_far]
    norm_num [insideBall, farBall]
  exact ⟨h, collideBalls_no_contact Real.sqrt insideBall farBall h⟩

/-- The clamp of a coordinate that lies in the interval is the coordinate. -/
theorem clamp_inside {α : Type} [LinearOrderedField α] (lo w c : α)
    (h1 : lo ≤ c) (h2 : c ≤ lo + w) : max lo (min c (lo + w)) = c := by
  rw [min_eq_left h2, max_eq_right h1]

/-- A ball whose centre lies in the closed rectangle of the box is at squared distance 0
from it. -/
theorem dist2_inside {α : Type} [LinearOrderedField α] (b : Ball α) (box : Box α)
    (hx : box.x ≤ b.x ∧ b.x ≤ box.x + box.w) (hy : box.y ≤ b.y ∧ b.y ≤ box.y + box.h) :
    dist2 b box = 0 := by
  simp only [dist2, closestX, closestY, clamp_inside _ _ _ hx.1 hx.2,
    clamp_inside _ _ _ hy.1 hy.2]
  ring

/-- A call that is not the cooldown and finds the squared distance below `epsilon`
changes nothing. -/
theorem collideBallBox_near {α : Type} [LinearOrderedField α] (sqrt : α → α) (b : Ball α)
    (box : Box α) (j : Int) (hl : b.lastHit ≠ j) (hd : dist2 b box < epsilon) :
    collideBallBox sqrt b box j = .ok (b, box) := by
  simp only [dist2, closestX, closestY] at hd
  unfold collideBallBox
  simp only [if_neg hl, if_pos hd]

/-- Claim C20. A ball whose centre is inside a block is never resolved, for every ordered
field and square-root function: when `b.lastHit ≠ j` and the squared distance from the
centre to the closest point of the box is below `0.1`, in particular when the centre lies
in the closed rectangle of a box with `w ≥ 0`, `h ≥ 0`, `collideBallBox` returns normally
with every field of the ball and of the box unchanged. -/
theorem collideBallBox_centre_inside {α : Type} [LinearOrderedField α] (sqrt : α → α)
    (b : Ball α) (box : Box α) (j : Int) (hw : 0 ≤ box.w) (hh : 0 ≤ box.h)
    (hl : b.lastHit ≠ j) :
    (dist2 b box < 1 / 10 → collideBallBox sqrt b box j = .ok (b, box)) ∧
    (box.x ≤ b.x ∧ b.x ≤ box.x + box.w → box.y ≤ b.y ∧ b.y ≤ box.y + box.h →
      dist2 b box = 0 ∧ collideBallBox sqrt b box j = .ok (b, box)) ∧
    0 ≤ dist2 b box ∧ box.x ≤ box.x + box.w ∧ box.y ≤ box.y + box.h := by
  refine ⟨fun hd => collideBallBox_near sqrt b box j hl hd, fun hx hy => ?_, ?_, ?_, ?_⟩
  · have e := dist2_inside b box hx hy
    refine ⟨e, collideBallBox_near sqrt b box j hl ?_⟩
    rw [e, epsilon]
    norm_num
  · exact add_nonneg (mul_self_nonneg _) (mul_self_nonneg _)
  · linarith
  · linarith

/-- Witness of C20: a ball whose centre `(50, 50)` lies inside the heavy box. -/
theorem collideBallBox_centre_inside_witness :
    (0 : ℝ) ≤ (heavyBox : Box ℝ).w ∧ (0 : ℝ) ≤ (heavyBox : Box ℝ).h ∧
    (sunkBall : Ball ℝ).lastHit ≠ 0 ∧
    ((heavyBox : Box ℝ).x ≤ (sunkBall : Ball ℝ).x ∧
      (sunkBall : Ball ℝ).x ≤ (heavyBox : Box ℝ).x + (heavyBox : Box ℝ).w) ∧
    ((heavyBox : Box ℝ).y ≤ (sunkBall : Ball ℝ).y ∧
      (sunkBall : Ball ℝ).y ≤ (heavyBox : Box ℝ).y + (heavyBox : Box ℝ).h) ∧
    collideBallBox Real.sqrt (sunkBall : Ball ℝ) heavyBox 0 = .ok (sunkBall, heavyBox) := by
  have h1 : (0 : ℝ) ≤ (heavyBox : Box ℝ).w := by norm_num [heavyBox]
  have h2 : (0 : ℝ) ≤ (heavyBox : Box ℝ).h := by norm_num [heavyBox]
  have h3 : (sunkBall : Ball ℝ).lastHit ≠ 0 := by decide
  have h4 : (heavyBox : Box ℝ).x ≤ (sunkBall : Ball ℝ).x ∧
      (sunkBall : Ball ℝ).x ≤ (heavyBox : Box ℝ).x + (heavyBox : Box ℝ).w := by
    norm_num [heavyBox, sunkBall]
  have h5 : (heavyBox : Box ℝ).y ≤ (sunkBall : Ball ℝ).y ∧
      (sunkBall : Ball ℝ).y ≤ (heavyBox : Box ℝ).y + (heavyBox : Box ℝ).h := by
    norm_num [heavyBox, sunkBall]
  exact ⟨h1, h2, h3, h4, h5,
    ((collideBallBox_centre_inside Real.sqrt sunkBall heavyBox 0 h1 h2 h3).2.1 h4 h5).2⟩

/-! ## Closest point of the rectangle -/

/-- The clamp of a coordinate to an interval lies in the interval, is at least as close to
the coordinate as any point of the interval, and is the coordinate exactly when the
coordinate lies in the interval. -/
theorem clamp_closest {α : Type} [LinearOrderedField α] (lo w c : α) (hw : 0 ≤ w) :
    (lo ≤ max lo (min c (lo + w)) ∧ max lo (min c (lo + w)) ≤ lo + w) ∧
    (∀ p, lo ≤ p → p ≤ lo + w →
      (max lo (min c (lo + w)) - c) * (max lo (min c (lo + w)) - c) ≤ (p - c) * (p - c)) ∧
    (max lo (min c (lo + w)) = c ↔ lo ≤ c ∧ c ≤ lo + w) := by
  rcases lt_or_le c lo with h1 | h1
  · have e : max lo (min c (lo + w)) = lo := by
      rw [min_eq_left (by linarith), max_eq_left h1.le]
    rw [e]
    refine ⟨⟨le_refl lo, by linarith⟩, fun p hp _ => ?_, ?_⟩
    · nlinarith [mul_nonneg (sub_nonneg.mpr hp) (sub_nonneg.mpr h1.le),
        mul_self_nonneg (p - lo)]
    · constructor
      · intro h
        exact absurd h (ne_of_gt h1)
      · intro h
        exact absurd h.1 (not_le.mpr h1)
  · rcases le_or_lt c (lo + w) with h2 | h2
    · rw [clamp_inside lo w c h1 h2]
      refine ⟨⟨h1, h2⟩, fun p _ _ => ?_, ?_⟩
      · rw [sub_self, mul_zero]
        exact mul_self_nonneg _
      · exact ⟨fun _ => ⟨h1, h2⟩, fun _ => rfl⟩
    · have e : max lo (min c (lo + w)) = lo + w := by
        rw [min_eq_right h2.le, max_eq_right (by linarith)]
      rw [e]
      refine ⟨⟨by linarith, le_refl _⟩, fun p _ hp => ?_, ?_⟩
      · nlinarith [mul_nonneg (sub_nonneg.mpr hp) (sub_nonneg.mpr h2.le),
          mul_self_nonneg (lo + w - p)]
      · constructor
        · intro h
          exact absurd h (ne_of_lt h2)
        · intro h
          exact absurd h.2 (not_le.mpr h2)

/-- Claim C16. Closest point on the rectangle, for every ordered field: for a box with
`w ≥ 0`, `h ≥ 0` and a ball centre `(bx, by)`, the point
`(max(box.x, min(bx, box.x+w)), max(box.y, min(by, box.y+h)))` computed by
`collideBallBox` lies in the rectangle `[box.x, box.x+w] x [box.y, box.y+h]`, no point of
the rectangle has a smaller squared distance to the centre than `dist2`, and the point is
the centre exactly when the centre lies in the rectangle. -/
theorem closest_point {α : Type} [LinearOrderedField α] (b : Ball α) (box : Box α)
    (hw : 0 ≤ box.w) (hh : 0 ≤ box.h) :
    (closestX b box = max box.x (min b.x (box.x + box.w)) ∧
      closestY b box = max box.y (min b.y (box.y + box.h))) ∧
    (box.x ≤ closestX b box ∧ closestX b box ≤ box.x + box.w ∧
      box.y ≤ closestY b box ∧ closestY b box ≤ box.y + box.h) ∧
    (∀ px py, box.x ≤ px → px ≤ box.x + box.w → box.y ≤ py → py ≤ box.y + box.h →
      dist2 b box ≤ (px - b.x) * (px - b.x) + (py - b.y) * (py - b.y)) ∧
    (closestX b box = b.x ∧ closestY b box = b.y ↔
      box.x ≤ b.x ∧ b.x ≤ box.x + box.w ∧ box.y ≤ b.y ∧ b.y ≤ box.y + box.h) := by
  obtain ⟨⟨x1, x2⟩, x3, x4⟩ := clamp_closest box.x box.w b.x hw
  obtain ⟨⟨y1, y2⟩, y3, y4⟩ := clamp_closest box.y box.h b.y hh
  refine ⟨⟨rfl, rfl⟩, ⟨x1, x2, y1, y2⟩, fun px py h1 h2 h3 h4 => ?_, ?_⟩
  · exact add_le_add (x3 px h1 h2) (y3 py h3 h4)
  · constructor
    · rintro ⟨e1, e2⟩
      exact ⟨(x4.mp e1).1, (x4.mp e1).2, (y4.mp e2).1, (y4.mp e2).2⟩
    · rintro ⟨e1, e2, e3, e4⟩
      exact ⟨x4.mpr ⟨e1, e2⟩, y4.mpr ⟨e3, e4⟩⟩

/-- Witness of C16: for the ball at `(7, -4)` the closest point of the heavy box is its
corner `(10, 0)`, at squared distance 25. -/
theorem closest_point_witness :
    (0 : ℝ) ≤ (heavyBox : Box ℝ).w ∧ (0 : ℝ) ≤ (heavyBox : Box ℝ).h ∧
    closestX (cornerBall : Ball ℝ) heavyBox = 10 ∧
    closestY (cornerBall : Ball ℝ) heavyBox = 0 ∧
    dist2 (cornerBall : Ball ℝ) heavyBox = 25 ∧
    (heavyBox : Box ℝ).x ≤ closestX (cornerBall : Ball ℝ) heavyBox := by
  have h1 : (0 : ℝ) ≤ (heavyBox : Box ℝ).w := by norm_num [heavyBox]
  have h2 : (0 : ℝ) ≤ (heavyBox : Box ℝ).h := by norm_num [heavyBox]
  have hx : closestX (cornerBall : Ball ℝ) heavyBox = 10 := by
    norm_num [closestX, cornerBall, heavyBox]
  have hy : closestY (cornerBall : Ball ℝ) heavyBox = 0 := by
    norm_num [closestY, cornerBall, heavyBox]
  refine ⟨h1, h2, hx, hy, ?_, (closest_point cornerBall heavyBox h1 h2).2.1.1⟩
  rw [dist2, hx, hy]
  norm_num [cornerBall]

/-! ## Friction -/

/-- The value returned by `frictBoxes`. -/
theorem frictBoxes_eq {α : Type} [LinearOrderedField α]
    (sliders : Fin numberOfSliders → Slider α) (g : Game α) (b : Box α) :
    frictBoxes sliders g b
      = ⟨b.x, b.y, (1 - frictionValue sliders) * b.vx, (1 - frictionValue sliders) * b.vy,
          b.w, b.h, b.mass, b.clr⟩ := by
  simp only [frictBoxes, frictionValue, mul_comm]

/-- Claim C12. Friction, for every ordered field: for every box and every friction value
`f` (the value of the friction slider) `frictBoxes` replaces the velocity `(vx, vy)` by
`((1 - f) vx, (1 - f) vy)` and leaves position, size, mass and colour unchanged; the
friction loop of `Update`, which is the last step of the tick, does this to every box and
changes no ball.  For `f` in `[0, 1]` no velocity component grows in absolute value, `f = 0`
leaves the box unchanged and `f = 1` sets the velocity to zero. -/
theorem friction_scales {α : Type} [LinearOrderedField α]
    (sliders : Fin numberOfSliders → Slider α) (g : Game α) (b : Box α) (f : α)
    (hf : frictionValue sliders = f) :
    frictBoxes sliders g b
      = ⟨b.x, b.y, (1 - f) * b.vx, (1 - f) * b.vy, b.w, b.h, b.mass, b.clr⟩ ∧
    (frictionPhase sliders g).balls = g.balls ∧
    (frictionPhase sliders g).boxes
      = g.boxes.map
          (fun c => ⟨c.x, c.y, (1 - f) * c.vx, (1 - f) * c.vy, c.w, c.h, c.mass, c.clr⟩) ∧
    (frictionPhase sliders g).ballsVisible = g.ballsVisible ∧
    afterBallBox sliders g = frictionPhase sliders { g with boxes := boxBoxPass g.boxes } ∧
    (0 ≤ f → f ≤ 1 →
      |(frictBoxes sliders g b).vx| ≤ |b.vx| ∧ |(frictBoxes sliders g b).vy| ≤ |b.vy|) ∧
    (f = 0 → frictBoxes sliders g b = b) ∧
    (f = 1 → (frictBoxes sliders g b).vx = 0 ∧ (frictBoxes sliders g b).vy = 0) := by
  subst hf
  refine ⟨frictBoxes_eq sliders g b, rfl, ?_, rfl, rfl, fun h0 h1 => ?_, fun h0 => ?_,
    fun h1 => ?_⟩
  · simp only [frictionPhase, frictBoxes_eq]
  · rw [frictBoxes_eq]
    simp only [abs_mul]
    have ha : |1 - frictionValue sliders| ≤ 1 := by
      rw [abs_le]
      constructor <;> linarith
    exact ⟨mul_le_of_le_one_left (abs_nonneg _) ha, mul_le_of_le_one_left (abs_nonneg _) ha⟩
  · rw [frictBoxes_eq, h0]
    simp
  · rw [frictBoxes_eq, h1]
    simp

/-- The friction value of `slidersWithFriction f` is `f`. -/
theorem frictionValue_with {α : Type} [LinearOrderedField α] (f : α) :
    frictionValue (slidersWithFriction f) = f := by
  simp [frictionValue, slidersWithFriction, setSlider, Slider.Value]

/-- Witness of C12: friction `1/2` halves the velocity `(3, -1)` of `strayBox`. -/
theorem friction_scales_witness :
    frictionValue (slidersWithFriction (1 / 2 : ℝ)) = 1 / 2 ∧
    frictBoxes (slidersWithFriction (1 / 2 : ℝ)) oneBoxWorld strayBox
      = ⟨1700, -10, 3 / 2, -1 / 2, 250, 500, 600, red⟩ := by
  have h := frictionValue_with (1 / 2 : ℝ)
  refine ⟨h, ?_⟩
  rw [(friction_scales (slidersWithFriction (1 / 2 : ℝ)) oneBoxWorld strayBox (1 / 2) h).1]
  norm_num [strayBox]

/-! ## The world built by `Restart` -/

/-- When both counts are accepted by `make`, `Restart` returns the world made of `newBall`
and `newBox`. -/
theorem Restart_ok {α : Type} [LinearOrderedField α] (rt : Runtime) (trunc : α → Int)
    (rand : Nat → Draws α) (sliders : Fin numberOfSliders → Slider α) (g : Game α)
    (hb : 0 ≤ configBalls trunc sliders)
    (hmb : rt.makeBalls (configBalls trunc sliders).toNat = true)
    (hn : 0 ≤ configBricks trunc sliders)
    (hmx : rt.makeBoxes (configBricks trunc sliders).toNat = true) :
    Restart rt trunc rand sliders g
      = .ok { balls := (List.range (configBalls trunc sliders).toNat).map
                fun i => newBall (sliders ⟨temperatureSlider, by decide⟩).Value (rand i)
              boxes := (List.range (configBricks trunc sliders).toNat).map
                fun i => newBox (configBricks trunc sliders) (configWidth sliders)
                  (configHeight sliders) (configGap sliders) (configMass sliders) i
              ballsVisible := true } := by
  simp only [configBalls, configBricks] at hb hn hmb hmx
  unfold Restart
  simp only [if_neg (not_lt.mpr hb), if_neg (not_lt.mpr hn), hmb, hmx, Bool.true_eq_false,
    if_false, configBalls, configBricks, configWidth, configHeight, configGap, configMass]

/-- When `Restart` returns a world, both counts were accepted by `make` and the world is the
one made of `newBall` and `newBox`. -/
theorem Restart_of_ok {α : Type} [LinearOrderedField α] (rt : Runtime) (trunc : α → Int)
    (rand : Nat → Draws α) (sliders : Fin numberOfSliders → Slider α) (g g1 : Game α)
    (h : Restart rt trunc rand sliders g = .ok g1) :
    (0 ≤ configBalls trunc sliders ∧
      rt.makeBalls (configBalls trunc sliders).toNat = true ∧
      0 ≤ configBricks trunc sliders ∧
      rt.makeBoxes (configBricks trunc sliders).toNat = true) ∧
    g1 = { balls := (List.range (configBalls trunc sliders).toNat).map
             fun i => newBall (sliders ⟨temperatureSlider, by decide⟩).Value (rand i)
           boxes := (List.range (configBricks trunc sliders).toNat).map
             fun i => newBox (configBricks trunc sliders) (configWidth sliders)
               (configHeight sliders) (configGap sliders) (configMass sliders) i
           ballsVisible := true } := by
  have hc : 0 ≤ configBalls trunc sliders ∧
      rt.makeBalls (configBalls trunc sliders).toNat = true ∧
      0 ≤ configBricks trunc sliders ∧
      rt.makeBoxes (configBricks trunc sliders).toNat = true := by
    by_contra hcon
    unfold Restart at h
    simp only [configBalls, configBricks] at hcon
    by_cases h1 : (sliders ⟨ballsSlider, by decide⟩).IntValue trunc < 0
    · simp only [if_pos h1] at h
      cases h
    · by_cases h2 : rt.makeBalls ((sliders ⟨ballsSlider, by decide⟩).IntValue trunc).toNat
          = false
      · simp only [if_neg h1, if_pos h2] at h
        cases h
      · by_cases h3 : (sliders ⟨bricksSlider, by decide⟩).IntValue trunc < 0
        · simp only [if_neg h1, if_neg h2, if_pos h3] at h
          cases h
        · by_cases h4 :
              rt.makeBoxes ((sliders ⟨bricksSlider, by decide⟩).IntValue trunc).toNat = false
          · simp only [if_neg h1, if_neg h2, if_neg h3, if_pos h4] at h
            cases h
          · apply hcon
            exact ⟨not_lt.mp h1, by simpa using h2, not_lt.mp h3, by simpa using h4⟩
  refine ⟨hc, ?_⟩
  rw [Restart_ok rt trunc rand sliders g hc.1 hc.2.1 hc.2.2.1 hc.2.2.2] at h
  cases h
  rfl

/-- The fields of the box that `Restart` puts at index `i`. -/
theorem newBox_fields {α : Type} [LinearOrderedField α] (n i : Nat) (w h gp m : α) :
    (newBox (n : Int) w h gp m i).x
      = (1900 - (n : α) * w - ((n : α) - 1) * gp) / 2 + (i : α) * (w + gp) ∧
    (newBox (n : Int) w h gp m i).y = (1340 - h) / 2 ∧
    (newBox (n : Int) w h gp m i).vx = 0 ∧ (newBox (n : Int) w h gp m i).vy = 0 ∧
    (newBox (n : Int) w h gp m i).w = w ∧ (newBox (n : Int) w h gp m i).h = h ∧
    (newBox (n : Int) w h gp m i).mass = m := by
  refine ⟨?_, ?_, rfl, rfl, rfl, rfl, rfl⟩
  · simp only [newBox, screenWidth]
    push_cast
    ring
  · simp only [newBox, screenHeight]
    push_cast
    ring

/-- Reading an element of a list built by mapping over a range. -/
theorem getElem?_map_range {β : Type} (f : Nat → β) (n i : Nat) (h : i < n) :
    ((List.range n).map f)[i]? = some (f i) := by
  rw [List.getElem?_map, List.getElem?_range h]
  rfl

/-- Claim C14. Block layout built by `Restart`, for every ordered field, run-time system,
truncation and random draws: for a configuration with `n ≥ 1` blocks of width `w`, height
`h` and gap `g`, `Restart` returns a world whenever its two `make` calls succeed (the
number of balls is not negative and both lengths are accepted), and every world it
returns has `n` blocks, block `i` at `x_i = (1900 - n w - (n-1) g)/2 + i (w+g)` and
`y_i = (1340 - h)/2` with velocity `(0, 0)`, width `w` and height `h`; consecutive blocks
are separated by exactly `g`, the row is horizontally centred
(`x_0 = 1900 - (x_{n-1} + w)`) and every block is vertically centred
(`y_i + h/2 = 670`). -/
theorem Restart_layout {α : Type} [LinearOrderedField α] (rt : Runtime) (trunc : α → Int)
    (rand : Nat → Draws α) (sliders : Fin numberOfSliders → Slider α) (g : Game α)
    (n : Nat) (hn1 : 1 ≤ n) (hn : configBricks trunc sliders = (n : Int)) :
    (0 ≤ configBalls trunc sliders →
      rt.makeBalls (configBalls trunc sliders).toNat = true → rt.makeBoxes n = true →
      ∃ g1, Restart rt trunc rand sliders g = .ok g1) ∧
    (∀ g1, Restart rt trunc rand sliders g = .ok g1 →
      g1.boxes.length = n ∧
      (∀ i, i < n → ∃ box, g1.boxes[i]? = some box ∧
        box.x = (1900 - (n : α) * configWidth sliders - ((n : α) - 1) * configGap sliders) / 2
          + (i : α) * (configWidth sliders + configGap sliders) ∧
        box.y = (1340 - configHeight sliders) / 2 ∧ box.vx = 0 ∧ box.vy = 0 ∧
        box.w = configWidth sliders ∧ box.h = configHeight sliders ∧
        box.y + box.h / 2 = 670) ∧
      (∀ i, i + 1 < n → ∃ b1 b2, g1.boxes[i]? = some b1 ∧ g1.boxes[i + 1]? = some b2 ∧
        b2.x - (b1.x + b1.w) = configGap sliders) ∧
      (∃ b0 bl, g1.boxes[0]? = some b0 ∧ g1.boxes[n - 1]? = some bl ∧
        b0.x = 1900 - (bl.x + bl.w))) := by
  have hn0 : 0 ≤ configBricks trunc sliders := by
    rw [hn]
    exact Int.natCast_nonneg n
  constructor
  · intro hb hmb hmx
    exact ⟨_, Restart_ok rt trunc rand sliders g hb hmb hn0
      (by rw [hn, Int.toNat_ofNat]; exact hmx)⟩
  intro g1 hg1
  obtain ⟨-, e⟩ := Restart_of_ok rt trunc rand sliders g g1 hg1
  have hboxes : g1.boxes = (List.range n).map
      fun i => newBox (n : Int) (configWidth sliders) (configHeight sliders)
        (configGap sliders) (configMass sliders) i := by
    rw [e, hn, Int.toNat_ofNat]
  have hf := fun i => newBox_fields n i (configWidth sliders) (configHeight sliders)
    (configGap sliders) (configMass sliders)
  rw [hboxes]
  refine ⟨by simp, fun i hi => ?_, fun i hi => ?_, ?_⟩
  · obtain ⟨e1, e2, e3, e4, e5, e6, -⟩ := hf i
    refine ⟨newBox (n : Int) (configWidth sliders) (configHeight sliders)
      (configGap sliders) (configMass sliders) i, getElem?_map_range _ n i hi,
      e1, e2, e3, e4, e5, e6, ?_⟩
    rw [e2, e6]
    ring
  · obtain ⟨e1, -, -, -, e5, -, -⟩ := hf i
    obtain ⟨f1, -⟩ := hf (i + 1)
    refine ⟨newBox (n : Int) (configWidth sliders) (configHeight sliders)
      (configGap sliders) (configMass sliders) i,
      newBox (n : Int) (configWidth sliders) (configHeight sliders)
      (configGap sliders) (configMass sliders) (i + 1),
      getElem?_map_range _ n i (by omega), getElem?_map_range _ n (i + 1) hi, ?_⟩
    rw [e1, e5, f1]
    push_cast
    ring
  · obtain ⟨e1, -⟩ := hf 0
    obtain ⟨f1, -, -, -, f5, -, -⟩ := hf (n - 1)
    refine ⟨newBox (n : Int) (configWidth sliders) (configHeight sliders)
      (configGap sliders) (configMass sliders) 0,
      newBox (n : Int) (configWidth sliders) (configHeight sliders)
      (configGap sliders) (configMass sliders) (n - 1),
      getElem?_map_range _ n 0 (by omega), getElem?_map_range _ n (n - 1) (by omega), ?_⟩
    rw [e1, f1, f5]
    have hc : ((n - 1 : Nat) : α) = (n : α) - 1 := by
      rw [Nat.cast_sub hn1, Nat.cast_one]
    rw [hc]
    push_cast
    ring

/-- The counts of `slidersWithMass m`: 0 balls and 3 bricks, whatever the truncation. -/
theorem slidersWithMass_counts {α : Type} [LinearOrderedField α] (trunc : α → Int) (m : α) :
    configBalls trunc (slidersWithMass m) = 0 ∧
    configBricks trunc (slidersWithMass m) = ((3 : Nat) : Int) ∧
    configMass (slidersWithMass m) = m ∧ configWidth (slidersWithMass m) = 250 ∧
    configHeight (slidersWithMass m) = 500 ∧ configGap (slidersWithMass m) = 40 := by
  refine ⟨?_, ?_, ?_, ?_, ?_, ?_⟩ <;>
    simp [configBalls, configBricks, configMass, configWidth, configHeight, configGap,
      slidersWithMass, initSliders, setSlider, Slider.IntValue, Slider.Value, ballsSlider,
      bricksSlider, massSlider, widthSlider, heightSlider, gapSlider]

/-- Witness of C14: three bricks of the default size `250 x 500` with gap 40. -/
theorem Restart_layout_witness :
    1 ≤ 3 ∧
    configBricks (fun x : ℝ => ⌊x⌋) (slidersWithMass (600 : ℝ)) = ((3 : Nat) : Int) ∧
    0 ≤ configBalls (fun x : ℝ => ⌊x⌋) (slidersWithMass (600 : ℝ)) ∧
    sliderRuntime.makeBalls
      (configBalls (fun x : ℝ => ⌊x⌋) (slidersWithMass (600 : ℝ))).toNat = true ∧
    sliderRuntime.makeBoxes 3 = true ∧
    ∃ g1, Restart sliderRuntime (fun x : ℝ => ⌊x⌋) someDraws (slidersWithMass (600 : ℝ))
        oneBoxWorld = .ok g1 ∧ g1.boxes.length = 3 := by
  obtain ⟨c1, c2, -⟩ := slidersWithMass_counts (fun x : ℝ => ⌊x⌋) (600 : ℝ)
  have h3 : 0 ≤ configBalls (fun x : ℝ => ⌊x⌋) (slidersWithMass (600 : ℝ)) := by
    rw [c1]
  have h4 : sliderRuntime.makeBalls
      (configBalls (fun x : ℝ => ⌊x⌋) (slidersWithMass (600 : ℝ))).toNat = true := by
    rw [c1]
    decide
  have h5 : sliderRuntime.makeBoxes 3 = true := by decide
  have h := Restart_layout sliderRuntime (fun x : ℝ => ⌊x⌋) someDraws
    (slidersWithMass (600 : ℝ)) oneBoxWorld 3 (by decide) c2
  obtain ⟨g1, e⟩ := h.1 h3 h4 h5
  exact ⟨by decide, c2, h3, h4, h5, g1, e, (h.2 g1 e).1⟩

/-- Counterexample to C15 as stated: with the mass slider at 0 (balls 0, bricks 3)
`Restart` does not reject the configuration: it returns a world with three blocks of
mass 0. -/
theorem Restart_accepts_zero_mass :
    configMass (slidersWithMass (0 : ℝ)) ≤ 0 ∧
    Restart sliderRuntime (fun x : ℝ => ⌊x⌋) someDraws (slidersWithMass (0 : ℝ)) oneBoxWorld
      = .ok { balls := []
              boxes := [⟨535, 420, 0, 0, 250, 500, 0, red⟩,
                        ⟨825, 420, 0, 0, 250, 500, 0, red⟩,
                        ⟨1115, 420, 0, 0, 250, 500, 0, red⟩]
              ballsVisible := true } := by
  obtain ⟨c1, c2, c3, c4, c5, c6⟩ := slidersWithMass_counts (fun x : ℝ => ⌊x⌋) (0 : ℝ)
  refine ⟨by rw [c3], ?_⟩
  rw [Restart_ok _ _ _ _ _ (by rw [c1]) (by rw [c1]; decide) (by rw [c2]; decide)
    (by rw [c2]; decide), c1, c2, c3, c4, c5, c6]
  simp only [Int.toNat_zero, Int.toNat_ofNat, List.range_succ, List.range_zero, List.map,
    List.nil_append, List.cons_append, newBox, screenWidth, screenHeight, red]
  norm_num

/-- Claim C15, amended. Configuration at reset, for every ordered field, run-time system,
truncation and random draws: `Restart` does not check the block mass, width or height.
Whenever its two `make` calls succeed it builds the world, whatever these three values
are, and every world it builds has every block with exactly the configured mass, width
and height; so every block has positive mass and dimensions when the configured values
are positive, as they are within the ranges of the sliders (mass at least `0.1`, width
and height at least 20). -/
theorem Restart_no_validation {α : Type} [LinearOrderedField α] (rt : Runtime)
    (trunc : α → Int) (rand : Nat → Draws α) (sliders : Fin numberOfSliders → Slider α)
    (g : Game α) :
    (0 ≤ configBalls trunc sliders →
      rt.makeBalls (configBalls trunc sliders).toNat = true →
      0 ≤ configBricks trunc sliders →
      rt.makeBoxes (configBricks trunc sliders).toNat = true →
      ∃ g1, Restart rt trunc rand sliders g = .ok g1) ∧
    (∀ g1, Restart rt trunc rand sliders g = .ok g1 →
      g1.boxes.length = (configBricks trunc sliders).toNat ∧
      (∀ box ∈ g1.boxes, box.mass = configMass sliders ∧ box.w = configWidth sliders ∧
        box.h = configHeight sliders) ∧
      (0 < configMass sliders → 0 < configWidth sliders → 0 < configHeight sliders →
        ∀ box ∈ g1.boxes, 0 < box.mass ∧ 0 < box.w ∧ 0 < box.h) ∧
      (1 / 10 ≤ configMass sliders → 20 ≤ configWidth sliders →
        20 ≤ configHeight sliders →
        ∀ box ∈ g1.boxes, 0 < box.mass ∧ 0 < box.w ∧ 0 < box.h)) := by
  constructor
  · intro hb hmb hn hmx
    exact ⟨_, Restart_ok rt trunc rand sliders g hb hmb hn hmx⟩
  intro g1 hg1
  obtain ⟨-, e⟩ := Restart_of_ok rt trunc rand sliders g g1 hg1
  have hall : ∀ box ∈ g1.boxes, box.mass = configMass sliders ∧
      box.w = configWidth sliders ∧ box.h = configHeight sliders := by
    intro box hbox
    rw [e] at hbox
    simp only [List.mem_map] at hbox
    obtain ⟨i, -, rfl⟩ := hbox
    exact ⟨rfl, rfl, rfl⟩
  refine ⟨by rw [e]; simp, hall, fun h1 h2 h3 box hbox => ?_, fun h1 h2 h3 box hbox => ?_⟩
  · obtain ⟨e2, e3, e4⟩ := hall box hbox
    rw [e2, e3, e4]
    exact ⟨h1, h2, h3⟩
  · obtain ⟨e2, e3, e4⟩ := hall box hbox
    rw [e2, e3, e4]
    exact ⟨by linarith, by linarith, by linarith⟩

/-- Witness of C15 (amended): the default mass 600 with 0 balls and 3 bricks. -/
theorem Restart_no_validation_witness :
    0 ≤ configBalls (fun x : ℝ => ⌊x⌋) (slidersWithMass (600 : ℝ)) ∧
    sliderRuntime.makeBalls
      (configBalls (fun x : ℝ => ⌊x⌋) (slidersWithMass (600 : ℝ))).toNat = true ∧
    0 ≤ configBricks (fun x : ℝ => ⌊x⌋) (slidersWithMass (600 : ℝ)) ∧
    sliderRuntime.makeBoxes
      (configBricks (fun x : ℝ => ⌊x⌋) (slidersWithMass (600 : ℝ))).toNat = true ∧
    ∃ g1, Restart sliderRuntime (fun x : ℝ => ⌊x⌋) someDraws (slidersWithMass (600 : ℝ))
        oneBoxWorld = .ok g1 ∧
      ∀ box ∈ g1.boxes, box.mass = configMass (slidersWithMass (600 : ℝ)) ∧
        box.w = configWidth (slidersWithMass (600 : ℝ)) ∧
        box.h = configHeight (slidersWithMass (600 : ℝ)) := by
  obtain ⟨c1, c2, -⟩ := slidersWithMass_counts (fun x : ℝ => ⌊x⌋) (600 : ℝ)
  have h1 : 0 ≤ configBalls (fun x : ℝ => ⌊x⌋) (slidersWithMass (600 : ℝ)) := by
    rw [c1]
  have h2 : sliderRuntime.makeBalls
      (configBalls (fun x : ℝ => ⌊x⌋) (slidersWithMass (600 : ℝ))).toNat = true := by
    rw [c1]
    decide
  have h3 : 0 ≤ configBricks (fun x : ℝ => ⌊x⌋) (slidersWithMass (600 : ℝ)) := by
    rw [c2]
    decide
  have h4 : sliderRuntime.makeBoxes
      (configBricks (fun x : ℝ => ⌊x⌋) (slidersWithMass (600 : ℝ))).toNat = true := by
    rw [c2]
    decide
  have h := Restart_no_validation sliderRuntime (fun x : ℝ => ⌊x⌋) someDraws
    (slidersWithMass (600 : ℝ)) oneBoxWorld
  obtain ⟨g1, e⟩ := h.1 h1 h2 h3 h4
  exact ⟨h1, h2, h3, h4, g1, e, (h.2 g1 e).2.1⟩

/-! ## Blocks of equal size -/

/-- Claim C19. Separation of equal-sized blocks, for every ordered field: two blocks of
the same positive width and the same positive height that pass the guard of
`collideBoxes` touch exactly along the resolved axis after the call: when x is resolved,
the block that is then further left has its right edge on the left edge of the other, and
when y is resolved the block that then has the smaller `y` has its bottom edge on the top
edge of the other.  Every world built by `Restart` has blocks of one width and one
height. -/
theorem collideBoxes_equal_size {α : Type} [LinearOrderedField α] (b1 b2 : Box α)
    (hw : b1.w = b2.w) (hh : b1.h = b2.h) (hwp : 0 < b1.w) (hhp : 0 < b1.h)
    (ho : boxesOverlap b1 b2) :
    (overlapX b1 b2 < overlapY b1 b2 →
      (b1.x < b2.x →
        (collideBoxes b1 b2).1.x < (collideBoxes b1 b2).2.x ∧
        (collideBoxes b1 b2).1.x + (collideBoxes b1 b2).1.w = (collideBoxes b1 b2).2.x) ∧
      (¬ b1.x < b2.x →
        (collideBoxes b1 b2).2.x < (collideBoxes b1 b2).1.x ∧
        (collideBoxes b1 b2).2.x + (collideBoxes b1 b2).2.w = (collideBoxes b1 b2).1.x)) ∧
    (¬ overlapX b1 b2 < overlapY b1 b2 →
      (b1.y < b2.y →
        (collideBoxes b1 b2).1.y < (collideBoxes b1 b2).2.y ∧
        (collideBoxes b1 b2).1.y + (collideBoxes b1 b2).1.h = (collideBoxes b1 b2).2.y) ∧
      (¬ b1.y < b2.y →
        (collideBoxes b1 b2).2.y < (collideBoxes b1 b2).1.y ∧
        (collideBoxes b1 b2).2.y + (collideBoxes b1 b2).2.h = (collideBoxes b1 b2).1.y)) ∧
    (∀ (rt : Runtime) (trunc : α → Int) (rand : Nat → Draws α)
      (sliders : Fin numberOfSliders → Slider α) (g g1 : Game α),
      Restart rt trunc rand sliders g = .ok g1 →
      ∀ c1 ∈ g1.boxes, ∀ c2 ∈ g1.boxes, c1.w = c2.w ∧ c1.h = c2.h) := by
  obtain ⟨-, c1, c2, c3, c4⟩ := collideBoxes_cases b1 b2
  have h' := ho
  simp only [boxesOverlap, not_or, not_lt] at h'
  obtain ⟨g1, g2, g3, g4⟩ := h'
  refine ⟨fun hxy => ⟨fun hx => ?_, fun hx => ?_⟩,
    fun hxy => ⟨fun hy => ?_, fun hy => ?_⟩, ?_⟩
  · rw [c1 ho hxy hx]
    have e : overlapX b1 b2 = b1.x + b1.w - b2.x := min_eq_left (by linarith)
    simp only [e]
    constructor <;> linarith
  · rw [c2 ho hxy hx]
    have hx' := not_lt.mp hx
    have e : overlapX b1 b2 = b2.x + b2.w - b1.x := min_eq_right (by linarith)
    simp only [e]
    constructor <;> linarith
  · rw [c3 ho hxy hy]
    have e : overlapY b1 b2 = b1.y + b1.h - b2.y := min_eq_left (by linarith)
    simp only [e]
    constructor <;> linarith
  · rw [c4 ho hxy hy]
    have hy' := not_lt.mp hy
    have e : overlapY b1 b2 = b2.y + b2.h - b1.y := min_eq_right (by linarith)
    simp only [e]
    constructor <;> linarith
  · intro rt trunc rand sliders g g1 hres d1 hd1 d2 hd2
    obtain ⟨-, e⟩ := Restart_of_ok rt trunc rand sliders g g1 hres
    rw [e] at hd1 hd2
    simp only [List.mem_map] at hd1 hd2
    obtain ⟨i, -, rfl⟩ := hd1
    obtain ⟨k, -, rfl⟩ := hd2
    exact ⟨rfl, rfl⟩

/-- Witness of C19: the two boxes of the default size; after the call the first ends at
`x = 245`, where the second starts. -/
theorem collideBoxes_equal_size_witness :
    (rowBoxA : Box ℝ).w = (rowBoxB : Box ℝ).w ∧
    (rowBoxA : Box ℝ).h = (rowBoxB : Box ℝ).h ∧
    (0 : ℝ) < (rowBoxA : Box ℝ).w ∧ (0 : ℝ) < (rowBoxA : Box ℝ).h ∧
    boxesOverlap (rowBoxA : Box ℝ) rowBoxB ∧
    overlapX (rowBoxA : Box ℝ) rowBoxB < overlapY (rowBoxA : Box ℝ) rowBoxB ∧
    (rowBoxA : Box ℝ).x < (rowBoxB : Box ℝ).x ∧
    (collideBoxes (rowBoxA : Box ℝ) rowBoxB).1.x
        + (collideBoxes (rowBoxA : Box ℝ) rowBoxB).1.w
      = (collideBoxes (rowBoxA : Box ℝ) rowBoxB).2.x := by
  have h1 : (rowBoxA : Box ℝ).w = (rowBoxB : Box ℝ).w := rfl
  have h2 : (rowBoxA : Box ℝ).h = (rowBoxB : Box ℝ).h := rfl
  have h3 : (0 : ℝ) < (rowBoxA : Box ℝ).w := by norm_num [rowBoxA]
  have h4 : (0 : ℝ) < (rowBoxA : Box ℝ).h := by norm_num [rowBoxA]
  have h5 : boxesOverlap (rowBoxA : Box ℝ) rowBoxB := by
    norm_num [boxesOverlap, rowBoxA, rowBoxB]
  have h6 : overlapX (rowBoxA : Box ℝ) rowBoxB < overlapY (rowBoxA : Box ℝ) rowBoxB := by
    norm_num [overlapX, overlapY, rowBoxA, rowBoxB]
  have h7 : (rowBoxA : Box ℝ).x < (rowBoxB : Box ℝ).x := by
    norm_num [rowBoxA, rowBoxB]
  exact ⟨h1, h2, h3, h4, h5, h6, h7,
    (((collideBoxes_equal_size rowBoxA rowBoxB h1 h2 h3 h4 h5).1 h6).1 h7).2⟩

/-! ## Division safety -/

/-- A checked division with a non-zero divisor divides. -/
theorem safeDiv_of_ne {α : Type} [LinearOrderedField α] (a b : α) (h : b ≠ 0) :
    safeDiv a b = some (a / b) := by
  rw [safeDiv, if_neg h]

/-- With a non-zero sum of masses, the checked `collideBalls` executes no division by zero
and returns what `collideBalls` returns. -/
theorem collideBallsChecked_eq {α : Type} [LinearOrderedField α] (sqrt : α → α)
    (b1 b2 : Ball α) (hm : b1.mass + b2.mass ≠ 0) :
    collideBallsChecked sqrt b1 b2 = some (collideBalls sqrt b1 b2) := by
  unfold collideBallsChecked collideBalls
  simp only []
  split_ifs with h
  · rfl
  · have hd : hypot sqrt (b2.x - b1.x) (b2.y - b1.y) ≠ 0 := fun h0 => h (Or.inr h0)
    simp only [safeDiv_of_ne _ _ hd, safeDiv_of_ne _ _ hm,
      safeDiv_of_ne _ (2 : α) two_ne_zero, Option.bind_eq_bind, Option.some_bind,
      Option.pure_def]

/-- With a non-zero sum of masses and a square root that is non-zero at the squared
distances that are not below `epsilon`, the checked `collideBallBox` executes no division
by zero and returns what `collideBallBox` returns. -/
theorem collideBallBoxChecked_eq {α : Type} [LinearOrderedField α] (sqrt : α → α)
    (b : Ball α) (box : Box α) (j : Int) (hm : b.mass + box.mass ≠ 0)
    (hs : ¬ dist2 b box < epsilon → sqrt (dist2 b box) ≠ 0) :
    collideBallBoxChecked sqrt b box j = some (collideBallBox sqrt b box j) := by
  simp only [dist2, closestX, closestY] at hs
  unfold collideBallBoxChecked collideBallBox
  simp only []
  split_ifs with h1 h2 h3 h4
  · rfl
  · rfl
  · rfl
  · rfl
  · simp only [safeDiv_of_ne _ _ (hs h2), safeDiv_of_ne _ _ hm, Option.bind_eq_bind,
      Option.some_bind, Option.pure_def]

/-- The square root of a squared distance that is not below `epsilon` is positive. -/
theorem sqrt_dist2_pos (b : Ball ℝ) (box : Box ℝ) (h : ¬ dist2 b box < epsilon) :
    0 < Real.sqrt (dist2 b box) := by
  have he : (0 : ℝ) < epsilon := by norm_num [epsilon]
  exact Real.sqrt_pos.mpr (lt_of_lt_of_le he (not_lt.mp h))

/-- Claim C17. Division safety of the resolvers over the reals: when the masses are
positive, no division executed by `collideBalls` or by `collideBallBox` has a zero
divisor, for any positions, velocities, radii and box index: the checked versions return
the results of the unchecked ones; `dist` is non-zero when `collideBalls` passes its guard,
`sqrt(dist2)` is positive when `collideBallBox` passes its `dist2 < epsilon` test, and
`m1 + m2 > 0`. -/
theorem division_safety (b1 b2 b : Ball ℝ) (box : Box ℝ) (j : Int)
    (h1 : 0 < b1.mass) (h2 : 0 < b2.mass) (h3 : 0 < b.mass) (h4 : 0 < box.mass) :
    collideBallsChecked Real.sqrt b1 b2 = some (collideBalls Real.sqrt b1 b2) ∧
    collideBallBoxChecked Real.sqrt b box j = some (collideBallBox Real.sqrt b box j) ∧
    (¬ (ballDist Real.sqrt b1 b2 ≥ b1.r + b2.r ∨ ballDist Real.sqrt b1 b2 = 0) →
      ballDist Real.sqrt b1 b2 ≠ 0) ∧
    (¬ dist2 b box < epsilon → 0 < Real.sqrt (dist2 b box)) ∧
    0 < b1.mass + b2.mass ∧ 0 < b.mass + box.mass :=
  ⟨collideBallsChecked_eq Real.sqrt b1 b2 (add_pos h1 h2).ne',
    collideBallBoxChecked_eq Real.sqrt b box j (add_pos h3 h4).ne'
      (fun h => (sqrt_dist2_pos b box h).ne'),
    fun h h0 => h (Or.inr h0), sqrt_dist2_pos b box, add_pos h1 h2, add_pos h3 h4⟩

/-- Witness of C17: the head-on pair, and the fast ball against the heavy box. -/
theorem division_safety_witness :
    (0 : ℝ) < (headOnLeft (0 : ℝ) 0).mass ∧ (0 : ℝ) < (headOnRight (0 : ℝ) 0).mass ∧
    (0 : ℝ) < (fastBall : Ball ℝ).mass ∧ (0 : ℝ) < (heavyBox : Box ℝ).mass ∧
    collideBallsChecked Real.sqrt (headOnLeft (0 : ℝ) 0) (headOnRight 0 0)
      = some (collideBalls Real.sqrt (headOnLeft (0 : ℝ) 0) (headOnRight 0 0)) ∧
    collideBallBoxChecked Real.sqrt (fastBall : Ball ℝ) heavyBox 0
      = some (collideBallBox Real.sqrt (fastBall : Ball ℝ) heavyBox 0) := by
  have h1 : (0 : ℝ) < (headOnLeft (0 : ℝ) 0).mass := by norm_num [headOnLeft]
  have h2 : (0 : ℝ) < (headOnRight (0 : ℝ) 0).mass := by norm_num [headOnRight]
  have h3 : (0 : ℝ) < (fastBall : Ball ℝ).mass := by norm_num [fastBall]
  have h4 : (0 : ℝ) < (heavyBox : Box ℝ).mass := by norm_num [heavyBox]
  have h := division_safety (headOnLeft 0 0) (headOnRight 0 0) fastBall heavyBox 0
    h1 h2 h3 h4
  exact ⟨h1, h2, h3, h4, h.1, h.2.1⟩

/-! ## Energy of a tick -/

/-- The sum of a function over a list after one element is replaced. -/
theorem sum_map_set {β : Type} (f : β → ℝ) (l : List β) (i : Nat) (a b : β)
    (h : l[i]? = some b) :
    ((l.set i a).map f).sum = (l.map f).sum - f b + f a := by
  induction l generalizing i with
  | nil => simp at h
  | cons x l ih =>
    cases i with
    | zero =>
      simp only [List.getElem?_cons_zero, Option.some.injEq] at h
      subst h
      simp only [List.set_cons_zero, List.map_cons, List.sum_cons]
      ring
    | succ i =>
      simp only [List.getElem?_cons_succ] at h
      simp only [List.set_cons_succ, List.map_cons, List.sum_cons, ih i h]
      ring

/-- The sum of a function over a list after two elements at different places are replaced
by two elements with the same sum of values. -/
theorem sum_map_set_pair {β : Type} (f : β → ℝ) (l : List β) (i j : Nat) (a1 a2 b1 b2 : β)
    (h1 : l[i]? = some b1) (h2 : l[j]? = some b2) (hij : i ≠ j)
    (hf : f a1 + f a2 = f b1 + f b2) :
    (((l.set i a1).set j a2).map f).sum = (l.map f).sum := by
  have h2' : (l.set i a1)[j]? = some b2 := by
    rw [List.getElem?_set_ne hij]
    exact h2
  rw [sum_map_set f _ j a2 b2 h2', sum_map_set f l i a1 b1 h1]
  linarith

/-- A property kept by every step at an element of the list is kept by a left fold. -/
theorem foldl_keeps_mem {σ β : Type} (P : σ → Prop) (f : σ → β → σ) (l : List β)
    (hf : ∀ s x, x ∈ l → P s → P (f s x)) (s : σ) (h : P s) : P (l.foldl f s) := by
  induction l generalizing s with
  | nil => exact h
  | cons x l ih =>
    exact ih (fun s y hy hs => hf s y (List.mem_cons_of_mem x hy) hs) (f s x)
      (hf s x (List.mem_cons_self x l) h)

/-- Wall containment keeps the mass and the kinetic energy of a ball. -/
theorem checkBall_frame {α : Type} [LinearOrderedField α] (b : Ball α) :
    (checkBallWallCollision b).mass = b.mass ∧
    (checkBallWallCollision b).kinetic = b.kinetic := by
  unfold checkBallWallCollision
  simp only []
  split_ifs <;> simp [Ball.kinetic]

/-- Wall containment keeps the mass and the kinetic energy of a box. -/
theorem checkBox_frame {α : Type} [LinearOrderedField α] (b : Box α) :
    (checkBoxWallCollision b).mass = b.mass ∧
    (checkBoxWallCollision b).kinetic = b.kinetic := by
  unfold checkBoxWallCollision
  simp only []
  split_ifs <;> simp [Box.kinetic]

/-- Moving the balls keeps every mass and every kinetic energy. -/
theorem moveBalls_frame {α : Type} [LinearOrderedField α] (balls : List (Ball α)) :
    (moveBalls balls).map Ball.mass = balls.map Ball.mass ∧
    (moveBalls balls).map Ball.kinetic = balls.map Ball.kinetic := by
  unfold moveBalls
  constructor
  · rw [List.map_map]
    apply List.map_congr_left
    intro b _
    exact (checkBall_frame _).1
  · rw [List.map_map]
    apply List.map_congr_left
    intro b _
    exact (checkBall_frame _).2

/-- Moving the boxes keeps every mass and every kinetic energy. -/
theorem moveBoxes_frame {α : Type} [LinearOrderedField α] (boxes : List (Box α)) :
    (moveBoxes boxes).map Box.mass = boxes.map Box.mass ∧
    (moveBoxes boxes).map Box.kinetic = boxes.map Box.kinetic := by
  unfold moveBoxes
  constructor
  · rw [List.map_map]
    apply List.map_congr_left
    intro b _
    exact (checkBox_frame _).1
  · rw [List.map_map]
    apply List.map_congr_left
    intro b _
    exact (checkBox_frame _).2

/-- The box-box resolver keeps the mass and the kinetic energy of each box. -/
theorem collideBoxes_frame {α : Type} [LinearOrderedField α] (b1 b2 : Box α) :
    ((collideBoxes b1 b2).1.mass = b1.mass ∧ (collideBoxes b1 b2).2.mass = b2.mass) ∧
    ((collideBoxes b1 b2).1.kinetic = b1.kinetic ∧
      (collideBoxes b1 b2).2.kinetic = b2.kinetic) := by
  unfold collideBoxes
  simp only []
  split_ifs <;> simp [Box.kinetic]

/-- Replacing two elements by elements with the same values keeps the list of values. -/
theorem map_set_pair {β γ : Type} (f : β → γ) (l : List β) (i j : Nat) (a1 a2 b1 b2 : β)
    (h1 : l[i]? = some b1) (h2 : l[j]? = some b2) (e1 : f a1 = f b1) (e2 : f a2 = f b2) :
    ((l.set i a1).set j a2).map f = l.map f := by
  simp only [List.map_set, e1, e2]
  have g1 : (l.map f)[i]? = some (f b1) := by
    rw [List.getElem?_map, h1]
    rfl
  rw [set_same _ _ _ g1]
  have g2 : (l.map f)[j]? = some (f b2) := by
    rw [List.getElem?_map, h2]
    rfl
  rw [set_same _ _ _ g2]

/-- One box-box call keeps every mass and every kinetic energy. -/
theorem collideBoxesAt_frame {α : Type} [LinearOrderedField α] (i j : Nat)
    (boxes : List (Box α)) :
    (collideBoxesAt i j boxes).map Box.mass = boxes.map Box.mass ∧
    (collideBoxesAt i j boxes).map Box.kinetic = boxes.map Box.kinetic := by
  unfold collideBoxesAt
  cases h1 : boxes[i]? with
  | none => exact ⟨rfl, rfl⟩
  | some b1 =>
    cases h2 : boxes[j]? with
    | none => exact ⟨rfl, rfl⟩
    | some b2 =>
      obtain ⟨⟨m1, m2⟩, k1, k2⟩ := collideBoxes_frame b1 b2
      exact ⟨map_set_pair _ _ _ _ _ _ _ _ h1 h2 m1 m2, map_set_pair _ _ _ _ _ _ _ _ h1 h2 k1 k2⟩

/-- The box-box loops keep every mass and every kinetic energy. -/
theorem boxBoxPass_frame {α : Type} [LinearOrderedField α] (boxes : List (Box α)) :
    (boxBoxPass boxes).map Box.mass = boxes.map Box.mass ∧
    (boxBoxPass boxes).map Box.kinetic = boxes.map Box.kinetic := by
  unfold boxBoxPass
  refine foldl_keeps (fun bs : List (Box α) => bs.map Box.mass = boxes.map Box.mass ∧
    bs.map Box.kinetic = boxes.map Box.kinetic) _ (fun bs i hbs => ?_) _ _ ⟨rfl, rfl⟩
  refine foldl_keeps (fun bs : List (Box α) => bs.map Box.mass = boxes.map Box.mass ∧
    bs.map Box.kinetic = boxes.map Box.kinetic) _ (fun bs1 j h1 => ?_) _ _ hbs
  exact ⟨(collideBoxesAt_frame i j bs1).1.trans h1.1,
    (collideBoxesAt_frame i j bs1).2.trans h1.2⟩

/-- The ball-ball resolver keeps both masses. -/
theorem collideBalls_mass {α : Type} [LinearOrderedField α] (sqrt : α → α) (b1 b2 : Ball α) :
    (collideBalls sqrt b1 b2).1.mass = b1.mass ∧ (collideBalls sqrt b1 b2).2.mass = b2.mass := by
  unfold collideBalls
  simp only []
  split_ifs <;> exact ⟨rfl, rfl⟩


/-- Replacing one element by an element with the same value keeps the list of values. -/
theorem map_set_one {β γ : Type} (f : β → γ) (l : List β) (i : Nat) (a b : β)
    (h : l[i]? = some b) (e : f a = f b) : (l.set i a).map f = l.map f := by
  simp only [List.map_set, e]
  have g1 : (l.map f)[i]? = some (f b) := by
    rw [List.getElem?_map, h]
    rfl
  rw [set_same _ _ _ g1]

/-- An element of a list has its value in the list of values. -/
theorem pos_of_mem_map {β : Type} (f : β → ℝ) (l : List β) (hpos : ∀ m ∈ l.map f, 0 < m)
    (b : β) (hb : b ∈ l) : 0 < f b :=
  hpos (f b) (List.mem_map_of_mem f hb)

/-- One ball-ball call on two different places keeps every mass and the summed kinetic
energy of the balls. -/
theorem collideBallsAt_energy (i j : Nat) (hij : i ≠ j) (l : List (Ball ℝ))
    (hpos : ∀ m ∈ l.map Ball.mass, 0 < m) :
    (collideBallsAt Real.sqrt i j l).map Ball.mass = l.map Ball.mass ∧
    ((collideBallsAt Real.sqrt i j l).map Ball.kinetic).sum = (l.map Ball.kinetic).sum := by
  unfold collideBallsAt
  cases h1 : l[i]? with
  | none => exact ⟨rfl, rfl⟩
  | some b1 =>
    cases h2 : l[j]? with
    | none => exact ⟨rfl, rfl⟩
    | some b2 =>
      have p1 := pos_of_mem_map Ball.mass l hpos b1 (List.getElem?_mem h1)
      have p2 := pos_of_mem_map Ball.mass l hpos b2 (List.getElem?_mem h2)
      obtain ⟨m1, m2⟩ := collideBalls_mass Real.sqrt b1 b2
      exact ⟨map_set_pair _ _ _ _ _ _ _ _ h1 h2 m1 m2,
        sum_map_set_pair _ _ _ _ _ _ _ _ h1 h2 hij (collideBalls_kinetic b1 b2 p1 p2)⟩

/-- The ball-ball loops keep every mass and the summed kinetic energy of the balls. -/
theorem ballBallPass_energy (l : List (Ball ℝ)) (hpos : ∀ m ∈ l.map Ball.mass, 0 < m) :
    (ballBallPass Real.sqrt l).map Ball.mass = l.map Ball.mass ∧
    ((ballBallPass Real.sqrt l).map Ball.kinetic).sum = (l.map Ball.kinetic).sum := by
  unfold ballBallPass
  refine foldl_keeps (fun bs : List (Ball ℝ) => bs.map Ball.mass = l.map Ball.mass ∧
    (bs.map Ball.kinetic).sum = (l.map Ball.kinetic).sum) _ (fun bs i hbs => ?_) _ _
    ⟨rfl, rfl⟩
  refine foldl_keeps_mem (fun bs : List (Ball ℝ) => bs.map Ball.mass = l.map Ball.mass ∧
    (bs.map Ball.kinetic).sum = (l.map Ball.kinetic).sum) _ _ (fun bs1 j hj h1 => ?_) _ hbs
  have hij : i ≠ j := by
    have := (List.mem_range'_1.mp hj).1
    omega
  obtain ⟨e1, e2⟩ := collideBallsAt_energy i j hij bs1 (by rw [h1.1]; exact hpos)
  exact ⟨e1.trans h1.1, e2.trans h1.2⟩

/-- The ball-box resolver returns normally and keeps both masses and the summed kinetic
energy of ball and box. -/
theorem collideBallBox_energy (b : Ball ℝ) (box : Box ℝ) (j : Int)
    (h1 : 0 < b.mass) (h2 : 0 < box.mass) :
    ∃ b1 box1, collideBallBox Real.sqrt b box j = .ok (b1, box1) ∧
      b1.mass = b.mass ∧ box1.mass = box.mass ∧
      b1.kinetic + box1.kinetic = b.kinetic + box.kinetic := by
  obtain ⟨b1, box1, e, hk⟩ := collideBallBox_kinetic b box j h1 h2
  refine ⟨b1, box1, e, ?_, ?_, hk⟩
  · obtain ⟨o1, o2, o3⟩ := collideBallBox_outcome b box j
    by_cases hl : b.lastHit = j
    · rw [o1 hl] at e
      cases e
      rfl
    · by_cases hr : resolves b box j
      · rw [collideBallBox_resolved b box j hr] at e
        cases e
        rfl
      · rw [o2 hl hr] at e
        cases e
        rfl
  · obtain ⟨o1, o2, o3⟩ := collideBallBox_outcome b box j
    by_cases hl : b.lastHit = j
    · rw [o1 hl] at e
      cases e
      rfl
    · by_cases hr : resolves b box j
      · rw [collideBallBox_resolved b box j hr] at e
        cases e
        rfl
      · rw [o2 hl hr] at e
        cases e
        rfl

/-- One ball-box call returns normally and keeps every mass and the total kinetic
energy. -/
theorem collideBallBoxAt_energy (i j : Nat) (s : Game ℝ)
    (hb : ∀ m ∈ s.balls.map Ball.mass, 0 < m) (hx : ∀ m ∈ s.boxes.map Box.mass, 0 < m) :
    ∃ s1, collideBallBoxAt Real.sqrt i j s = .ok s1 ∧
      s1.balls.map Ball.mass = s.balls.map Ball.mass ∧
      s1.boxes.map Box.mass = s.boxes.map Box.mass ∧
      totalKinetic s1 = totalKinetic s := by
  unfold collideBallBoxAt
  cases h1 : s.balls[i]? with
  | none => exact ⟨s, rfl, rfl, rfl, rfl⟩
  | some b =>
    cases h2 : s.boxes[j]? with
    | none => exact ⟨s, rfl, rfl, rfl, rfl⟩
    | some box =>
      have p1 := pos_of_mem_map Ball.mass _ hb b (List.getElem?_mem h1)
      have p2 := pos_of_mem_map Box.mass _ hx box (List.getElem?_mem h2)
      obtain ⟨b1, box1, e, m1, m2, hk⟩ := collideBallBox_energy b box (j : Int) p1 p2
      simp only [e]
      refine ⟨_, rfl, map_set_one _ _ _ _ _ h1 m1, map_set_one _ _ _ _ _ h2 m2, ?_⟩
      simp only [totalKinetic]
      rw [sum_map_set Ball.kinetic _ i b1 b h1, sum_map_set Box.kinetic _ j box1 box h2]
      linarith

/-- A row of the ball-box loops returns normally and keeps every mass and the total
kinetic energy. -/
theorem ballBoxRow_energy (i n : Nat) (s : Game ℝ)
    (hb : ∀ m ∈ s.balls.map Ball.mass, 0 < m) (hx : ∀ m ∈ s.boxes.map Box.mass, 0 < m) :
    ∃ s1, ballBoxRow Real.sqrt i n s = .ok s1 ∧
      s1.balls.map Ball.mass = s.balls.map Ball.mass ∧
      s1.boxes.map Box.mass = s.boxes.map Box.mass ∧
      totalKinetic s1 = totalKinetic s := by
  induction n with
  | zero => exact ⟨s, rfl, rfl, rfl, rfl⟩
  | succ n ih =>
    obtain ⟨s1, e1, a1, a2, a3⟩ := ih
    obtain ⟨s2, e2, c1, c2, c3⟩ := collideBallBoxAt_energy i n s1
      (by rw [a1]; exact hb) (by rw [a2]; exact hx)
    exact ⟨s2, by rw [ballBoxRow_succ _ _ _ _ _ e1, e2], c1.trans a1, c2.trans a2,
      c3.trans a3⟩

/-- The rows of the ball-box loops return normally and keep every mass and the total
kinetic energy. -/
theorem ballBoxRows_energy (m : Nat) (s : Game ℝ)
    (hb : ∀ m ∈ s.balls.map Ball.mass, 0 < m) (hx : ∀ m ∈ s.boxes.map Box.mass, 0 < m) :
    ∃ s1, ballBoxRows Real.sqrt m s = .ok s1 ∧
      s1.balls.map Ball.mass = s.balls.map Ball.mass ∧
      s1.boxes.map Box.mass = s.boxes.map Box.mass ∧
      totalKinetic s1 = totalKinetic s := by
  induction m with
  | zero => exact ⟨s, rfl, rfl, rfl, rfl⟩
  | succ m ih =>
    obtain ⟨s1, e1, a1, a2, a3⟩ := ih
    obtain ⟨s2, e2, c1, c2, c3⟩ := ballBoxRow_energy m s1.boxes.length s1
      (by rw [a1]; exact hb) (by rw [a2]; exact hx)
    exact ⟨s2, by rw [ballBoxRows_succ _ _ _ _ e1, e2], c1.trans a1, c2.trans a2,
      c3.trans a3⟩

/-- The kinetic energy of a box of positive mass is not negative. -/
theorem Box.kinetic_nonneg (b : Box ℝ) (h : 0 < b.mass) : 0 ≤ b.kinetic := by
  unfold Box.kinetic
  positivity

/-- The friction loop multiplies the summed kinetic energy of the boxes by `(1 - f)^2`
and keeps the balls. -/
theorem frictionPhase_energy (sliders : Fin numberOfSliders → Slider ℝ) (g : Game ℝ) :
    (frictionPhase sliders g).balls = g.balls ∧
    ((frictionPhase sliders g).boxes.map Box.kinetic).sum
      = (1 - frictionValue sliders) ^ 2 * (g.boxes.map Box.kinetic).sum := by
  refine ⟨rfl, ?_⟩
  simp only [frictionPhase, List.map_map]
  rw [← List.sum_map_mul_left]
  congr 1
  apply List.map_congr_left
  intro b _
  simp only [Function.comp, frictBoxes_eq, Box.kinetic]
  ring

/-- A sum of kinetic energies of boxes of positive mass is not negative. -/
theorem boxes_kinetic_nonneg (l : List (Box ℝ)) (h : ∀ b ∈ l, 0 < b.mass) :
    0 ≤ (l.map Box.kinetic).sum := by
  apply List.sum_nonneg
  intro x hx
  simp only [List.mem_map] at hx
  obtain ⟨b, hb, rfl⟩ := hx
  exact Box.kinetic_nonneg b (h b hb)

/-- Positivity of the masses of a list in terms of the list of masses. -/
theorem pos_map_of_forall {β : Type} (f : β → ℝ) (l : List β) (h : ∀ b ∈ l, 0 < f b) :
    ∀ m ∈ l.map f, 0 < m := by
  intro m hm
  simp only [List.mem_map] at hm
  obtain ⟨b, hb, rfl⟩ := hm
  exact h b hb

/-- Claim C18. Energy invariant of a whole tick, over the reals: for every world in which
all ball and box masses are positive and every friction value `f` in `[0, 1]`, the physics
of `Update` (moves, wall containment, ball-ball, ball-box and box-box loops, friction)
returns normally, keeps the masses positive and does not increase the total kinetic
energy, the sum of `(1/2) m (vx^2 + vy^2)` over all balls and boxes; and when `f = 0` the
total kinetic energy after the tick equals the total before it. -/
theorem Update_energy (sliders : Fin numberOfSliders → Slider ℝ) (g : Game ℝ)
    (hm : massesPositive g) (hf0 : 0 ≤ frictionValue sliders)
    (hf1 : frictionValue sliders ≤ 1) :
    ∃ g1, Update Real.sqrt sliders g = .ok g1 ∧ massesPositive g1 ∧
      totalKinetic g1 ≤ totalKinetic g ∧
      (frictionValue sliders = 0 → totalKinetic g1 = totalKinetic g) := by
  have hb := pos_map_of_forall Ball.mass g.balls hm.1
  have hx := pos_map_of_forall Box.mass g.boxes hm.2
  obtain ⟨mb1, mb2⟩ := moveBalls_frame g.balls
  obtain ⟨mx1, mx2⟩ := moveBoxes_frame g.boxes
  obtain ⟨bb1, bb2⟩ := ballBallPass_energy (moveBalls g.balls) (by rw [mb1]; exact hb)
  have p1 : (beforeBallBox Real.sqrt g).balls.map Ball.mass = g.balls.map Ball.mass :=
    bb1.trans mb1
  have p2 : (beforeBallBox Real.sqrt g).boxes.map Box.mass = g.boxes.map Box.mass := mx1
  have p3 : totalKinetic (beforeBallBox Real.sqrt g) = totalKinetic g := by
    simp only [totalKinetic, beforeBallBox]
    rw [bb2, mb2, mx2]
  obtain ⟨s, es, q1, q2, q3⟩ := ballBoxRows_energy (beforeBallBox Real.sqrt g).balls.length
    (beforeBallBox Real.sqrt g) (by rw [p1]; exact hb) (by rw [p2]; exact hx)
  obtain ⟨x1, x2⟩ := boxBoxPass_frame s.boxes
  obtain ⟨f1, f2⟩ := frictionPhase_energy sliders { s with boxes := boxBoxPass s.boxes }
  have r1 : (afterBallBox sliders s).balls = s.balls := rfl
  have r2 : (afterBallBox sliders s).boxes.map Box.mass = s.boxes.map Box.mass := by
    simp only [afterBallBox, List.map_map]
    rw [← x1]
    apply List.map_congr_left
    intro b _
    simp only [Function.comp, frictBoxes_eq]
  have r3 : ((afterBallBox sliders s).boxes.map Box.kinetic).sum
      = (1 - frictionValue sliders) ^ 2 * (s.boxes.map Box.kinetic).sum := by
    rw [← x2]
    exact f2
  have hSpos : 0 ≤ (s.boxes.map Box.kinetic).sum := by
    apply boxes_kinetic_nonneg
    intro b hb1
    have : b.mass ∈ s.boxes.map Box.mass := List.mem_map_of_mem Box.mass hb1
    rw [q2, p2] at this
    exact hx _ this
  have hc : (1 - frictionValue sliders) ^ 2 ≤ 1 := by
    have h1 : 0 ≤ 1 - frictionValue sliders := by linarith
    have h2 : 1 - frictionValue sliders ≤ 1 := by linarith
    nlinarith
  refine ⟨afterBallBox sliders s, Update_eq _ _ _ _ es, ⟨?_, ?_⟩, ?_, fun h0 => ?_⟩
  · intro b hb1
    have : b.mass ∈ (afterBallBox sliders s).balls.map Ball.mass :=
      List.mem_map_of_mem Ball.mass hb1
    rw [r1, q1, p1] at this
    exact hb _ this
  · intro b hb1
    have : b.mass ∈ (afterBallBox sliders s).boxes.map Box.mass :=
      List.mem_map_of_mem Box.mass hb1
    rw [r2, q2, p2] at this
    exact hx _ this
  · rw [← p3, ← q3]
    simp only [totalKinetic]
    rw [r1, r3]
    nlinarith
  · rw [← p3, ← q3]
    simp only [totalKinetic]
    rw [r1, r3, h0]
    ring

/-- The friction value of `initSliders` is 0. -/
theorem frictionValue_init :
    frictionValue (initSliders : Fin numberOfSliders → Slider ℝ) = 0 := by
  simp [frictionValue, initSliders, setSlider, Slider.Value, frictionSlider]

/-- Witness of C18: one tick of `cornerWorld` without friction. -/
theorem Update_energy_witness :
    massesPositive (cornerWorld : Game ℝ) ∧
    0 ≤ frictionValue (initSliders : Fin numberOfSliders → Slider ℝ) ∧
    frictionValue (initSliders : Fin numberOfSliders → Slider ℝ) ≤ 1 ∧
    ∃ g1, Update Real.sqrt initSliders (cornerWorld : Game ℝ) = .ok g1 ∧
      totalKinetic g1 = totalKinetic (cornerWorld : Game ℝ) := by
  have h1 : massesPositive (cornerWorld : Game ℝ) := by
    constructor
    · intro b hb
      simp only [cornerWorld, List.mem_singleton] at hb
      rw [hb]
      norm_num
    · intro b hb
      simp only [cornerWorld, List.mem_cons, List.mem_singleton, List.not_mem_nil,
        or_false] at hb
      rcases hb with hb | hb <;> rw [hb] <;> norm_num
  have h2 : 0 ≤ frictionValue (initSliders : Fin numberOfSliders → Slider ℝ) := by
    rw [frictionValue_init]
  have h3 : frictionValue (initSliders : Fin numberOfSliders → Slider ℝ) ≤ 1 := by
    rw [frictionValue_init]
    norm_num
  obtain ⟨g1, e, -, -, h0⟩ := Update_energy initSliders (cornerWorld : Game ℝ) h1 h2 h3
  exact ⟨h1, h2, h3, g1, e, h0 frictionValue_init⟩

end Brownian
